import Mathlib

set_option maxRecDepth 100000

/-!
Verification development for the XInclude resolution service of an XML
editing extension (`src/services/xinclude.ts`).

The development shallow-embeds the two components of the service:

* a streaming XML scanner modelling the saxes parser events the service
  consumes (open/close tag events with namespace-resolved names,
  attributes, and the character position just after the closing `>` of
  each tag, plus the current line/column);
* the XPointer fragment selector `selectXPointerFragment` as a fold of the
  source's `opentag`/`closetag` handlers over the event stream;
* the inclusion resolver `resolveXIncludes` as a fold of its handlers over
  the event stream followed by materialisation of the pending per-directive
  jobs (fetch / document open, XML-declaration strip, XPointer narrowing,
  recursive resolution, marker wrapping, error containment).

External collaborators (network fetch, the document store, the platform
URL parser, configuration) are abstracted as an explicit environment.
Machine details of the host (JavaScript) semantics that the source relies
on - `String.prototype.substring`, `lastIndexOf`, regular expressions,
truthiness - are embedded as explicit functions, each one commented with
the JS behaviour it mirrors.
-/

/-- JS whitespace (the common members of the `\s` class used by the source:
space, tab, newline, carriage return, vertical tab, form feed). -/
def jsWs (c : Char) : Bool :=
  c = ' ' || c = '\t' || c = '\n' || c = '\r' || c = '\x0b' || c = '\x0c'

/-- JS line terminators excluded by `.` in a regular expression. -/
def jsLineTerm (c : Char) : Bool :=
  c = '\n' || c = '\r'

/-- Mirrors `String.prototype.trim`. -/
def jsTrim (s : String) : String :=
  String.mk (((s.data.dropWhile jsWs).reverse.dropWhile jsWs).reverse)

/-- Mirrors `String.prototype.substring(a, b)`: clamps both indices to the
string and swaps them when given out of order. -/
def jsSubstring (s : String) (a b : Nat) : String :=
  String.mk ((s.data.take (max a b)).drop (min a b))

/-- Mirrors `String.prototype.substring(a)`. -/
def jsSubstringFrom (s : String) (a : Nat) : String :=
  String.mk (s.data.drop a)

/-- Left-to-right scan keeping the index of the most recent occurrence. -/
def lastIdxAux (c : Char) : List Char → Nat → Option Nat → Option Nat
  | [], _, acc => acc
  | x :: xs, i, acc => lastIdxAux c xs (i + 1) (if x = c then some i else acc)

/-- Mirrors `String.prototype.lastIndexOf(c, bound)` for a single-character
search string: the largest index `j ≤ bound` with `s[j] = c`. -/
def lastIndexOfWithin (s : String) (c : Char) (bound : Nat) : Option Nat :=
  lastIdxAux c (s.data.take (bound + 1)) 0 none

/-- Increment the last entry of a list of counters (JS
`arr[arr.length - 1] += 1` on a nonempty array; no-op on an empty one). -/
def incLast : List Nat → List Nat
  | [] => []
  | [x] => [x + 1]
  | x :: y :: xs => x :: incLast (y :: xs)

/-- Read the last entry of a counter array with a default. -/
def lastD (l : List Nat) (d : Nat) : Nat :=
  l.getLastD d

/-- Read index `i` of a sparse JS array (`undefined` becomes `none`). -/
def getSparse (l : List (Option Nat)) (i : Nat) : Option Nat :=
  (l.get? i).join

/-- Write index `i` of a sparse JS array, padding with `undefined`. -/
def setSparse (l : List (Option Nat)) (i : Nat) (v : Nat) : List (Option Nat) :=
  match l, i with
  | [], 0 => [some v]
  | [], n + 1 => none :: setSparse [] n v
  | _ :: xs, 0 => some v :: xs
  | x :: xs, n + 1 => x :: setSparse xs n v

/-- Numeric value of a decimal digit string (the restriction of JS
`Number(token)` to the `/^[1-9]\d*$/` tokens accepted by the source). -/
def digitsToNat (l : List Char) : Nat :=
  l.foldl (fun a c => a * 10 + (c.toNat - 48)) 0

/-- Split a character list on `/` (mirrors `content.split("/")`). -/
def splitSlash : List Char → List (List Char)
  | [] => [[]]
  | c :: cs =>
    let rest := splitSlash cs
    if c = '/' then [] :: rest
    else match rest with
      | [] => [[c]]
      | r :: rs => (c :: r) :: rs

/-- Uppercase hexadecimal digit. -/
def hexDigit (n : Nat) : Char :=
  if n < 10 then Char.ofNat (48 + n) else Char.ofNat (55 + n)

/-- UTF-8 bytes of a code point (as used by `encodeURIComponent`). -/
def utf8Bytes (n : Nat) : List Nat :=
  if n < 0x80 then [n]
  else if n < 0x800 then [0xC0 + n / 64, 0x80 + n % 64]
  else if n < 0x10000 then
    [0xE0 + n / 4096, 0x80 + (n / 64) % 64, 0x80 + n % 64]
  else
    [0xF0 + n / 262144, 0x80 + (n / 4096) % 64, 0x80 + (n / 64) % 64,
     0x80 + n % 64]

/-- Percent-encode one code point, as `encodeURIComponent` does for every
character above the ASCII range. -/
def percentEncodeChar (c : Char) : List Char :=
  (utf8Bytes c.toNat).foldr
    (fun b acc => '%' :: hexDigit (b / 16) :: hexDigit (b % 16) :: acc) []

/-- Decimal rendering of a natural number, used when the source
interpolates a number into a template string. -/
def natStr (n : Nat) : String :=
  Nat.repr n

/-- First association for a key (mirrors JS object property lookup for the
attribute records built by the scanner, whose keys are insertion-ordered
qualified attribute names). -/
def assocFind (l : List (String × String)) (k : String) : Option String :=
  match l with
  | [] => none
  | (k', v) :: rest => if k' = k then some v else assocFind rest k

/-! ### XML event model

The service consumes saxes parser events configured with `xmlns: true` and
`position: true`.  An open-tag event carries the namespace-resolved node
(qualified name, prefix, local name, uri, attribute records keyed by the
qualified attribute name, self-closing flag) and the parser position just
after the `>` of the tag, together with the current line/column.  A
close-tag event carries the node and the position just after the `>` of
the closing tag (for a self-closing tag it fires immediately after the
open event at the same position).  -/

def XML_NS : String := "http://www.w3.org/XML/1998/namespace"

def XMLNS_URI : String := "http://www.w3.org/2000/xmlns/"

/-- Modelled from the spec: `XINCLUDE_NS` and `XINCLUDE_LOCAL` are imported
from `src/constants`, a module of this repository that is not among the
provided sources.  The spec says inclusion elements are "identified by a
fixed namespace + local name"; the standard XInclude namespace and local
name instantiate that. -/
def XINCLUDE_NS : String := "http://www.w3.org/2001/XInclude"

/-- Modelled from the spec: see `XINCLUDE_NS`. -/
def XINCLUDE_LOCAL : String := "include"

/-- A saxes attribute record (`SaxesAttributeNS`): qualified name, prefix,
local name, namespace uri, value.  The source field `local` is embedded as
`localName` and `prefix` as `pfx` (both source names are Lean keywords). -/
structure XAttr where
  name : String
  pfx : String
  localName : String
  uri : String
  value : String
deriving DecidableEq, Repr

/-- A saxes tag (`SaxesTag`) as consumed by the service. -/
structure XNode where
  name : String
  pfx : String
  localName : String
  uri : String
  attrs : List (String × XAttr)
  isSelfClosing : Bool
deriving DecidableEq, Repr

/-- A parser event consumed by the service's handlers. -/
inductive XEvent where
  | openTag (node : XNode) (pos line col : Nat)
  | closeTag (node : XNode) (pos : Nat)
deriving DecidableEq, Repr

/-! ### Streaming scanner

A character-at-a-time embedding of the saxes scan on the language subset
the service operates on: elements with attributes (double- or
single-quoted values), self-closing tags, processing instructions, text.
Outside that subset (comments, doctype, CDATA, entity references, raw `<`
or `&` in attribute values, text or a second root element at the top
level, mismatched or unclosed tags, unbound namespace prefixes) the
scanner enters the failed state, modelling the saxes parse error that the
service catches.  Events emitted before the failure are kept, as saxes
delivers them before throwing. -/

def isNameChar (c : Char) : Bool :=
  c.isAlphanum || c = ':' || c = '-' || c = '_' || c = '.'

/-- Attribute buffer of a tag being scanned: qualified tag name and the
attribute (qualified name, raw value) pairs collected so far. -/
structure TagBuf where
  nm : List Char
  rawAttrs : List (String × String)
deriving DecidableEq, Repr

inductive ScanMode where
  | text
  | sawLt
  | pi (sawQ : Bool)
  | tagName (buf : List Char)
  | inTag (t : TagBuf)
  | aName (t : TagBuf) (buf : List Char)
  | aEq (t : TagBuf) (an : List Char)
  | aVal0 (t : TagBuf) (an : List Char)
  | aVal (t : TagBuf) (an : List Char) (q : Char) (buf : List Char)
  | slashTag (t : TagBuf)
  | closeName (buf : List Char)
  | closeEnd (buf : List Char)
deriving DecidableEq, Repr

structure ScanSt where
  mode : ScanMode
  pos : Nat
  line : Nat
  col : Nat
  events : List XEvent
  stack : List (XNode × List (String × String))
  nsEnv : List (String × String)
  rootSeen : Bool
  failed : Bool
deriving DecidableEq, Repr

def initScan : ScanSt :=
  { mode := .text, pos := 0, line := 1, col := 0, events := [], stack := [],
    nsEnv := [("xml", XML_NS), ("", "")], rootSeen := false, failed := false }

/-- Split a qualified name at its first colon. -/
def splitQName (l : List Char) : String × String :=
  match l.findIdx? (· = ':') with
  | none => ("", String.mk l)
  | some i => (String.mk (l.take i), String.mk (l.drop (i + 1)))

/-- Namespace declarations contributed by the raw attributes of a tag. -/
def nsDecls (ras : List (String × String)) : List (String × String) :=
  ras.filterMap fun kv =>
    if kv.1 = "xmlns" then some ("", kv.2)
    else if kv.1.data.take 6 = ['x', 'm', 'l', 'n', 's', ':'] then
      some (String.mk (kv.1.data.drop 6), kv.2)
    else none

/-- Resolve one raw attribute into a saxes attribute record; `none` models
the saxes error on an unbound attribute prefix. -/
def resolveAttr (env : List (String × String)) (kv : String × String) :
    Option (String × XAttr) :=
  if kv.1 = "xmlns" then
    some (kv.1, ⟨kv.1, "xmlns", "", XMLNS_URI, kv.2⟩)
  else
    let pl := splitQName kv.1.data
    if pl.1 = "" then some (kv.1, ⟨kv.1, "", pl.2, "", kv.2⟩)
    else if pl.1 = "xmlns" then
      some (kv.1, ⟨kv.1, pl.1, pl.2, XMLNS_URI, kv.2⟩)
    else match assocFind env pl.1 with
      | some u => some (kv.1, ⟨kv.1, pl.1, pl.2, u, kv.2⟩)
      | none => none

def resolveAttrs (env : List (String × String)) :
    List (String × String) → Option (List (String × XAttr))
  | [] => some []
  | kv :: rest => do
    let a ← resolveAttr env kv
    let as_ ← resolveAttrs env rest
    pure (a :: as_)

/-- Advance position and line/column over one consumed character. -/
def advanceCh (st : ScanSt) (c : Char) : ScanSt :=
  if c = '\n' then { st with pos := st.pos + 1, line := st.line + 1, col := 0 }
  else { st with pos := st.pos + 1, col := st.col + 1 }

/-- Finish an open tag on its `>`: resolve namespaces, emit events, and
push (or, when self-closing, also immediately close). -/
def finishOpen (st : ScanSt) (t : TagBuf) (selfC : Bool) : ScanSt :=
  if st.stack = [] && st.rootSeen then { st with failed := true }
  else
    let env' := nsDecls t.rawAttrs ++ st.nsEnv
    let pl := splitQName t.nm
    let uriO : Option String :=
      if pl.1 = "" then some ((assocFind env' "").getD "")
      else assocFind env' pl.1
    match uriO, resolveAttrs env' t.rawAttrs with
    | some u, some as_ =>
      let node : XNode :=
        { name := String.mk t.nm, pfx := pl.1, localName := pl.2, uri := u,
          attrs := as_, isSelfClosing := selfC }
      if selfC then
        { st with
          mode := .text,
          events := st.events ++
            [.openTag node st.pos st.line st.col, .closeTag node st.pos],
          rootSeen := true }
      else
        { st with
          mode := .text,
          events := st.events ++ [.openTag node st.pos st.line st.col],
          stack := (node, st.nsEnv) :: st.stack, nsEnv := env',
          rootSeen := true }
    | _, _ => { st with failed := true }

/-- Finish a close tag on its `>`: match the innermost open element. -/
def finishClose (st : ScanSt) (nm : String) : ScanSt :=
  match st.stack with
  | [] => { st with failed := true }
  | (node, saved) :: rest =>
    if node.name = nm then
      { st with
        mode := .text, events := st.events ++ [.closeTag node st.pos],
        stack := rest, nsEnv := saved }
    else { st with failed := true }

def scanStep (st : ScanSt) (c : Char) : ScanSt :=
  if st.failed then st
  else
    let stA := advanceCh st c
    match st.mode with
    | .text =>
      if c = '<' then { stA with mode := .sawLt }
      else if c = '&' then { st with failed := true }
      else if st.stack = [] && !jsWs c then { st with failed := true }
      else stA
    | .sawLt =>
      if c = '?' then { stA with mode := .pi false }
      else if c = '/' then { stA with mode := .closeName [] }
      else if isNameChar c && c != ':' then { stA with mode := .tagName [c] }
      else { st with failed := true }
    | .pi sawQ =>
      if c = '>' && sawQ then { stA with mode := .text }
      else if c = '?' then { stA with mode := .pi true }
      else { stA with mode := .pi false }
    | .tagName buf =>
      if isNameChar c then { stA with mode := .tagName (buf ++ [c]) }
      else if jsWs c then { stA with mode := .inTag ⟨buf, []⟩ }
      else if c = '/' then { stA with mode := .slashTag ⟨buf, []⟩ }
      else if c = '>' then finishOpen stA ⟨buf, []⟩ false
      else { st with failed := true }
    | .inTag t =>
      if jsWs c then stA
      else if c = '/' then { stA with mode := .slashTag t }
      else if c = '>' then finishOpen stA t false
      else if isNameChar c && c != ':' then { stA with mode := .aName t [c] }
      else { st with failed := true }
    | .aName t buf =>
      if isNameChar c then { stA with mode := .aName t (buf ++ [c]) }
      else if c = '=' then { stA with mode := .aVal0 t buf }
      else if jsWs c then { stA with mode := .aEq t buf }
      else { st with failed := true }
    | .aEq t an =>
      if jsWs c then stA
      else if c = '=' then { stA with mode := .aVal0 t an }
      else { st with failed := true }
    | .aVal0 t an =>
      if jsWs c then stA
      else if c = '"' || c = Char.ofNat 39 then
        { stA with mode := .aVal t an c [] }
      else { st with failed := true }
    | .aVal t an q buf =>
      if c = q then
        { stA with
          mode := .inTag ⟨t.nm, t.rawAttrs ++ [(String.mk an, String.mk buf)]⟩ }
      else if c = '<' || c = '&' then { st with failed := true }
      else { stA with mode := .aVal t an q (buf ++ [c]) }
    | .slashTag t =>
      if c = '>' then finishOpen stA t true
      else { st with failed := true }
    | .closeName buf =>
      if isNameChar c then { stA with mode := .closeName (buf ++ [c]) }
      else if c = '>' then finishClose stA (String.mk buf)
      else if jsWs c then { stA with mode := .closeEnd buf }
      else { st with failed := true }
    | .closeEnd buf =>
      if jsWs c then stA
      else if c = '>' then finishClose stA (String.mk buf)
      else { st with failed := true }

/-- Result of scanning a whole document: the events delivered (all of them
on success, the ones before the error on failure), whether the scan
failed, and the final parser position/line/column. -/
structure ScanResult where
  events : List XEvent
  failed : Bool
  finalPos : Nat
  finalLine : Nat
  finalCol : Nat
deriving DecidableEq, Repr

def scanList (st : ScanSt) (l : List Char) : ScanSt :=
  l.foldl scanStep st

def scanFinish (st : ScanSt) : ScanResult :=
  let bad :=
    st.failed ||
    (match st.mode with | .text => false | _ => true) ||
    !st.stack.isEmpty || !st.rootSeen
  { events := st.events, failed := bad, finalPos := st.pos,
    finalLine := st.line, finalCol := st.col }

/-- Scan a document, mirroring `parser.write(xmlSource).close()`. -/
def scanEvents (s : String) : ScanResult :=
  scanFinish (scanList initScan s.data)

/-! ### XPointer expression parsing

Embeds `normalizeXPointer` and `parseElementScheme`, including the exact
JS regular expressions they use (`.` does not match line terminators; the
quote classes in the `id(...)` pattern accept either quote character on
either side). -/

def isQuoteCh (c : Char) : Bool :=
  c = '"' || c = Char.ofNat 39

/-- Match `/^KW\((.+)\)$/` against a string: the group is everything
between `KW(` and the final `)` (greedy), nonempty, and free of line
terminators (JS `.`). -/
def regexEnvelope (kw : String) (s : String) : Option String :=
  let l := s.data
  let k := kw.data ++ ['(']
  let n := k.length
  if decide (l.take n = k) && decide (n + 2 ≤ l.length) &&
     decide (l.getLast? = some ')') &&
     ((l.drop n).dropLast.all fun c => !jsLineTerm c) then
    some (String.mk ((l.drop n).dropLast))
  else none

/-- Match `/^id\(['"]([^'"]+)['"]\)$/`: the two quotes need not pair up,
and the group is any nonempty quote-free run. -/
def regexIdArg (s : String) : Option String :=
  let l := s.data
  let mid := ((l.drop 4).dropLast).dropLast
  if decide (l.take 3 = ['i', 'd', '(']) && decide (7 ≤ l.length) &&
     (match l.get? 3 with | some q => isQuoteCh q | none => false) &&
     decide (l.getLast? = some ')') &&
     (match l.dropLast.getLast? with | some q => isQuoteCh q | none => false) &&
     !mid.isEmpty && (mid.all fun c => !isQuoteCh c) then
    some (String.mk mid)
  else none

/-- Embeds `normalizeXPointer`. -/
def normalizeXPointer (xpointer : String) : String :=
  let trimmed := jsTrim xpointer
  let inner :=
    match regexEnvelope "xpointer" trimmed with
    | some w => jsTrim w
    | none => trimmed
  match regexIdArg inner with
  | some idv => idv
  | none => inner

/-- The `ElementScheme` tagged union of the source (`"positional"` /
`"id"`). -/
inductive ElementScheme where
  | positional (steps : List Nat)
  | idScheme (id : String) (steps : List Nat)
deriving DecidableEq, Repr

/-- Mirrors `/^[1-9]\d*$/.test(token)`. -/
def isIntegerToken (l : List Char) : Bool :=
  match l with
  | [] => false
  | c :: rest => ('1' ≤ c && c ≤ '9') && rest.all (·.isDigit)

def mapIntSteps : List (List Char) → Except String (List Nat)
  | [] => .ok []
  | t :: ts =>
    if isIntegerToken t then
      match mapIntSteps ts with
      | .ok rest => .ok (digitsToNat t :: rest)
      | .error e => .error e
    else .error ("Invalid element() step: " ++ String.mk t)

/-- Embeds `parseElementScheme`; `.error` models the thrown exceptions. -/
def parseElementScheme (xpointer : String) :
    Except String (Option ElementScheme) :=
  let trimmed := jsTrim xpointer
  let inner :=
    match regexEnvelope "xpointer" trimmed with
    | some w => jsTrim w
    | none => trimmed
  match regexEnvelope "element" inner with
  | none => .ok none
  | some body =>
    let content := jsTrim body
    if content = "" then .error "Empty element() XPointer."
    else
      let tokens := (splitSlash content.data).filter (fun t => !t.isEmpty)
      match tokens with
      | [] => .error "Empty element() XPointer."
      | first :: rest =>
        if isIntegerToken first then
          match mapIntSteps (first :: rest) with
          | .ok steps => .ok (some (.positional steps))
          | .error e => .error e
        else
          match mapIntSteps rest with
          | .ok steps => .ok (some (.idScheme (String.mk first) steps))
          | .error e => .error e

/-- Embeds `matchesId`: any attribute whose local name is `id`, carried in
the XML namespace or with the `xml` prefix or with no prefix at all, and
whose value equals the target. -/
def matchesId (attributes : List (String × XAttr)) (targetId : String) :
    Bool :=
  attributes.any fun kv =>
    let attr := kv.2
    if attr.localName ≠ "id" then false
    else
      let isXmlId := attr.uri = XML_NS || attr.pfx = "xml"
      let isPlainId := attr.pfx = ""
      (isXmlId || isPlainId) && attr.value = targetId

/-- Embeds the selector's `matchesPath` helper. -/
def matchesPath (path target : List Nat) : Bool :=
  path.length == target.length &&
    ((path.zip target).all fun st => st.1 == st.2)

/-! ### Fragment selector state machine

Embeds the mutable closure state of `selectXPointerFragment` and its
`opentag`/`closetag` handlers; `-1` sentinel positions become `none`, the
sparse diagnostic arrays become `List (Option Nat)`. -/

structure SelSt where
  depth : Nat
  found : Bool
  targetDepth : Option Nat
  startPos : Option Nat
  endPos : Option Nat
  childCounts : List Nat
  elementPath : List Nat
  positionalCounts : List (Option Nat)
  idCounts : List (Option Nat)
  idAnchorPath : Option (List Nat)
  idAnchorFound : Bool
deriving DecidableEq, Repr

def initSel : SelSt :=
  { depth := 0, found := false, targetDepth := none, startPos := none,
    endPos := none, childCounts := [0], elementPath := [],
    positionalCounts := [], idCounts := [], idAnchorPath := none,
    idAnchorFound := false }

/-- Embeds the `markTarget` closure: record the start of the matched tag
(searching backwards for `<`, throwing when there is none) and arm the
close-tag wait, or complete immediately for a self-closing tag. -/
def markTarget (xmlSource : String) (node : XNode) (pos : Nat) (st : SelSt) :
    Except String SelSt :=
  match lastIndexOfWithin xmlSource '<' (pos - 1) with
  | none => .error "Could not find start of xpointer target."
  | some tagStartPosition =>
    .ok { st with
          found := true,
          startPos := some tagStartPosition,
          targetDepth := if node.isSelfClosing then none else some st.depth,
          endPos := if node.isSelfClosing then some pos else st.endPos }

/-- Embeds the selector's `opentag` handler. -/
def selOpen (xmlSource : String) (scheme : Option ElementScheme)
    (targetId : Option String) (st0 : SelSt) (node : XNode) (pos : Nat) :
    Except String SelSt :=
  let childCounts0 := incLast st0.childCounts
  let currentIndex := lastD childCounts0 0
  let st := { st0 with
              depth := st0.depth + 1,
              childCounts := childCounts0 ++ [0],
              elementPath := st0.elementPath ++ [currentIndex] }
  if st.found then .ok st
  else
    match scheme with
    | some (.positional steps) =>
      if matchesPath st.elementPath steps then markTarget xmlSource node pos st
      else .ok st
    | some (.idScheme idv steps) =>
      let anchorNow := !st.idAnchorFound && matchesId node.attrs idv
      let st1 :=
        if anchorNow then
          { st with idAnchorFound := true, idAnchorPath := some st.elementPath }
        else st
      let afterAnchor : Except String SelSt :=
        if anchorNow && steps.isEmpty then markTarget xmlSource node pos st1
        else .ok st1
      match afterAnchor with
      | .error e => .error e
      | .ok st2 =>
        match st2.idAnchorFound, st2.idAnchorPath with
        | true, some ap =>
          let matchesAnchor :=
            decide (st2.elementPath.length > ap.length) &&
              matchesPath (st2.elementPath.take ap.length) ap
          if matchesAnchor then
            let relativePath := st2.elementPath.drop ap.length
            if matchesPath relativePath steps then
              markTarget xmlSource node pos st2
            else .ok st2
          else .ok st2
        | _, _ => .ok st2
    | none =>
      match targetId with
      | some tid =>
        if matchesId node.attrs tid then markTarget xmlSource node pos st
        else .ok st
      | none => .ok st

/-- Embeds the selector's `closetag` handler. -/
def selClose (scheme : Option ElementScheme) (st : SelSt) (pos : Nat) :
    SelSt :=
  let currentChildCount := lastD st.childCounts 0
  let currentPath := st.elementPath
  let st1 :=
    match scheme with
    | some (.positional steps) =>
      let depthIndex := currentPath.length
      if decide (depthIndex ≤ steps.length) &&
         matchesPath currentPath (steps.take depthIndex) then
        { st with positionalCounts :=
            setSparse st.positionalCounts depthIndex currentChildCount }
      else st
    | _ => st
  let st2 :=
    match scheme with
    | some (.idScheme _ steps) =>
      if st1.idAnchorFound then
        match st1.idAnchorPath with
        | some ap =>
          let depthIndex := currentPath.length
          if matchesPath currentPath ap then
            { st1 with idCounts := setSparse st1.idCounts 0 currentChildCount }
          else if decide (depthIndex > ap.length) then
            let relativePath := currentPath.drop ap.length
            if decide (relativePath.length ≤ steps.length) &&
               matchesPath relativePath (steps.take relativePath.length) then
              { st1 with idCounts :=
                  setSparse st1.idCounts relativePath.length currentChildCount }
            else st1
          else st1
        | none => st1
      else st1
    | _ => st1
  let st3 :=
    if st2.targetDepth = some st2.depth then
      { st2 with endPos := some pos, targetDepth := none }
    else st2
  { st3 with
    elementPath := st3.elementPath.dropLast,
    childCounts := st3.childCounts.dropLast,
    depth := st3.depth - 1 }

def selStep (xmlSource : String) (scheme : Option ElementScheme)
    (targetId : Option String) (st : SelSt) : XEvent → Except String SelSt
  | .openTag node pos _ _ => selOpen xmlSource scheme targetId st node pos
  | .closeTag _ pos => .ok (selClose scheme st pos)

def foldSel (xmlSource : String) (scheme : Option ElementScheme)
    (targetId : Option String) : SelSt → List XEvent → Except String SelSt
  | st, [] => .ok st
  | st, e :: es =>
    match selStep xmlSource scheme targetId st e with
    | .error msg => .error msg
    | .ok st' => foldSel xmlSource scheme targetId st' es

/-- Embeds the `formatStepError` diagnostic template. -/
def formatStepError (step requested available : Nat)
    (anchor : Option String) : String :=
  let anchorInfo :=
    match anchor with
    | some a => " after anchor \"" ++ a ++ "\""
    | none => ""
  "XInclude xpointer element() step " ++ natStr step ++ " out of range" ++
    anchorInfo ++ ": requested " ++ natStr requested ++ ", found " ++
    natStr available ++ " child elements."

/-- Embeds the diagnostic loop `for (let i = 1; ...)` over the recorded
sparse counts: the first later step whose recorded available count falls
short, with the requested and available counts. -/
def firstBadStep (steps : List Nat) (counts : List (Option Nat)) (i : Nat) :
    Option (Nat × Nat × Nat) :=
  if _h : i < steps.length then
    match getSparse counts i with
    | some available =>
      if available < steps.getD i 0 then some (i, steps.getD i 0, available)
      else firstBadStep steps counts (i + 1)
    | none => firstBadStep steps counts (i + 1)
  else none
termination_by steps.length - i

/-- Mirrors `steps.join("/")`. -/
def stepsJoin (steps : List Nat) : String :=
  match steps with
  | [] => ""
  | s :: rest => rest.foldl (fun acc n => acc ++ "/" ++ natStr n) (natStr s)

/-- Embeds `selectXPointerFragment`: parse the expression, run the
streaming scan with the two handlers, and either return the recorded span
or reproduce the diagnostic cascade.  The message of the underlying saxes
parse error on non-well-formed input is abstracted as a fixed string. -/
def selectXPointerFragment (xmlSource xpointer : String) :
    Except String String :=
  match parseElementScheme xpointer with
  | .error e => .error e
  | .ok elementScheme =>
    let targetId : Option String :=
      match elementScheme with
      | some _ => none
      | none => some (normalizeXPointer xpointer)
    if elementScheme = none && targetId = some "" then
      .error "Empty xpointer target."
    else
      let scan := scanEvents xmlSource
      match foldSel xmlSource elementScheme targetId initSel scan.events with
      | .error e => .error e
      | .ok st =>
        if scan.failed then .error "XML parse error"
        else
          match st.startPos, st.endPos with
          | some sp, some ep => .ok (jsSubstring xmlSource sp ep)
          | _, _ =>
            match elementScheme with
            | some (.positional steps) =>
              let overRoot :=
                match st.childCounts.get? 0, steps.get? 0 with
                | some c, some s0 => decide (s0 > c)
                | _, _ => false
              if overRoot then
                .error (formatStepError 1 (steps.getD 0 0)
                  (st.childCounts.getD 0 0) none)
              else
                match firstBadStep steps st.positionalCounts 1 with
                | some (i, req, avail) =>
                  .error (formatStepError (i + 1) req avail none)
                | none =>
                  .error ("XInclude xpointer target not found: " ++
                    stepsJoin steps)
            | some (.idScheme idv steps) =>
              if !st.idAnchorFound then
                .error ("XInclude xpointer target not found: " ++ idv)
              else
                let overAnchor :=
                  match getSparse st.idCounts 0, steps.get? 0 with
                  | some c, some s0 =>
                    decide (steps.length > 0) && decide (c < s0)
                  | _, _ => false
                if overAnchor then
                  .error (formatStepError 1 (steps.getD 0 0)
                    ((getSparse st.idCounts 0).getD 0) (some idv))
                else
                  match firstBadStep steps st.idCounts 1 with
                  | some (i, req, avail) =>
                    .error (formatStepError (i + 1) req avail (some idv))
                  | none =>
                    .error ("XInclude xpointer target not found: " ++ idv)
            | none =>
              .error ("XInclude xpointer target not found: " ++
                (targetId.getD ""))

/-! ### Inclusion resolver

Embeds `resolveXIncludes`.  External collaborators are an explicit
environment: the configuration snapshot, the platform URL parser (the
`new URL(...)` attempts, abstracted since the service only branches on
their success), the legacy `normalizeSchemaUrl` fallback (a repository
utility outside the provided sources), the scheme extractor of
`Uri.parse`, the network fetch, and the document store.  A deferred
directive becomes a job record materialised after the scan; the
materialisation receives the scanner's final position because the JS
error handler reads `resolverParser.position` only when the rejection is
handled, after the synchronous scan has finished. -/

structure SxmlConfig where
  xincludeDepth : Option Nat
  xincludeSupport : Option Bool
deriving DecidableEq, Repr

/-- Mirrors `workspace.getConfiguration("sxml").get("xincludeDepth") as
number || 50`: an absent or zero (falsy) setting becomes 50. -/
def depthLimitEff (cfg : SxmlConfig) : Nat :=
  match cfg.xincludeDepth with
  | some n => if n = 0 then 50 else n
  | none => 50

structure ResolveEnv where
  cfg : SxmlConfig
  urlTryParse : String → Option String
  urlTryParseWithBase : String → String → Option String
  normalizeSchemaUrl : String → String
  uriScheme : String → String
  fetchHttp : String → Except String String
  openDoc : String → Except String (String × String)

/-- Embeds `iriToUri`: percent-encode every character above the ASCII
range, leave ASCII untouched. -/
def iriToUri (iri : String) : String :=
  String.mk (iri.data.foldr
    (fun c acc => if c.toNat ≤ 0x7f then c :: acc else percentEncodeChar c ++ acc)
    [])

/-- Embeds `resolveXIncludeHref`: absolute parse, then relative against
the base, then the legacy fallback. -/
def resolveXIncludeHref (env : ResolveEnv) (href : String)
    (baseUri : Option String) : String :=
  let hrefUri := iriToUri href
  match env.urlTryParse hrefUri with
  | some u => u
  | none =>
    match baseUri with
    | some b =>
      match env.urlTryParseWithBase hrefUri b with
      | some u => u
      | none => env.normalizeSchemaUrl href
    | none => env.normalizeSchemaUrl href

/-- Helper consuming the lazy `.*?\?>` tail of the declaration-stripping
regex: everything up to the first `?>`, with no line terminator allowed
before it (JS `.`). -/
def stripScanBody : List Char → Option (List Char)
  | [] => none
  | c :: rest =>
    if c = '?' && rest.head? = some '>' then some rest.tail
    else if jsLineTerm c then none
    else stripScanBody rest

/-- Embeds `doc.replace(/^\s*<\?xml.*?\?>\s*/, "")`: note that the
pattern requires only the five characters `<?xml` after the leading
whitespace, so any processing instruction whose target starts with `xml`
matches. -/
def stripXmlDecl (s : String) : String :=
  let l := s.data
  let rest := l.dropWhile jsWs
  if rest.take 5 = ['<', '?', 'x', 'm', 'l'] then
    match stripScanBody (rest.drop 5) with
    | some tail => String.mk (tail.dropWhile jsWs)
    | none => s
  else s

/-! Generated processing instructions (bit-exact templates). -/

def piMapEnter (uri : String) (line col : Nat) : String :=
  "<?xml-xi-map-enter uri=\"" ++ uri ++ "\" parent-line=\"" ++ natStr line ++
    "\" parent-col=\"" ++ natStr col ++ "\"?>"

def piMapLeave : String := "<?xml-xi-map-leave?>"

def piNestedEnter (uri : String) : String :=
  "<?xml-xi-nested-enter uri=\"" ++ uri ++ "\"?>"

def piNestedLeave : String := "<?xml-xi-nested-leave?>"

def piWarning (line col : Nat) : String :=
  "<?xml-xi-map-enter warning=\"XInclude resolution is turned off in settings.\" parent-line=\"" ++
    natStr line ++ "\" parent-col=\"" ++ natStr col ++
    "\"?><?xml-xi-map-leave?>"

def piParseErr (parseMode : String) (pos col : Nat) : String :=
  "<?xml-xi-error err=\"Unsupported XInclude parse value: " ++ parseMode ++
    "\" parent-start=\"" ++ natStr pos ++ "\" parent-col=\"" ++ natStr col ++
    "\"?>"

/-- The `handleErr` marker; a thrown JS `Error` interpolates into the
template as `Error: message`. -/
def piErr (msg : String) (pos col : Nat) : String :=
  "<?xml-xi-error err=\"Error: " ++ msg ++ "\" parent-start=\"" ++
    natStr pos ++ "\" parent-col=\"" ++ natStr col ++ "\"?>"

/-- Embeds the `makePI` closure. -/
def makePI (depth : Nat) (hrefURL : String) (line col : Nat)
    (resolvedNestedXml : String) : String :=
  if depth > 0 then
    piNestedEnter hrefURL ++ resolvedNestedXml ++ piNestedLeave
  else
    piMapEnter hrefURL line col ++ resolvedNestedXml ++ piMapLeave

/-- A deferred directive: everything captured at scan time for the
asynchronous chain. -/
structure XiJob where
  hrefURL : String
  scheme : String
  xpointer : Option String
  line : Nat
  col : Nat
deriving DecidableEq, Repr

inductive RPart where
  | lit (s : String)
  | job (j : XiJob)
deriving DecidableEq, Repr

structure RState where
  outputParts : List RPart
  lastPos : Nat
  foundXi : Bool
  advisories : Nat
deriving DecidableEq, Repr

def initR : RState :=
  { outputParts := [], lastPos := 0, foundXi := false, advisories := 0 }

def assocFindX (l : List (String × XAttr)) (k : String) : Option XAttr :=
  match l with
  | [] => none
  | (k', v) :: rest => if k' = k then some v else assocFindX rest k

/-- The test `node.uri === XINCLUDE_NS && node.local === XINCLUDE_LOCAL`
performed by both resolver handlers. -/
def isXiNode (node : XNode) : Bool :=
  node.uri = XINCLUDE_NS && node.localName = XINCLUDE_LOCAL

def eventNode : XEvent → XNode
  | .openTag n _ _ _ => n
  | .closeTag n _ => n

/-- Embeds the resolver's `opentag` handler.  The advisory counter stands
for the `window.showInformationMessage` calls of the depth-limit branch. -/
def rsOpen (env : ResolveEnv) (xmlSource : String) (depth : Nat)
    (baseUri : Option String) (st0 : RState) (node : XNode)
    (pos line col : Nat) : RState :=
  if isXiNode node then
    let st := { st0 with foundXi := true }
    let depthLimit := depthLimitEff env.cfg
    if depth < depthLimit then
      match lastIndexOfWithin xmlSource '<' (pos - 1) with
      | none => st
      | some tagStartPosition =>
        let st := { st with
          outputParts := st.outputParts ++
            [.lit (jsSubstring xmlSource st.lastPos tagStartPosition)] }
        let st := if node.isSelfClosing then { st with lastPos := pos } else st
        if env.cfg.xincludeSupport = some false then
          { st with outputParts := st.outputParts ++ [.lit (piWarning line col)] }
        else
          let parseMode := ((assocFindX node.attrs "parse").map (·.value)).getD "xml"
          if parseMode ≠ "xml" then
            { st with outputParts :=
                st.outputParts ++ [.lit (piParseErr parseMode pos col)] }
          else
            match assocFindX node.attrs "href" with
            | none => st
            | some hrefAttr =>
              let hrefURL := resolveXIncludeHref env hrefAttr.value baseUri
              { st with outputParts := st.outputParts ++
                  [.job { hrefURL := hrefURL,
                          scheme := env.uriScheme hrefURL,
                          xpointer := (assocFindX node.attrs "xpointer").map (·.value),
                          line := line, col := col }] }
    else { st with advisories := st.advisories + 1 }
  else st0

/-- Embeds the resolver's `closetag` handler. -/
def rsClose (depth : Nat) (st : RState) (node : XNode) (pos : Nat) : RState :=
  if isXiNode node then
    if depth = 0 then { st with lastPos := pos } else st
  else st

def rsStep (env : ResolveEnv) (xmlSource : String) (depth : Nat)
    (baseUri : Option String) (st : RState) : XEvent → RState
  | .openTag node pos line col => rsOpen env xmlSource depth baseUri st node pos line col
  | .closeTag node pos => rsClose depth st node pos

def foldR (env : ResolveEnv) (xmlSource : String) (depth : Nat)
    (baseUri : Option String) (st : RState) (evs : List XEvent) : RState :=
  evs.foldl (rsStep env xmlSource depth baseUri) st

/-- Result of one resolver invocation: the resolved text, the number of
depth-limit advisories surfaced, and the log of hrefs dereferenced (one
entry per `fetch` call or `openTextDocument` call issued). -/
structure ROut where
  text : String
  advisories : Nat
  fetches : List String
deriving DecidableEq, Repr

/-- Embeds one deferred directive's asynchronous chain: acquire (network
fetch or document open, routed by scheme), strip a leading XML
declaration, narrow through the xpointer when the attribute is present
and nonempty (JS truthiness of `xpointerAttr?.value`), resolve
recursively through `recur`, wrap in mapping markers; any failure is
caught by `handleErr`, whose `parent-start` reads the parser position at
handling time - the final scan position - while `parent-col` was captured
at the directive. -/
def runJobWith (env : ResolveEnv)
    (recur : String → Nat → Option String → ROut) (depth : Nat) (j : XiJob)
    (finalPos : Nat) : ROut :=
  let acquired : Except String (String × Option String) :=
    if j.scheme = "http" || j.scheme = "https" then
      match env.fetchHttp j.hrefURL with
      | .ok t => .ok (t, none)
      | .error e => .error e
    else
      match env.openDoc j.hrefURL with
      | .ok tu => .ok (tu.1, some tu.2)
      | .error e => .error e
  match acquired with
  | .error e =>
    { text := piErr e finalPos j.col, advisories := 0, fetches := [j.hrefURL] }
  | .ok (raw, docUri) =>
    let text := stripXmlDecl raw
    let selected : Except String String :=
      match j.xpointer with
      | some xp => if xp ≠ "" then selectXPointerFragment text xp else .ok text
      | none => .ok text
    match selected with
    | .error e =>
      { text := piErr e finalPos j.col, advisories := 0, fetches := [j.hrefURL] }
    | .ok narrowed =>
      let nested := recur narrowed (depth + 1) (some (docUri.getD j.hrefURL))
      { text := makePI depth j.hrefURL j.line j.col nested.text,
        advisories := nested.advisories,
        fetches := j.hrefURL :: nested.fetches }

def materializeParts (env : ResolveEnv)
    (recur : String → Nat → Option String → ROut) (depth : Nat)
    (finalPos : Nat) : List RPart → List ROut
  | [] => []
  | .lit s :: rest =>
    { text := s, advisories := 0, fetches := [] } ::
      materializeParts env recur depth finalPos rest
  | .job j :: rest =>
    runJobWith env recur depth j finalPos ::
      materializeParts env recur depth finalPos rest

/-- The body of `resolveXIncludes` for one invocation, with the recursive
call abstracted as `recur`: scan, fold the handlers, apply the
malformed-input policy of the catch block (return the input unchanged
when nested or when no inclusion element was seen; otherwise continue
with whatever was assembled), append the trailing literal text, and join
the materialised parts in submission order. -/
def resolveBody (env : ResolveEnv)
    (recur : String → Nat → Option String → ROut) (xmlSource : String)
    (depth : Nat) (baseUri : Option String) : ROut :=
  let scan := scanEvents xmlSource
  let st := foldR env xmlSource depth baseUri initR scan.events
  if scan.failed && (decide (depth > 0) || !st.foundXi) then
    { text := xmlSource, advisories := st.advisories, fetches := [] }
  else
    let parts := st.outputParts ++ [.lit (jsSubstringFrom xmlSource st.lastPos)]
    let outs := materializeParts env recur depth scan.finalPos parts
    { text := String.join (outs.map (·.text)),
      advisories := st.advisories + (outs.map (·.advisories)).sum,
      fetches := (outs.map (·.fetches)).flatten }

/-- Recursion stub used when the depth budget is already exhausted; under
the entry point below it is never consulted, because a directive is only
deferred when `depth < depthLimit`. -/
def stubRecur : String → Nat → Option String → ROut :=
  fun s _ _ => { text := s, advisories := 0, fetches := [] }

/-- Depth-bounded recursion: the fuel is the distance between the current
depth and the configured limit, which the guard `depth < depthLimit`
keeps positive at every deferred directive. -/
def resolveCore (env : ResolveEnv) : Nat → String → Nat → Option String → ROut
  | 0, s, d, b => resolveBody env stubRecur s d b
  | n + 1, s, d, b => resolveBody env (resolveCore env n) s d b

/-- Embeds `resolveXIncludes(xmlSource, depth, baseUri)`. -/
def resolveXIncludes (env : ResolveEnv) (xmlSource : String) (depth : Nat)
    (baseUri : Option String) : ROut :=
  resolveCore env (depthLimitEff env.cfg - depth) xmlSource depth baseUri

/-! ### Completion-order model of the final join

`Promise.all` is modelled explicitly for the ordering claim: each
fragment is given an arbitrary completion time, fragments settle in
completion order into slots indexed by their submission position, and the
join reads the slots back in submission order. -/

def insertByTime (times : Nat → Nat) (i : Nat) : List Nat → List Nat
  | [] => [i]
  | j :: rest =>
    if times i < times j then i :: j :: rest else j :: insertByTime times i rest

def settleOrder (times : Nat → Nat) (l : List Nat) : List Nat :=
  l.foldr (insertByTime times) []

def assocNat (l : List (Nat × String)) (k : Nat) : Option String :=
  match l with
  | [] => none
  | (k', v) :: rest => if k' = k then some v else assocNat rest k

/-- Settle the fragments in completion order, then read the slots back in
submission order. -/
def promiseAllJoin (l : List String) (times : Nat → Nat) : List String :=
  let order := settleOrder times (List.range l.length)
  let slots := order.foldl (fun acc i => acc ++ [(i, l.getD i "")]) []
  (List.range l.length).map fun i => (assocNat slots i).getD ""

/-- `resolveXIncludes` with the final join routed through the explicit
completion-order model. -/
def resolveXIncludesSched (env : ResolveEnv) (times : Nat → Nat)
    (xmlSource : String) (depth : Nat) (baseUri : Option String) : ROut :=
  let fuel := depthLimitEff env.cfg - depth
  let recur :=
    match fuel with
    | 0 => stubRecur
    | n + 1 => resolveCore env n
  let scan := scanEvents xmlSource
  let st := foldR env xmlSource depth baseUri initR scan.events
  if scan.failed && (decide (depth > 0) || !st.foundXi) then
    { text := xmlSource, advisories := st.advisories, fetches := [] }
  else
    let parts := st.outputParts ++ [.lit (jsSubstringFrom xmlSource st.lastPos)]
    let outs := materializeParts env recur depth scan.finalPos parts
    { text := String.join (promiseAllJoin (outs.map (·.text)) times),
      advisories := st.advisories + (outs.map (·.advisories)).sum,
      fetches := (outs.map (·.fetches)).flatten }

/-! ### General lemmas -/

theorem stringMk_data (s : String) : String.mk s.data = s := by
  cases s
  rfl

theorem string_nil_append (s : String) : "" ++ s = s := by
  cases s
  rfl

theorem jsSubstringFrom_zero (s : String) : jsSubstringFrom s 0 = s := by
  simp [jsSubstringFrom, stringMk_data]

theorem rsStep_not_xi (env : ResolveEnv) (xmlSource : String) (depth : Nat)
    (baseUri : Option String) (st : RState) (e : XEvent)
    (h : isXiNode (eventNode e) = false) :
    rsStep env xmlSource depth baseUri st e = st := by
  cases e with
  | openTag n p l c =>
    simp [eventNode] at h
    simp [rsStep, rsOpen, h]
  | closeTag n p =>
    simp [eventNode] at h
    simp [rsStep, rsClose, h]

theorem foldR_not_xi (env : ResolveEnv) (xmlSource : String) (depth : Nat)
    (baseUri : Option String) (st : RState) (evs : List XEvent)
    (h : ∀ e ∈ evs, isXiNode (eventNode e) = false) :
    foldR env xmlSource depth baseUri st evs = st := by
  induction evs generalizing st with
  | nil => rfl
  | cons e rest ih =>
    have he : isXiNode (eventNode e) = false := h e (by simp)
    have hr : ∀ e' ∈ rest, isXiNode (eventNode e') = false := by
      intro e' hm
      exact h e' (by simp [hm])
    show foldR env xmlSource depth baseUri
      (rsStep env xmlSource depth baseUri st e) rest = st
    rw [rsStep_not_xi env xmlSource depth baseUri st e he]
    exact ih _ hr

theorem resolveBody_no_xi (env : ResolveEnv)
    (recur : String → Nat → Option String → ROut) (s : String) (depth : Nat)
    (b : Option String)
    (h : ∀ e ∈ (scanEvents s).events, isXiNode (eventNode e) = false) :
    resolveBody env recur s depth b =
      { text := s, advisories := 0, fetches := [] } := by
  unfold resolveBody
  simp only [foldR_not_xi env s depth b initR (scanEvents s).events h]
  by_cases hf : (scanEvents s).failed = true
  · simp [hf, initR]
  · simp only [Bool.not_eq_true] at hf
    simp [hf, initR, materializeParts, jsSubstringFrom_zero, String.join,
      string_nil_append]

/-! ### Witness environment -/

/-- A minimal concrete environment for witnesses and counterexamples:
default configuration, a URL parser that accepts exactly the strings
containing a colon, no relative resolution, identity legacy fallback, a
scheme extractor, no network, and a one-document store. -/
def plainEnv : ResolveEnv :=
  { cfg := { xincludeDepth := none, xincludeSupport := none },
    urlTryParse := fun s => if s.data.any (· = ':') then some s else none,
    urlTryParseWithBase := fun _ _ => none,
    normalizeSchemaUrl := fun s => s,
    uriScheme := fun s =>
      if s.data.any (· = ':') then String.mk (s.data.takeWhile (· ≠ ':'))
      else "",
    fetchHttp := fun _ => .error "network unavailable",
    openDoc := fun u =>
      if u = "h" then .ok ("<?xml version=\"1.0\"?><x><y/></x>", "h")
      else .error "missing doc" }

/-- C2: for every input whose scan delivers no inclusion-element events -
well-formed or malformed - the resolver returns the input text unchanged,
raises nothing (the embedding is total and takes no error branch), issues
no advisory and dereferences nothing. -/
theorem C2_no_inclusion_is_identity (env : ResolveEnv) (s : String)
    (depth : Nat) (b : Option String)
    (h : ∀ e ∈ (scanEvents s).events, isXiNode (eventNode e) = false) :
    resolveXIncludes env s depth b =
      { text := s, advisories := 0, fetches := [] } := by
  unfold resolveXIncludes
  cases hfuel : depthLimitEff env.cfg - depth with
  | zero => exact resolveBody_no_xi env stubRecur s depth b h
  | succ n => exact resolveBody_no_xi env (resolveCore env n) s depth b h

theorem C2_witness :
    (∀ e ∈ (scanEvents "<a><b/></a>").events, isXiNode (eventNode e) = false) ∧
    (∀ e ∈ (scanEvents "<a><b/>").events, isXiNode (eventNode e) = false) ∧
    resolveXIncludes plainEnv "<a><b/></a>" 0 none =
      { text := "<a><b/></a>", advisories := 0, fetches := [] } ∧
    resolveXIncludes plainEnv "<a><b/>" 0 none =
      { text := "<a><b/>", advisories := 0, fetches := [] } :=
  ⟨by decide, by decide,
   C2_no_inclusion_is_identity plainEnv "<a><b/></a>" 0 none (by decide),
   C2_no_inclusion_is_identity plainEnv "<a><b/>" 0 none (by decide)⟩

/-! ### Declaration stripping (C4) -/

/-- Bool test for an adjacent `?>` pair inside a character list. -/
def hasQmGt : List Char → Bool
  | [] => false
  | c :: rest => (c = '?' && rest.head? = some '>') || hasQmGt rest

theorem dropWhile_all_append (p : Char → Bool) (w l : List Char)
    (hw : w.all p = true) : (w ++ l).dropWhile p = l.dropWhile p := by
  induction w with
  | nil => rfl
  | cons c w' ih =>
    simp only [List.all_cons, Bool.and_eq_true] at hw
    simp [List.dropWhile, hw.1, ih hw.2]

theorem stripScanBody_finds (b t : List Char)
    (hb : b.all (fun c => !jsLineTerm c) = true) (hq : hasQmGt b = false) :
    stripScanBody (b ++ '?' :: '>' :: t) = some t := by
  induction b with
  | nil => simp [stripScanBody]
  | cons c b' ih =>
    simp only [List.all_cons, Bool.and_eq_true] at hb
    simp only [hasQmGt, Bool.or_eq_false_iff, Bool.and_eq_false_iff] at hq
    simp only [List.cons_append, stripScanBody]
    split
    · next hcond =>
      exfalso
      simp only [Bool.and_eq_true, decide_eq_true_eq] at hcond
      cases b' with
      | nil => simp at hcond
      | cons c2 b'' =>
        simp only [List.cons_append, List.head?] at hcond
        rcases hq.1 with h | h
        · rw [hcond.1] at h
          simp at h
        · simp only [List.head?, decide_eq_false_iff_not] at h
          exact h hcond.2
    · split
      · next hlt =>
        exfalso
        rw [hlt] at hb
        simp at hb
      · exact ih hb.2 hq.2

/-- C4 counterexample: acquired text beginning with the processing
instruction `<?xml-stylesheet href="a.css"?>` - not an XML declaration -
is not passed through intact: the strip performed before xpointer
selection and recursion removes it, because the regular expression
`/^\s*<\?xml.*?\?>\s*/` only anchors on the five characters `<?xml`. -/
theorem C4_counterexample :
    stripXmlDecl "<?xml-stylesheet href=\"a.css\"?><root/>" = "<root/>" ∧
    ("<root/>" : String) ≠ "<?xml-stylesheet href=\"a.css\"?><root/>" :=
  ⟨by decide, by decide⟩

/-- C4 amended: the resolver strips at most one leading processing
instruction whose target begins with the characters `xml` - including a
genuine XML declaration but also, e.g., `<?xml-stylesheet ...?>` -
together with the whitespace around it (the PI body must reach its first
`?>` without a line terminator); text that does not start, after optional
whitespace, with `<?xml` is passed through unchanged. -/
theorem C4_strip_behaviour :
    (∀ s : String,
      ((s.data.dropWhile jsWs).take 5 = ['<', '?', 'x', 'm', 'l'] → False) →
      stripXmlDecl s = s) ∧
    (∀ w b t : List Char, w.all jsWs = true →
      b.all (fun c => !jsLineTerm c) = true → hasQmGt b = false →
      stripXmlDecl
          (String.mk (w ++ ['<', '?', 'x', 'm', 'l'] ++ b ++ '?' :: '>' :: t)) =
        String.mk (t.dropWhile jsWs)) := by
  constructor
  · intro s h
    unfold stripXmlDecl
    rw [if_neg h]
  · intro w b t hw hb hq
    unfold stripXmlDecl
    have hdw : (w ++ ['<', '?', 'x', 'm', 'l'] ++ b ++ '?' :: '>' :: t).dropWhile jsWs =
        ['<', '?', 'x', 'm', 'l'] ++ b ++ '?' :: '>' :: t := by
      rw [List.append_assoc, List.append_assoc,
        dropWhile_all_append jsWs w _ hw]
      simp [List.dropWhile, jsWs]
    simp only [hdw]
    rw [if_pos ?take5]
    case take5 => simp
    have hdrop : (['<', '?', 'x', 'm', 'l'] ++ b ++ '?' :: '>' :: t).drop 5 =
        b ++ '?' :: '>' :: t := by simp
    rw [hdrop, stripScanBody_finds b t hb hq]

theorem C4_strip_behaviour_witness :
    stripXmlDecl "<a/>" = "<a/>" ∧
    stripXmlDecl
        (String.mk (([] : List Char) ++ ['<', '?', 'x', 'm', 'l'] ++
          " version=\"1.0\"".data ++ '?' :: '>' :: "<doc/>".data)) =
      String.mk ("<doc/>".data.dropWhile jsWs) :=
  ⟨C4_strip_behaviour.1 "<a/>" (by decide),
   C4_strip_behaviour.2 [] " version=\"1.0\"".data "<doc/>".data
     (by decide) (by decide) (by decide)⟩

/-! ### Disabled inclusion support (C8) -/

def isLitPart : RPart → Bool
  | .lit _ => true
  | .job _ => false

theorem rsStep_disabled_all_lit (env : ResolveEnv) (s : String) (depth : Nat)
    (b : Option String) (st : RState) (e : XEvent)
    (hd : env.cfg.xincludeSupport = some false)
    (h : st.outputParts.all isLitPart = true) :
    ((rsStep env s depth b st e).outputParts.all isLitPart) = true := by
  cases e with
  | closeTag n p =>
    simp only [rsStep, rsClose]
    split
    · split
      · exact h
      · exact h
    · exact h
  | openTag n p l c =>
    simp only [rsStep, rsOpen, hd]
    repeat' split
    all_goals simp_all [List.all_append, isLitPart, apply_ite]

theorem foldR_disabled_all_lit (env : ResolveEnv) (s : String) (depth : Nat)
    (b : Option String) (st : RState) (evs : List XEvent)
    (hd : env.cfg.xincludeSupport = some false)
    (h : st.outputParts.all isLitPart = true) :
    ((foldR env s depth b st evs).outputParts.all isLitPart) = true := by
  induction evs generalizing st with
  | nil => exact h
  | cons e rest ih =>
    exact ih _ (rsStep_disabled_all_lit env s depth b st e hd h)

theorem materializeParts_all_lit_fetches (env : ResolveEnv)
    (recur : String → Nat → Option String → ROut) (depth fp : Nat)
    (parts : List RPart) (h : parts.all isLitPart = true) :
    ((materializeParts env recur depth fp parts).map (·.fetches)).flatten = [] := by
  induction parts with
  | nil => rfl
  | cons p rest ih =>
    cases p with
    | lit sl =>
      simp only [List.all_cons, Bool.and_eq_true] at h
      simp [materializeParts, ih h.2]
    | job j =>
      simp [isLitPart] at h

theorem resolveBody_disabled_fetches (env : ResolveEnv)
    (recur : String → Nat → Option String → ROut) (s : String) (depth : Nat)
    (b : Option String) (hd : env.cfg.xincludeSupport = some false) :
    (resolveBody env recur s depth b).fetches = [] := by
  simp only [resolveBody]
  split
  · rfl
  · have hlit : ((foldR env s depth b initR (scanEvents s).events).outputParts ++
        [RPart.lit (jsSubstringFrom s
          (foldR env s depth b initR (scanEvents s).events).lastPos)]).all
        isLitPart = true := by
      rw [List.all_append]
      rw [foldR_disabled_all_lit env s depth b initR (scanEvents s).events hd rfl]
      rfl
    exact materializeParts_all_lit_fetches env recur depth
      (scanEvents s).finalPos _ hlit

/-- C8: with inclusion support disabled, no href is ever dereferenced
(the fetch log of a resolution at any depth is empty - no deferred job is
even created), and every inclusion directive below the depth limit is
replaced by the enter/leave warning-marker pair carrying the
human-readable reason and the directive's line/column: the handler
appends exactly the flushed literal and the warning pair, advances the
cursor past a self-closing tag, and stops processing the directive. -/
theorem C8_disabled_warning_pair_no_deref (env : ResolveEnv) (s : String)
    (depth : Nat) (b : Option String) (st : RState) (node : XNode)
    (pos line col : Nat) (hd : env.cfg.xincludeSupport = some false) :
    (resolveXIncludes env s depth b).fetches = [] ∧
    (isXiNode node = true → depth < depthLimitEff env.cfg →
      ∀ tagStart, lastIndexOfWithin s '<' (pos - 1) = some tagStart →
      rsOpen env s depth b st node pos line col =
        { st with
          foundXi := true,
          outputParts := st.outputParts ++
            [.lit (jsSubstring s st.lastPos tagStart),
             .lit (piWarning line col)],
          lastPos := if node.isSelfClosing then pos else st.lastPos }) := by
  constructor
  · unfold resolveXIncludes
    cases depthLimitEff env.cfg - depth with
    | zero => exact resolveBody_disabled_fetches env stubRecur s depth b hd
    | succ n =>
      exact resolveBody_disabled_fetches env (resolveCore env n) s depth b hd
  · intro hxi hlt tagStart htag
    simp only [rsOpen, hxi, if_true, hlt, if_pos, htag, hd]
    cases hsc : node.isSelfClosing with
    | true => simp [hsc]
    | false => simp [hsc]

def offEnv : ResolveEnv :=
  { plainEnv with
    cfg := { xincludeDepth := none, xincludeSupport := some false } }

def c8doc : String :=
  "<r xmlns:i=\"http://www.w3.org/2001/XInclude\"><i:include href=\"h\"/></r>"

def xiSampleNode : XNode :=
  { name := "i:include", pfx := "i", localName := "include",
    uri := "http://www.w3.org/2001/XInclude",
    attrs := [("href",
      { name := "href", pfx := "", localName := "href", uri := "",
        value := "h" })],
    isSelfClosing := true }

theorem C8_witness :
    (resolveXIncludes offEnv c8doc 0 none).fetches = [] ∧
    rsOpen offEnv c8doc 0 none initR xiSampleNode 66 1 66 =
      { initR with
        foundXi := true,
        outputParts := initR.outputParts ++
          [.lit (jsSubstring c8doc initR.lastPos 45), .lit (piWarning 1 66)],
        lastPos := if xiSampleNode.isSelfClosing then 66 else initR.lastPos } :=
  ⟨(C8_disabled_warning_pair_no_deref offEnv c8doc 0 none initR xiSampleNode
      66 1 66 rfl).1,
   (C8_disabled_warning_pair_no_deref offEnv c8doc 0 none initR xiSampleNode
      66 1 66 rfl).2 (by decide) (by decide) 45 (by decide)⟩

/-! ### Completion-order invariance (C9) -/

theorem insertByTime_mem (times : Nat → Nat) (i a : Nat) (l : List Nat) :
    a ∈ insertByTime times i l ↔ a = i ∨ a ∈ l := by
  induction l with
  | nil => simp [insertByTime]
  | cons j rest ih =>
    simp only [insertByTime]
    split
    · simp [List.mem_cons]
    · simp only [List.mem_cons, ih]
      tauto

theorem settleOrder_mem (times : Nat → Nat) (l : List Nat) (a : Nat) :
    a ∈ settleOrder times l ↔ a ∈ l := by
  induction l with
  | nil => simp [settleOrder]
  | cons j rest ih =>
    simp only [settleOrder, List.foldr_cons]
    rw [show List.foldr (insertByTime times) [] rest = settleOrder times rest
      from rfl]
    rw [insertByTime_mem]
    simp [ih]

theorem foldl_push_eq_map (g : Nat → Nat × String) (order : List Nat)
    (acc : List (Nat × String)) :
    order.foldl (fun acc i => acc ++ [g i]) acc = acc ++ order.map g := by
  induction order generalizing acc with
  | nil => simp
  | cons i rest ih =>
    simp only [List.foldl_cons, List.map_cons]
    rw [ih]
    simp

theorem assocNat_map (f : Nat → String) (order : List Nat) (i : Nat)
    (h : i ∈ order) :
    assocNat (order.map fun j => (j, f j)) i = some (f i) := by
  induction order with
  | nil => simp at h
  | cons j rest ih =>
    simp only [List.map_cons, assocNat]
    by_cases hj : j = i
    · simp [hj]
    · rw [if_neg hj]
      rcases List.mem_cons.mp h with h' | h'
      · exact absurd h'.symm hj
      · exact ih h'

theorem map_getD_range (l : List String) :
    (List.range l.length).map (fun i => l.getD i "") = l := by
  induction l with
  | nil => rfl
  | cons a t ih =>
    rw [List.length_cons, List.range_succ_eq_map, List.map_cons, List.map_map]
    rw [show ((fun i => (a :: t).getD i "") ∘ Nat.succ) =
        (fun i => t.getD i "") from rfl]
    rw [ih]
    rfl

theorem promiseAllJoin_eq (l : List String) (times : Nat → Nat) :
    promiseAllJoin l times = l := by
  simp only [promiseAllJoin]
  rw [foldl_push_eq_map (fun i => (i, l.getD i "")) _ []]
  simp only [List.nil_append]
  have hmem : ∀ i ∈ List.range l.length,
      (assocNat ((settleOrder times (List.range l.length)).map
        fun j => (j, l.getD j "")) i).getD "" = l.getD i "" := by
    intro i hi
    rw [assocNat_map (fun j => l.getD j "")
      (settleOrder times (List.range l.length)) i
      ((settleOrder_mem times (List.range l.length) i).mpr hi)]
    rfl
  rw [List.map_congr_left hmem]
  exact map_getD_range l

/-- C9: the final output is the concatenation of literal segments and
resolved fragments strictly in submission (document) order, whatever the
completion order of the deferred fragments: routing the final join
through the explicit completion-time model (fragments settle in time
order into slots, slots are read back in submission order) yields exactly
the same result for every assignment of completion times, so a slow
sibling never reorders output relative to a fast one. -/
theorem C9_order_independent_of_completion (env : ResolveEnv)
    (times : Nat → Nat) (s : String) (depth : Nat) (b : Option String) :
    resolveXIncludesSched env times s depth b =
      resolveXIncludes env s depth b := by
  unfold resolveXIncludesSched resolveXIncludes
  cases hfuel : depthLimitEff env.cfg - depth with
  | zero => simp only [resolveCore, resolveBody, promiseAllJoin_eq]
  | succ n => simp only [resolveCore, resolveBody, promiseAllJoin_eq]

/-! ### Malformed top-level document after a directive (C1) -/

def c1doc : String :=
  "<r xmlns:i=\"http://www.w3.org/2001/XInclude\"><i:include href=\"h\"/>"

/-- C1 counterexample: this top-level document is malformed (the root
element is never closed, so the scan fails) and the failure occurs after
an inclusion element was observed; the claim says the scan failure
propagates out of resolve, discarding partial output.  Instead the catch
block swallows the error (it only returns the input when nested or when
no directive was seen, and rethrows nothing), execution falls through,
and the resolver silently returns the partially assembled result - the
flushed literal, the resolved fragment wrapped in mapping markers, and
the empty tail - which differs from the input text. -/
theorem C1_counterexample :
    (scanEvents c1doc).failed = true ∧
    (foldR plainEnv c1doc 0 none initR (scanEvents c1doc).events).foundXi =
      true ∧
    resolveXIncludes plainEnv c1doc 0 none =
      { text := "<r xmlns:i=\"http://www.w3.org/2001/XInclude\"><?xml-xi-map-enter uri=\"h\" parent-line=\"1\" parent-col=\"66\"?><x><y/></x><?xml-xi-map-leave?>",
        advisories := 0, fetches := ["h"] } ∧
    (resolveXIncludes plainEnv c1doc 0 none).text ≠ c1doc :=
  ⟨by decide, by decide, by decide, by decide⟩

/-- The value `resolveXIncludes` actually produces at depth 0 when the
scan failed after a directive was seen: the parts assembled before the
failure, followed by the text from the last flush position, materialised
and joined in submission order. -/
def partialAssembly (env : ResolveEnv) (xmlSource : String)
    (b : Option String) : ROut :=
  let recur :=
    match depthLimitEff env.cfg - 0 with
    | 0 => stubRecur
    | n + 1 => resolveCore env n
  let scan := scanEvents xmlSource
  let st := foldR env xmlSource 0 b initR scan.events
  let parts := st.outputParts ++ [.lit (jsSubstringFrom xmlSource st.lastPos)]
  let outs := materializeParts env recur 0 scan.finalPos parts
  { text := String.join (outs.map (·.text)),
    advisories := st.advisories + (outs.map (·.advisories)).sum,
    fetches := (outs.map (·.fetches)).flatten }

/-- C1 amended: when the depth-0 scan fails after at least one inclusion
element was observed, the failure does not propagate and resolution does
not degrade to a no-op either - the resolver swallows the error and
returns the partially assembled output. -/
theorem C1_failure_swallowed_partial_output (env : ResolveEnv) (s : String)
    (b : Option String) (hf : (scanEvents s).failed = true)
    (hx : (foldR env s 0 b initR (scanEvents s).events).foundXi = true) :
    resolveXIncludes env s 0 b = partialAssembly env s b := by
  unfold resolveXIncludes partialAssembly
  cases hfuel : depthLimitEff env.cfg - 0 with
  | zero => simp only [resolveCore, resolveBody, hf, hx]; simp
  | succ n => simp only [resolveCore, resolveBody, hf, hx]; simp

theorem C1_failure_swallowed_witness :
    (scanEvents c1doc).failed = true ∧
    resolveXIncludes plainEnv c1doc 0 none = partialAssembly plainEnv c1doc none :=
  ⟨by decide,
   C1_failure_swallowed_partial_output plainEnv c1doc none (by decide) (by decide)⟩

/-! ### Error-marker position (C3) -/

def c3doc : String :=
  "<r xmlns:i=\"http://www.w3.org/2001/XInclude\"><i:include href=\"nope\"/></r>"

def c3node : XNode :=
  { name := "i:include", pfx := "i", localName := "include",
    uri := "http://www.w3.org/2001/XInclude",
    attrs := [("href",
      { name := "href", pfx := "", localName := "href", uri := "",
        value := "nope" })],
    isSelfClosing := true }

/-- C3 counterexample: the directive in this document sits at position 69
(its open event carries position, line and column 69), and its document
open fails.  The claim says the error marker carries the directive's own
position; in fact `handleErr` reads `resolverParser.position` only when
the rejection is handled, after the scan has finished, so the marker's
`parent-start` is the final scan position 73, not 69; only `parent-col`
was captured at the directive.  The output with a marker at the
directive's own position, which the claim predicts, differs from the
actual output. -/
theorem C3_counterexample :
    (scanEvents c3doc).events.get? 1 = some (.openTag c3node 69 1 69) ∧
    (scanEvents c3doc).finalPos = 73 ∧
    resolveXIncludes plainEnv c3doc 0 none =
      { text := "<r xmlns:i=\"http://www.w3.org/2001/XInclude\"><?xml-xi-error err=\"Error: missing doc\" parent-start=\"73\" parent-col=\"69\"?></r>",
        advisories := 0, fetches := ["nope"] } ∧
    (resolveXIncludes plainEnv c3doc 0 none).text ≠
      "<r xmlns:i=\"http://www.w3.org/2001/XInclude\">" ++
        piErr "missing doc" 69 69 ++ "</r>" :=
  ⟨by decide, by decide, by decide, by decide⟩

/-- C3 amended: every failing directive (acquisition failure on either
route, or xpointer selection failure) produces exactly one
`xml-xi-error` marker - never paired with a leave marker - carrying the
failure description, the column captured at the directive, and as
`parent-start` the parser position at error-handling time (the final
scan position), not the directive's own position. -/
theorem C3_error_marker_late_position (env : ResolveEnv)
    (recur : String → Nat → Option String → ROut) (depth : Nat) (j : XiJob)
    (finalPos : Nat) (e : String) :
    (j.scheme ≠ "http" → j.scheme ≠ "https" →
      env.openDoc j.hrefURL = .error e →
      runJobWith env recur depth j finalPos =
        { text := piErr e finalPos j.col, advisories := 0,
          fetches := [j.hrefURL] }) ∧
    ((j.scheme = "http" ∨ j.scheme = "https") →
      env.fetchHttp j.hrefURL = .error e →
      runJobWith env recur depth j finalPos =
        { text := piErr e finalPos j.col, advisories := 0,
          fetches := [j.hrefURL] }) ∧
    (∀ raw u xp, j.scheme ≠ "http" → j.scheme ≠ "https" →
      env.openDoc j.hrefURL = .ok (raw, u) → j.xpointer = some xp →
      xp ≠ "" → selectXPointerFragment (stripXmlDecl raw) xp = .error e →
      runJobWith env recur depth j finalPos =
        { text := piErr e finalPos j.col, advisories := 0,
          fetches := [j.hrefURL] }) := by
  refine ⟨?openFail, ?fetchFail, ?selFail⟩
  case openFail =>
    intro h1 h2 he
    unfold runJobWith
    rw [if_neg (by simp [h1, h2])]
    rw [he]
  case fetchFail =>
    intro hs he
    unfold runJobWith
    rw [if_pos (by rcases hs with h | h <;> simp [h])]
    rw [he]
  case selFail =>
    intro raw u xp h1 h2 hok hxp hne hsel
    unfold runJobWith
    rw [if_neg (by simp [h1, h2])]
    rw [hok, hxp]
    simp only [ne_eq, hne, if_pos, hsel]
    simp [hne]

theorem C3_error_marker_witness :
    runJobWith plainEnv stubRecur 0
        { hrefURL := "nope", scheme := "", xpointer := none, line := 1,
          col := 69 } 73 =
      { text := piErr "missing doc" 73 69, advisories := 0,
        fetches := ["nope"] } :=
  (C3_error_marker_late_position plainEnv stubRecur 0
      { hrefURL := "nope", scheme := "", xpointer := none, line := 1,
        col := 69 } 73 "missing doc").1
    (by decide) (by decide) rfl

/-! ### Href-less directives (C10) -/

def c10doc : String :=
  "<r xmlns:i=\"http://www.w3.org/2001/XInclude\"><i:include></i:include></r>"

/-- C10 counterexample: a non-self-closing href-less directive resolved
at depth 1 (below the limit, support enabled, parse mode xml) is not
silently deleted: the handler flushes the preceding literal but only the
depth-0 close handler advances the cursor, so at depth 1 the directive's
own text stays in the output - and the flushed prefix is even emitted
twice.  The silently-deleted output the claim predicts differs from the
actual one. -/
theorem C10_counterexample :
    resolveXIncludes plainEnv c10doc 1 none =
      { text := "<r xmlns:i=\"http://www.w3.org/2001/XInclude\"><r xmlns:i=\"http://www.w3.org/2001/XInclude\"><i:include></i:include></r>",
        advisories := 0, fetches := [] } ∧
    (resolveXIncludes plainEnv c10doc 1 none).text ≠
      "<r xmlns:i=\"http://www.w3.org/2001/XInclude\"></r>" :=
  ⟨by decide, by decide⟩

/-- C10 amended: for an href-less directive below the depth limit with
support enabled and parse mode xml, the open handler flushes the
preceding literal text and pushes nothing for the directive - no marker,
no error, no job (hence no I/O) - and advances the literal cursor only
for a self-closing tag; the close handler advances it only at depth 0.
Consequently the directive's text is silently deleted when the tag is
self-closing or the call is at depth 0, while at depth > 0 a
non-self-closing directive's text is retained (see the counterexample);
the depth-0 deletion is witnessed end to end on a concrete document. -/
theorem C10_no_href_flush_only (env : ResolveEnv) (s : String) (depth : Nat)
    (b : Option String) (st : RState) (node : XNode) (pos line col : Nat) :
    (isXiNode node = true → depth < depthLimitEff env.cfg →
      env.cfg.xincludeSupport ≠ some false →
      ((assocFindX node.attrs "parse").map (·.value)).getD "xml" = "xml" →
      assocFindX node.attrs "href" = none →
      ∀ tagStart, lastIndexOfWithin s '<' (pos - 1) = some tagStart →
      rsOpen env s depth b st node pos line col =
        { st with
          foundXi := true,
          outputParts := st.outputParts ++
            [.lit (jsSubstring s st.lastPos tagStart)],
          lastPos := if node.isSelfClosing then pos else st.lastPos }) ∧
    (isXiNode node = true →
      rsClose 0 st node pos = { st with lastPos := pos }) ∧
    (isXiNode node = true → depth ≠ 0 →
      rsClose depth st node pos = st) ∧
    resolveXIncludes plainEnv c10doc 0 none =
      { text := "<r xmlns:i=\"http://www.w3.org/2001/XInclude\"></r>",
        advisories := 0, fetches := [] } := by
  refine ⟨?openCase, ?closeZero, ?closePos, by decide⟩
  case openCase =>
    intro hxi hlt hsup hparse hhref tagStart htag
    simp only [rsOpen, hxi, if_true, hlt, if_pos, htag, hparse, hhref]
    rw [if_neg hsup]
    simp only [ne_eq, not_true_eq_false, if_false]
    cases hsc : node.isSelfClosing with
    | true => simp [hsc]
    | false => simp [hsc]
  case closeZero =>
    intro hxi
    simp [rsClose, hxi]
  case closePos =>
    intro hxi hd
    simp [rsClose, hxi, hd]

theorem C10_no_href_witness :
    rsOpen plainEnv c10doc 0 none initR
        { name := "i:include", pfx := "i", localName := "include",
          uri := "http://www.w3.org/2001/XInclude", attrs := [],
          isSelfClosing := false } 56 1 56 =
      { initR with
        foundXi := true,
        outputParts := initR.outputParts ++
          [.lit (jsSubstring c10doc initR.lastPos 45)],
        lastPos :=
          if ({ name := "i:include", pfx := "i", localName := "include",
                uri := "http://www.w3.org/2001/XInclude", attrs := [],
                isSelfClosing := false } : XNode).isSelfClosing then 56
          else initR.lastPos } ∧
    rsClose 0 initR
        { name := "i:include", pfx := "i", localName := "include",
          uri := "http://www.w3.org/2001/XInclude", attrs := [],
          isSelfClosing := false } 68 = { initR with lastPos := 68 } ∧
    rsClose 1 initR
        { name := "i:include", pfx := "i", localName := "include",
          uri := "http://www.w3.org/2001/XInclude", attrs := [],
          isSelfClosing := false } 68 = initR :=
  ⟨(C10_no_href_flush_only plainEnv c10doc 0 none initR _ 56 1 56).1
     (by decide) (by decide) (by decide) (by decide) (by decide) 45 (by decide),
   (C10_no_href_flush_only plainEnv c10doc 0 none initR _ 68 1 68).2.1
     (by decide),
   (C10_no_href_flush_only plainEnv c10doc 1 none initR _ 68 1 68).2.2.1
     (by decide) (by decide)⟩

/-! ### Depth-limit chains (C7)

A family of documents forming an inclusion chain: `chainDoc (j+1)` holds
one self-closing directive whose href is `chainUrl j` (the letter `u`
repeated `j+1` times), and the document store maps that href to
`chainDoc j`; `chainDoc 0` holds no directive.  Resolving `chainDoc N`
at depth 0 therefore exercises a chain of exactly `N` nested
directives. -/

def chainPre : List Char :=
  "<a xmlns:i=\"http://www.w3.org/2001/XInclude\"><i:include href=\"".data

def chainPost : List Char := "\"/></a>".data

def chainUrl (j : Nat) : String := String.mk (List.replicate (j + 1) 'u')

def chainDoc : Nat → String
  | 0 => "<b/>"
  | j + 1 => String.mk (chainPre ++ List.replicate (j + 1) 'u' ++ chainPost)

def chainANode : XNode :=
  { name := "a", pfx := "", localName := "a", uri := "",
    attrs := [("xmlns:i",
      { name := "xmlns:i", pfx := "xmlns", localName := "i",
        uri := XMLNS_URI, value := XINCLUDE_NS })],
    isSelfClosing := false }

def chainXiNode (j : Nat) : XNode :=
  { name := "i:include", pfx := "i", localName := "include",
    uri := XINCLUDE_NS,
    attrs := [("href",
      { name := "href", pfx := "", localName := "href", uri := "",
        value := chainUrl j })],
    isSelfClosing := true }

def nsEnvInit : List (String × String) := [("xml", XML_NS), ("", "")]

def chainNsEnv : List (String × String) := ("i", XINCLUDE_NS) :: nsEnvInit

def chainStPre : ScanSt :=
  ⟨.aVal ⟨"i:include".data, []⟩ "href".data '"' [], 62, 1, 62,
   [.openTag chainANode 45 1 45], [(chainANode, nsEnvInit)], chainNsEnv,
   true, false⟩

theorem scanList_append (st : ScanSt) (l1 l2 : List Char) :
    scanList st (l1 ++ l2) = scanList (scanList st l1) l2 := by
  simp [scanList, List.foldl_append]

theorem scan_chainPre : scanList initScan chainPre = chainStPre := by decide

theorem scanList_aVal_u (n : Nat) (t : TagBuf) (an : List Char)
    (buf : List Char) (p c : Nat) (evs : List XEvent)
    (stk : List (XNode × List (String × String)))
    (ns : List (String × String)) (rs : Bool) :
    scanList ⟨.aVal t an '"' buf, p, 1, c, evs, stk, ns, rs, false⟩
        (List.replicate n 'u') =
      ⟨.aVal t an '"' (buf ++ List.replicate n 'u'), p + n, 1, c + n, evs,
        stk, ns, rs, false⟩ := by
  induction n generalizing buf p c with
  | zero => simp [scanList]
  | succ m ih =>
    rw [List.replicate_succ]
    have hstep :
        scanStep ⟨.aVal t an '"' buf, p, 1, c, evs, stk, ns, rs, false⟩ 'u' =
          ⟨.aVal t an '"' (buf ++ ['u']), p + 1, 1, c + 1, evs, stk, ns, rs,
            false⟩ := rfl
    show scanList (scanStep _ 'u') (List.replicate m 'u') = _
    rw [hstep, ih (buf ++ ['u']) (p + 1) (c + 1)]
    have h1 : p + 1 + m = p + (m + 1) := by omega
    have h2 : c + 1 + m = c + (m + 1) := by omega
    rw [h1, h2]
    simp

theorem scan_chainPost (p c : Nat) (buf : List Char) :
    scanList ⟨.aVal ⟨"i:include".data, []⟩ "href".data '"' buf, p, 1, c,
        [.openTag chainANode 45 1 45], [(chainANode, nsEnvInit)], chainNsEnv,
        true, false⟩ chainPost =
      ⟨.text, p + 7, 1, c + 7,
        [.openTag chainANode 45 1 45,
         .openTag
           { name := "i:include", pfx := "i", localName := "include",
             uri := XINCLUDE_NS,
             attrs := [("href",
               { name := "href", pfx := "", localName := "href", uri := "",
                 value := String.mk buf })],
             isSelfClosing := true } (p + 3) 1 (c + 3),
         .closeTag
           { name := "i:include", pfx := "i", localName := "include",
             uri := XINCLUDE_NS,
             attrs := [("href",
               { name := "href", pfx := "", localName := "href", uri := "",
                 value := String.mk buf })],
             isSelfClosing := true } (p + 3),
         .closeTag chainANode (p + 7)],
        [], nsEnvInit, true, false⟩ := rfl

theorem scanEvents_chainDoc (j : Nat) :
    scanEvents (chainDoc (j + 1)) =
      { events := [.openTag chainANode 45 1 45,
                   .openTag (chainXiNode j) (66 + j) 1 (66 + j),
                   .closeTag (chainXiNode j) (66 + j),
                   .closeTag chainANode (70 + j)],
        failed := false, finalPos := 70 + j, finalLine := 1,
        finalCol := 70 + j } := by
  show scanFinish
      (scanList initScan (chainPre ++ (List.replicate (j + 1) 'u' ++ chainPost))) = _
  rw [scanList_append, scan_chainPre, scanList_append]
  rw [show chainStPre =
      (⟨.aVal ⟨"i:include".data, []⟩ "href".data '"' [], 62, 1, 62,
        [.openTag chainANode 45 1 45], [(chainANode, nsEnvInit)], chainNsEnv,
        true, false⟩ : ScanSt) from rfl]
  rw [scanList_aVal_u (j + 1) ⟨"i:include".data, []⟩ "href".data [] 62 62
      [.openTag chainANode 45 1 45] [(chainANode, nsEnvInit)] chainNsEnv true]
  rw [List.nil_append]
  rw [scan_chainPost (62 + (j + 1)) (62 + (j + 1)) (List.replicate (j + 1) 'u')]
  have e1 : 62 + (j + 1) + 3 = 66 + j := by omega
  have e2 : 62 + (j + 1) + 7 = 70 + j := by omega
  rw [e1, e2]
  rfl

def chainEnv (L : Nat) : ResolveEnv :=
  { cfg := { xincludeDepth := some L, xincludeSupport := none },
    urlTryParse := fun s => if s.data.any (· = ':') then some s else none,
    urlTryParseWithBase := fun _ _ => none,
    normalizeSchemaUrl := fun s => s,
    uriScheme := fun s =>
      if s.data.any (· = ':') then String.mk (s.data.takeWhile (· ≠ ':'))
      else "",
    fetchHttp := fun _ => .error "network unavailable",
    openDoc := fun u =>
      if u.data = List.replicate u.data.length 'u' ∧ 1 ≤ u.data.length then
        .ok (chainDoc (u.data.length - 1), u)
      else .error "missing doc" }

theorem depthLimitEff_chainEnv (L : Nat) (hL : 1 ≤ L) :
    depthLimitEff (chainEnv L).cfg = L := by
  simp only [depthLimitEff, chainEnv]
  rw [if_neg (by omega)]

theorem replicate_u_no_colon (n : Nat) :
    ((List.replicate n 'u').any fun x => x = ':') = false := by
  induction n with
  | zero => rfl
  | succ m ih => simp [List.replicate_succ, ih]

theorem iriToUri_replicate_u (n : Nat) :
    (List.replicate n 'u').foldr
      (fun c acc =>
        if c.toNat ≤ 0x7f then c :: acc else percentEncodeChar c ++ acc)
      [] = List.replicate n 'u' := by
  induction n with
  | zero => rfl
  | succ m ih =>
    rw [List.replicate_succ, List.foldr_cons, ih]
    rfl

theorem iriToUri_chainUrl (j : Nat) : iriToUri (chainUrl j) = chainUrl j := by
  unfold iriToUri chainUrl
  rw [show (String.mk (List.replicate (j + 1) 'u')).data =
      List.replicate (j + 1) 'u' from rfl]
  rw [iriToUri_replicate_u]

theorem urlTryParse_chainUrl (L j : Nat) :
    (chainEnv L).urlTryParse (chainUrl j) = none := by
  simp only [chainEnv, chainUrl]
  simp [replicate_u_no_colon]

theorem resolveXIncludeHref_chain (L j : Nat) (b : Option String) :
    resolveXIncludeHref (chainEnv L) (chainUrl j) b = chainUrl j := by
  simp only [resolveXIncludeHref]
  rw [iriToUri_chainUrl, urlTryParse_chainUrl]
  cases b with
  | none => rfl
  | some bb => rfl

theorem uriScheme_chain (L j : Nat) :
    (chainEnv L).uriScheme (chainUrl j) = "" := by
  simp only [chainEnv, chainUrl]
  simp [replicate_u_no_colon]

theorem openDoc_chain (L j : Nat) :
    (chainEnv L).openDoc (chainUrl j) = .ok (chainDoc j, chainUrl j) := by
  simp only [chainEnv, chainUrl]
  rw [if_pos (by simp)]
  simp

theorem stripXmlDecl_no_match (s : String)
    (h : ¬ (s.data.dropWhile jsWs).take 5 = ['<', '?', 'x', 'm', 'l']) :
    stripXmlDecl s = s := by
  unfold stripXmlDecl
  rw [if_neg h]

theorem stripXmlDecl_chainDoc (j : Nat) :
    stripXmlDecl (chainDoc j) = chainDoc j := by
  cases j with
  | zero => decide
  | succ m =>
    apply stripXmlDecl_no_match
    rw [show ((chainDoc (m + 1)).data.dropWhile jsWs).take 5 =
        ['<', 'a', ' ', 'x', 'm'] from rfl]
    decide

theorem jsSubstring_chain_flush (j : Nat) :
    jsSubstring (chainDoc (j + 1)) 0 45 =
      "<a xmlns:i=\"http://www.w3.org/2001/XInclude\">" := rfl

theorem take_append_len (l1 l2 : List Char) (n : Nat) :
    (l1 ++ l2).take (l1.length + n) = l1 ++ l2.take n := by
  induction l1 with
  | nil => simp
  | cons c cs ih =>
    rw [List.cons_append, List.length_cons]
    rw [show cs.length + 1 + n = (cs.length + n) + 1 from by omega]
    rw [List.take_succ_cons, ih]
    rfl

theorem drop_append_len (l1 l2 : List Char) (n : Nat) :
    (l1 ++ l2).drop (l1.length + n) = l2.drop n := by
  induction l1 with
  | nil => simp
  | cons c cs ih =>
    rw [List.cons_append, List.length_cons]
    rw [show cs.length + 1 + n = (cs.length + n) + 1 from by omega]
    rw [List.drop_succ_cons, ih]

theorem jsSubstringFrom_chain_tail (j : Nat) :
    jsSubstringFrom (chainDoc (j + 1)) (66 + j) = "</a>" := by
  unfold jsSubstringFrom
  rw [show (chainDoc (j + 1)).data =
      (chainPre ++ List.replicate (j + 1) 'u') ++ chainPost from by
    simp [chainDoc, List.append_assoc]]
  rw [show 66 + j = (chainPre ++ List.replicate (j + 1) 'u').length + 3 from by
    rw [List.length_append, List.length_replicate,
      show chainPre.length = 62 from by decide]
    omega]
  rw [drop_append_len]
  rfl

theorem lastIdxAux_append (c : Char) (l1 l2 : List Char) (i : Nat)
    (acc : Option Nat) :
    lastIdxAux c (l1 ++ l2) i acc =
      lastIdxAux c l2 (i + l1.length) (lastIdxAux c l1 i acc) := by
  induction l1 generalizing i acc with
  | nil => simp [lastIdxAux]
  | cons x xs ih =>
    rw [List.cons_append]
    rw [show lastIdxAux c (x :: (xs ++ l2)) i acc =
        lastIdxAux c (xs ++ l2) (i + 1) (if x = c then some i else acc)
      from rfl]
    rw [ih]
    rw [show lastIdxAux c (x :: xs) i acc =
        lastIdxAux c xs (i + 1) (if x = c then some i else acc) from rfl]
    rw [List.length_cons]
    rw [show i + 1 + xs.length = i + (xs.length + 1) from by omega]

theorem lastIdxAux_no_match (c : Char) (l : List Char)
    (h : ∀ x ∈ l, ¬ x = c) : ∀ i acc, lastIdxAux c l i acc = acc := by
  induction l with
  | nil => intro i acc; rfl
  | cons x xs ih =>
    intro i acc
    rw [show lastIdxAux c (x :: xs) i acc =
        lastIdxAux c xs (i + 1) (if x = c then some i else acc) from rfl]
    rw [if_neg (h x (by simp))]
    exact ih (fun y hy => h y (by simp [hy])) (i + 1) acc

theorem lastIndexOfWithin_chain (j : Nat) :
    lastIndexOfWithin (chainDoc (j + 1)) '<' (66 + j - 1) = some 45 := by
  unfold lastIndexOfWithin
  rw [show 66 + j - 1 + 1 = 66 + j from by omega]
  rw [show (chainDoc (j + 1)).data =
      chainPre ++ (List.replicate (j + 1) 'u' ++ chainPost) from rfl]
  rw [show (66 + j : Nat) = chainPre.length + (4 + j) from by
    rw [show chainPre.length = 62 from by decide]
    omega]
  rw [take_append_len]
  rw [show (List.replicate (j + 1) 'u' ++ chainPost).take (4 + j) =
      List.replicate (j + 1) 'u' ++ chainPost.take 3 from by
    rw [show (4 + j : Nat) = (List.replicate (j + 1) 'u').length + 3 from by
      rw [List.length_replicate]
      omega]
    rw [take_append_len]]
  rw [lastIdxAux_append]
  rw [show lastIdxAux '<' chainPre 0 none = some 45 from by decide]
  apply lastIdxAux_no_match
  intro x hx
  rcases List.mem_append.mp hx with h1 | h1
  · rw [List.eq_of_mem_replicate h1]
    decide
  · rw [show chainPost.take 3 = ['\"', '/', '>'] from rfl] at h1
    simp only [List.mem_cons, List.not_mem_nil, or_false] at h1
    rcases h1 with rfl | rfl | rfl <;> decide

theorem rsOpen_chain (L : Nat) (hL : 1 ≤ L) (j d : Nat) (b : Option String)
    (st : RState) (hd : d < L) :
    rsOpen (chainEnv L) (chainDoc (j + 1)) d b st (chainXiNode j) (66 + j) 1
        (66 + j) =
      { st with
        foundXi := true,
        outputParts := st.outputParts ++
          [.lit (jsSubstring (chainDoc (j + 1)) st.lastPos 45),
           .job { hrefURL := chainUrl j, scheme := "", xpointer := none,
                  line := 1, col := 66 + j }],
        lastPos := 66 + j } := by
  have hxi : isXiNode (chainXiNode j) = true := rfl
  have hparse : assocFindX (chainXiNode j).attrs "parse" = none := rfl
  have hhref : assocFindX (chainXiNode j).attrs "href" =
      some { name := "href", pfx := "", localName := "href", uri := "",
             value := chainUrl j } := rfl
  have hxp : assocFindX (chainXiNode j).attrs "xpointer" = none := rfl
  have hsc : (chainXiNode j).isSelfClosing = true := rfl
  have hsup : ¬ ((chainEnv L).cfg.xincludeSupport = some false) := by
    simp [chainEnv]
  simp only [rsOpen, hxi, if_true]
  rw [depthLimitEff_chainEnv L hL, if_pos hd, lastIndexOfWithin_chain j]
  simp only [hsc, if_true, if_neg hsup, hparse, hhref, hxp]
  rw [resolveXIncludeHref_chain, uriScheme_chain]
  simp [List.append_assoc]

theorem rsOpen_not_xi (env : ResolveEnv) (s : String) (d : Nat)
    (b : Option String) (st : RState) (node : XNode) (pos line col : Nat)
    (h : isXiNode node = false) :
    rsOpen env s d b st node pos line col = st := by
  simp [rsOpen, h]

theorem rsClose_not_xi (d : Nat) (st : RState) (node : XNode) (pos : Nat)
    (h : isXiNode node = false) : rsClose d st node pos = st := by
  simp [rsClose, h]

theorem rsClose_chain_noop (d : Nat) (st : RState) (node : XNode) (pos : Nat)
    (hxi : isXiNode node = true) (hst : st.lastPos = pos) :
    rsClose d st node pos = st := by
  simp only [rsClose, hxi, if_true]
  split
  · rw [← hst]
  · rfl

theorem foldR_chain (L : Nat) (hL : 1 ≤ L) (j d : Nat) (b : Option String)
    (hd : d < L) :
    foldR (chainEnv L) (chainDoc (j + 1)) d b initR
        [.openTag chainANode 45 1 45,
         .openTag (chainXiNode j) (66 + j) 1 (66 + j),
         .closeTag (chainXiNode j) (66 + j),
         .closeTag chainANode (70 + j)] =
      { outputParts :=
          [.lit "<a xmlns:i=\"http://www.w3.org/2001/XInclude\">",
           .job { hrefURL := chainUrl j, scheme := "", xpointer := none,
                  line := 1, col := 66 + j }],
        lastPos := 66 + j, foundXi := true, advisories := 0 } := by
  simp only [foldR, List.foldl_cons, List.foldl_nil, rsStep]
  rw [rsOpen_not_xi (chainEnv L) (chainDoc (j + 1)) d b initR chainANode
    45 1 45 (by decide)]
  rw [rsOpen_chain L hL j d b initR hd]
  rw [show jsSubstring (chainDoc (j + 1)) initR.lastPos 45 =
    "<a xmlns:i=\"http://www.w3.org/2001/XInclude\">" from
      jsSubstring_chain_flush j]
  rw [rsClose_chain_noop d _ (chainXiNode j) (66 + j) rfl rfl]
  rw [rsClose_not_xi d _ chainANode (70 + j) (by decide)]
  rfl

theorem string_append_assoc (a b c : String) :
    a ++ b ++ c = a ++ (b ++ c) := by
  cases a with
  | mk la =>
    cases b with
    | mk lb =>
      cases c with
      | mk lc => exact congrArg String.mk (List.append_assoc la lb lc)

theorem string_join1 (a : String) : String.join [a] = a := by
  show "" ++ a = a
  exact string_nil_append a

theorem string_join3 (a b c : String) :
    String.join [a, b, c] = a ++ (b ++ c) := by
  show "" ++ a ++ b ++ c = a ++ (b ++ c)
  rw [string_nil_append, string_append_assoc]

theorem runJobWith_chain (L j d : Nat)
    (recur : String → Nat → Option String → ROut) (fp : Nat) :
    runJobWith (chainEnv L) recur d
        { hrefURL := chainUrl j, scheme := "", xpointer := none, line := 1,
          col := 66 + j } fp =
      { text := makePI d (chainUrl j) 1 (66 + j)
          (recur (chainDoc j) (d + 1) (some (chainUrl j))).text,
        advisories := (recur (chainDoc j) (d + 1) (some (chainUrl j))).advisories,
        fetches := chainUrl j ::
          (recur (chainDoc j) (d + 1) (some (chainUrl j))).fetches } := by
  simp only [runJobWith]
  have hsch : ¬ ((decide (("" : String) = "http") ||
      decide (("" : String) = "https")) = true) := by decide
  rw [if_neg hsch]
  rw [openDoc_chain]
  simp only [stripXmlDecl_chainDoc, Option.getD_some]

theorem resolveBody_chain (L : Nat) (hL : 1 ≤ L) (j d : Nat)
    (b : Option String) (recur : String → Nat → Option String → ROut)
    (hd : d < L) :
    resolveBody (chainEnv L) recur (chainDoc (j + 1)) d b =
      { text := "<a xmlns:i=\"http://www.w3.org/2001/XInclude\">" ++
          (makePI d (chainUrl j) 1 (66 + j)
            (recur (chainDoc j) (d + 1) (some (chainUrl j))).text ++ "</a>"),
        advisories :=
          (recur (chainDoc j) (d + 1) (some (chainUrl j))).advisories,
        fetches := chainUrl j ::
          (recur (chainDoc j) (d + 1) (some (chainUrl j))).fetches } := by
  simp only [resolveBody]
  rw [scanEvents_chainDoc j]
  simp only []
  rw [foldR_chain L hL j d b hd]
  simp only [Bool.false_and, Bool.false_eq_true, if_false]
  rw [jsSubstringFrom_chain_tail j]
  simp only [materializeParts]
  rw [runJobWith_chain L j d recur (70 + j)]
  simp only [List.map_cons, List.map_nil]
  rw [string_join3]
  simp

/-- Expected fully expanded text of a chain of `j` directives starting at
depth `d`: mapping markers at depth 0, nested markers below, and the
innermost document `<b/>` in the middle. -/
def chainExpect : Nat → Nat → String
  | 0, _ => "<b/>"
  | j + 1, d =>
    "<a xmlns:i=\"http://www.w3.org/2001/XInclude\">" ++
      (makePI d (chainUrl j) 1 (66 + j) (chainExpect j (d + 1)) ++ "</a>")

def chainFetches : Nat → List String
  | 0 => []
  | j + 1 => chainUrl j :: chainFetches j

theorem chain_resolve_full (L : Nat) (hL : 1 ≤ L) :
    ∀ j d b, d + j ≤ L →
      resolveXIncludes (chainEnv L) (chainDoc j) d b =
        { text := chainExpect j d, advisories := 0,
          fetches := chainFetches j } := by
  intro j
  induction j with
  | zero =>
    intro d b _
    have hno : ∀ e ∈ (scanEvents (chainDoc 0)).events,
        isXiNode (eventNode e) = false := by decide
    unfold resolveXIncludes
    cases depthLimitEff (chainEnv L).cfg - d with
    | zero => exact resolveBody_no_xi _ _ _ _ _ hno
    | succ n => exact resolveBody_no_xi _ _ _ _ _ hno
  | succ j ih =>
    intro d b hdb
    have hd : d < L := by omega
    unfold resolveXIncludes
    rw [depthLimitEff_chainEnv L hL]
    rw [show L - d = (L - d - 1) + 1 from by omega]
    show resolveBody (chainEnv L) (resolveCore (chainEnv L) (L - d - 1))
        (chainDoc (j + 1)) d b = _
    rw [resolveBody_chain L hL j d b _ hd]
    have hrec : resolveCore (chainEnv L) (L - d - 1) (chainDoc j) (d + 1)
        (some (chainUrl j)) =
        resolveXIncludes (chainEnv L) (chainDoc j) (d + 1)
          (some (chainUrl j)) := by
      unfold resolveXIncludes
      rw [depthLimitEff_chainEnv L hL]
      rw [show L - (d + 1) = L - d - 1 from by omega]
    rw [hrec, ih (d + 1) (some (chainUrl j)) (by omega)]
    rfl

/-- Expected text when a chain of `j` directives starting at depth `d`
runs into the depth limit: the innermost document `chainDoc 1` is kept
verbatim, its directive's literal text unexpanded. -/
def chainSkipExpect : Nat → Nat → String
  | 0, _ => chainDoc 0
  | 1, _ => chainDoc 1
  | j + 2, d =>
    "<a xmlns:i=\"http://www.w3.org/2001/XInclude\">" ++
      (makePI d (chainUrl (j + 1)) 1 (66 + (j + 1))
        (chainSkipExpect (j + 1) (d + 1)) ++ "</a>")

def chainSkipFetches : Nat → List String
  | 0 => []
  | 1 => []
  | j + 2 => chainUrl (j + 1) :: chainSkipFetches (j + 1)

theorem rsOpen_chain_skip (L : Nat) (hL : 1 ≤ L) (j : Nat)
    (b : Option String) (st : RState) (pos line col : Nat) :
    rsOpen (chainEnv L) (chainDoc (j + 1)) L b st (chainXiNode j) pos line
        col = { st with foundXi := true, advisories := st.advisories + 1 } := by
  have hxi : isXiNode (chainXiNode j) = true := rfl
  simp only [rsOpen, hxi, if_true]
  rw [depthLimitEff_chainEnv L hL]
  rw [if_neg (by omega)]

theorem foldR_chain_skip (L : Nat) (hL : 1 ≤ L) (j : Nat)
    (b : Option String) :
    foldR (chainEnv L) (chainDoc (j + 1)) L b initR
        [.openTag chainANode 45 1 45,
         .openTag (chainXiNode j) (66 + j) 1 (66 + j),
         .closeTag (chainXiNode j) (66 + j),
         .closeTag chainANode (70 + j)] =
      { outputParts := [], lastPos := 0, foundXi := true, advisories := 1 } := by
  simp only [foldR, List.foldl_cons, List.foldl_nil, rsStep]
  rw [rsOpen_not_xi (chainEnv L) (chainDoc (j + 1)) L b initR chainANode
    45 1 45 (by decide)]
  rw [rsOpen_chain_skip L hL j b initR (66 + j) 1 (66 + j)]
  rw [show rsClose L
      ({ initR with foundXi := true, advisories := initR.advisories + 1 })
      (chainXiNode j) (66 + j) =
      { initR with foundXi := true, advisories := initR.advisories + 1 } from by
    simp only [rsClose, show isXiNode (chainXiNode j) = true from rfl, if_true]
    rw [if_neg (by omega)]]
  rw [rsClose_not_xi L _ chainANode (70 + j) (by decide)]
  rfl

theorem chain_resolve_skip (L : Nat) (hL : 1 ≤ L) :
    ∀ j d b, 1 ≤ j → d + j = L + 1 →
      resolveXIncludes (chainEnv L) (chainDoc j) d b =
        { text := chainSkipExpect j d, advisories := 1,
          fetches := chainSkipFetches j } := by
  intro j
  induction j with
  | zero =>
    intro d b h1 _
    omega
  | succ j ih =>
    intro d b _ h2
    cases j with
    | zero =>
      have hdL : L = d := by omega
      subst hdL
      unfold resolveXIncludes
      rw [depthLimitEff_chainEnv L hL, Nat.sub_self]
      show resolveBody (chainEnv L) stubRecur (chainDoc 1) L b = _
      simp only [resolveBody]
      rw [scanEvents_chainDoc 0]
      simp only []
      rw [foldR_chain_skip L hL 0 b]
      simp only [Bool.false_and, Bool.false_eq_true, if_false]
      rw [jsSubstringFrom_zero]
      simp only [materializeParts, List.map_cons, List.map_nil]
      rw [string_join1]
      rfl
    | succ j' =>
      have hd : d < L := by omega
      unfold resolveXIncludes
      rw [depthLimitEff_chainEnv L hL]
      rw [show L - d = (L - d - 1) + 1 from by omega]
      show resolveBody (chainEnv L) (resolveCore (chainEnv L) (L - d - 1))
          (chainDoc (j' + 1 + 1)) d b = _
      rw [resolveBody_chain L hL (j' + 1) d b _ hd]
      have hrec : resolveCore (chainEnv L) (L - d - 1) (chainDoc (j' + 1))
          (d + 1) (some (chainUrl (j' + 1))) =
          resolveXIncludes (chainEnv L) (chainDoc (j' + 1)) (d + 1)
            (some (chainUrl (j' + 1))) := by
        unfold resolveXIncludes
        rw [depthLimitEff_chainEnv L hL]
        rw [show L - (d + 1) = L - d - 1 from by omega]
      rw [hrec, ih (d + 1) (some (chainUrl (j' + 1))) (by omega) (by omega)]
      rfl

theorem depthLimitEff_pos (cfg : SxmlConfig) : 1 ≤ depthLimitEff cfg := by
  unfold depthLimitEff
  cases cfg.xincludeDepth with
  | none => simp
  | some n =>
    show 1 ≤ if n = 0 then 50 else n
    split <;> omega

/-- C7: a directive encountered at depth at or above the configured limit
(always at least 1, by the falsy-zero fallback to 50) is skipped
wholesale: the handler only records the inclusion sighting and surfaces
one advisory per skip event - no flush, no job (hence no fetch and no
recursive resolution), literal cursor untouched, so the directive's
literal text stays in the output.  Consequently, for any configured limit
L, a chain of exactly L nested directives fully expands with no advisory,
while a chain of L + 1 surfaces exactly one advisory and leaves the
innermost directive's literal text unexpanded: the expected output
bottoms out at the verbatim document `chainDoc 1`, whose directive text
is intact. -/
theorem C7_depth_limit_skip_and_chains (env : ResolveEnv) (s : String)
    (depth : Nat) (b : Option String) (st : RState) (node : XNode)
    (pos line col : Nat) (L : Nat) (hL : 1 ≤ L) :
    (isXiNode node = true → depthLimitEff env.cfg ≤ depth →
      rsOpen env s depth b st node pos line col =
        { st with foundXi := true, advisories := st.advisories + 1 }) ∧
    1 ≤ depthLimitEff env.cfg ∧
    resolveXIncludes (chainEnv L) (chainDoc L) 0 b =
      { text := chainExpect L 0, advisories := 0,
        fetches := chainFetches L } ∧
    resolveXIncludes (chainEnv L) (chainDoc (L + 1)) 0 b =
      { text := chainSkipExpect (L + 1) 0, advisories := 1,
        fetches := chainSkipFetches (L + 1) } := by
  refine ⟨?skip, depthLimitEff_pos env.cfg, ?full, ?over⟩
  case skip =>
    intro hxi hge
    simp only [rsOpen, hxi, if_true]
    rw [if_neg (by omega)]
  case full => exact chain_resolve_full L hL L 0 b (by omega)
  case over => exact chain_resolve_skip L hL (L + 1) 0 b (by omega) (by omega)

theorem C7_witness :
    rsOpen (chainEnv 2) (chainDoc 1) 2 none initR (chainXiNode 0) 66 1 66 =
      { initR with foundXi := true, advisories := initR.advisories + 1 } ∧
    resolveXIncludes (chainEnv 2) (chainDoc 2) 0 none =
      { text := chainExpect 2 0, advisories := 0,
        fetches := chainFetches 2 } ∧
    resolveXIncludes (chainEnv 2) (chainDoc 3) 0 none =
      { text := chainSkipExpect 3 0, advisories := 1,
        fetches := chainSkipFetches 3 } :=
  ⟨(C7_depth_limit_skip_and_chains (chainEnv 2) (chainDoc 1) 2 none initR
      (chainXiNode 0) 66 1 66 2 (by decide)).1 (by decide) (by decide),
   (C7_depth_limit_skip_and_chains (chainEnv 2) (chainDoc 1) 2 none initR
      (chainXiNode 0) 66 1 66 2 (by decide)).2.2.1,
   (C7_depth_limit_skip_and_chains (chainEnv 2) (chainDoc 1) 2 none initR
      (chainXiNode 0) 66 1 66 2 (by decide)).2.2.2⟩

/-! ### Forest model of well-formed event streams (C5, C6)

A well-formed document delivers its events as the flattening of a forest
of element trees: an open event (with the node, the position after the
open tag's `>`, and line/column), the children's events, and a close
event at the position after the close tag's `>`; a self-closing element
contributes its close event immediately at the open position and hides
any children.  The claims about the fragment selector's diagnostics are
stated over documents whose scan is such a flattening. -/

mutual
inductive XTree where
  | node (xn : XNode) (op ol oc cp : Nat) (children : XForest)
deriving DecidableEq, Repr
inductive XForest where
  | fnil
  | fcons (t : XTree) (ts : XForest)
deriving DecidableEq, Repr
end

mutual
def flattenT : XTree → List XEvent
  | .node xn op ol oc cp ch =>
    if xn.isSelfClosing then [.openTag xn op ol oc, .closeTag xn op]
    else .openTag xn op ol oc :: (flattenF ch ++ [.closeTag xn cp])
def flattenF : XForest → List XEvent
  | .fnil => []
  | .fcons t ts => flattenT t ++ flattenF ts
end

/-- The children the scan actually visits: none for a self-closing tag. -/
def XTree.kids : XTree → XForest
  | .node xn _ _ _ _ ch => if xn.isSelfClosing then .fnil else ch

def XTree.xnode : XTree → XNode
  | .node xn _ _ _ _ _ => xn

def XTree.openPos : XTree → Nat
  | .node _ op _ _ _ _ => op

def XTree.closeEff : XTree → Nat
  | .node xn op _ _ cp _ => if xn.isSelfClosing then op else cp

def lengthF : XForest → Nat
  | .fnil => 0
  | .fcons _ ts => lengthF ts + 1

/-- 1-based child access, as the selector's sibling indices are. -/
def getF : XForest → Nat → Option XTree
  | .fnil, _ => none
  | .fcons _ _, 0 => none
  | .fcons t _, 1 => some t
  | .fcons _ ts, n + 2 => getF ts (n + 1)

/-- Number of scanned children of an element. -/
def countKids (t : XTree) : Nat := lengthF t.kids

/-- Relative descent below an element along 1-based sibling indices. -/
def subElemT (t : XTree) : List Nat → Option XTree
  | [] => some t
  | s :: rest =>
    match getF t.kids s with
    | some c => subElemT c rest
    | none => none

/-- The element of a forest at an absolute 1-based path. -/
def elemAtPath (F : XForest) : List Nat → Option XTree
  | [] => none
  | s :: rest =>
    match getF F s with
    | some t => subElemT t rest
    | none => none

/-! No element of the tree (whose absolute 1-based path is `q`), nor any
scanned descendant, sits at absolute path `steps`. -/
mutual
def noMatchT (steps q : List Nat) : XTree → Prop
  | .node xn _ _ _ _ ch =>
    q ≠ steps ∧ (xn.isSelfClosing = false → noMatchF steps q 0 ch)
def noMatchF (steps p : List Nat) (k : Nat) : XForest → Prop
  | .fnil => True
  | .fcons t ts =>
    noMatchT steps (p ++ [k + 1]) t ∧ noMatchF steps p (k + 1) ts
end


theorem matchesPath_self (a : List Nat) : matchesPath a a = true := by
  induction a with
  | nil => rfl
  | cons x xs ih =>
    simp only [matchesPath, Bool.and_eq_true, beq_iff_eq] at ih
    simp [matchesPath, ih.2]

theorem matchesPath_eq_true_iff (a b : List Nat) :
    matchesPath a b = true ↔ a = b := by
  induction a generalizing b with
  | nil =>
    cases b <;> simp [matchesPath]
  | cons x xs ih =>
    cases b with
    | nil => simp [matchesPath]
    | cons y ys =>
      constructor
      · intro hmp
        simp only [matchesPath, List.length_cons, List.zip_cons_cons,
          List.all_cons, Bool.and_eq_true, beq_iff_eq,
          Nat.add_right_cancel_iff] at hmp
        obtain ⟨hlen, hxy, hall⟩ := hmp
        have hxs : matchesPath xs ys = true := by
          simp only [matchesPath, Bool.and_eq_true, beq_iff_eq]
          exact ⟨hlen, hall⟩
        rw [(ih ys).1 hxs, hxy]
      · intro h
        rw [← h]
        exact matchesPath_self _

theorem incLast_concat (cs : List Nat) (k : Nat) :
    incLast (cs ++ [k]) = cs ++ [k + 1] := by
  induction cs with
  | nil => rfl
  | cons x xs ih =>
    cases xs with
    | nil => rfl
    | cons y ys =>
      show x :: incLast (y :: (ys ++ [k])) = x :: (y :: ys ++ [k + 1])
      rw [show (y :: ys) ++ [k] = y :: (ys ++ [k]) from rfl] at ih
      rw [ih]

theorem lastD_concat (cs : List Nat) (k d : Nat) : lastD (cs ++ [k]) d = k := by
  induction cs with
  | nil => rfl
  | cons x xs ih =>
    cases xs with
    | nil => rfl
    | cons y ys => simp [lastD, List.getLastD]

theorem getSparse_nil (j : Nat) : getSparse [] j = none := by
  simp [getSparse]

theorem getSparse_setSparse :
    ∀ (i : Nat) (A : List (Option Nat)) (j v : Nat),
    getSparse (setSparse A i v) j =
      if i = j then some v else getSparse A j := by
  intro i
  induction i with
  | zero =>
    intro A j v
    cases A with
    | nil => cases j <;> simp [getSparse, setSparse]
    | cons x xs => cases j <;> simp [getSparse, setSparse]
  | succ n ih =>
    intro A j v
    cases A with
    | nil =>
      cases j with
      | zero => simp [getSparse, setSparse]
      | succ m =>
        show getSparse (setSparse [] n v) m =
          if n + 1 = m + 1 then some v else getSparse [] (m + 1)
        rw [ih [] m v]
        by_cases h : n = m <;> simp [h, getSparse]
    | cons x xs =>
      cases j with
      | zero => simp [getSparse, setSparse]
      | succ m =>
        show getSparse (setSparse xs n v) m =
          if n + 1 = m + 1 then some v else getSparse (x :: xs) (m + 1)
        rw [ih xs m v]
        by_cases h : n = m <;> simp [h, getSparse]

theorem foldSel_append (xs : String) (sc : Option ElementScheme)
    (tid : Option String) (st : SelSt) (l1 l2 : List XEvent) :
    foldSel xs sc tid st (l1 ++ l2) =
      match foldSel xs sc tid st l1 with
      | .ok st1 => foldSel xs sc tid st1 l2
      | .error e => .error e := by
  induction l1 generalizing st with
  | nil => rfl
  | cons e es ih =>
    show foldSel xs sc tid st (e :: (es ++ l2)) = _
    simp only [foldSel]
    cases selStep xs sc tid st e with
    | error m => rfl
    | ok st1 => exact ih st1

theorem getF_zero (ts : XForest) : getF ts 0 = none := by
  cases ts <;> rfl

theorem getF_none_of_gt : ∀ (ts : XForest) (i : Nat),
    lengthF ts < i → getF ts i = none
  | .fnil, _, _ => rfl
  | .fcons _ _, 0, h => absurd h (Nat.not_lt_zero _)
  | .fcons _ ts, 1, h => by simp [lengthF] at h
  | .fcons _ ts, n + 2, h => by
    show getF ts (n + 1) = none
    exact getF_none_of_gt ts (n + 1) (by simp [lengthF] at h; omega)

theorem subElemT_append (t : XTree) (a b : List Nat) :
    subElemT t (a ++ b) =
      match subElemT t a with
      | some c => subElemT c b
      | none => none := by
  induction a generalizing t with
  | nil => rfl
  | cons s rest ih =>
    show subElemT t (s :: (rest ++ b)) = _
    simp only [subElemT]
    cases getF t.kids s with
    | none => rfl
    | some c => exact ih c

theorem elemAtPath_append (F : XForest) (a b : List Nat) (ha : a ≠ []) :
    elemAtPath F (a ++ b) =
      match elemAtPath F a with
      | some t => subElemT t b
      | none => none := by
  cases a with
  | nil => exact absurd rfl ha
  | cons s rest =>
    show elemAtPath F (s :: (rest ++ b)) = _
    simp only [elemAtPath]
    cases getF F s with
    | none => rfl
    | some t => exact subElemT_append t rest b

theorem selOpen_pos_nomatch (xs : String) (steps : List Nat) (node : XNode)
    (pos : Nat) (p cs : List Nat) (k : Nat) (sp ep : Option Nat)
    (A I : List (Option Nat)) (ap : Option (List Nat)) (af : Bool)
    (h : p ++ [k + 1] ≠ steps) :
    selOpen xs (some (.positional steps)) none
      ⟨p.length, false, none, sp, ep, cs ++ [k], p, A, I, ap, af⟩ node pos =
    .ok ⟨p.length + 1, false, none, sp, ep, (cs ++ [k + 1]) ++ [0],
      p ++ [k + 1], A, I, ap, af⟩ := by
  have hm : matchesPath (p ++ [k + 1]) steps = false :=
    Bool.eq_false_iff.mpr fun hc => h ((matchesPath_eq_true_iff _ _).1 hc)
  unfold selOpen
  simp only [incLast_concat, lastD_concat]
  simp [hm]

theorem selClose_pos_state (steps : List Nat) (pos : Nat) (p cs : List Nat)
    (k cnt : Nat) (sp ep : Option Nat) (A I : List (Option Nat))
    (ap : Option (List Nat)) (af : Bool) :
    selClose (some (.positional steps))
      ⟨p.length + 1, false, none, sp, ep, (cs ++ [k + 1]) ++ [cnt],
        p ++ [k + 1], A, I, ap, af⟩ pos =
    ⟨p.length, false, none, sp, ep, cs ++ [k + 1], p,
      (if decide ((p ++ [k + 1]).length ≤ steps.length) &&
          matchesPath (p ++ [k + 1]) (steps.take (p ++ [k + 1]).length) then
        setSparse A (p ++ [k + 1]).length cnt
      else A), I, ap, af⟩ := by
  unfold selClose
  simp only [lastD_concat, List.dropLast_concat]
  split
  · simp_all [List.dropLast_concat, lastD_concat]
  · simp_all [List.dropLast_concat, lastD_concat]

theorem foldSel_cons_ok (xs : String) (sc : Option ElementScheme)
    (tid : Option String) (st st1 : SelSt) (e : XEvent) (es : List XEvent)
    (h : selStep xs sc tid st e = .ok st1) :
    foldSel xs sc tid st (e :: es) = foldSel xs sc tid st1 es := by
  show (match selStep xs sc tid st e with
        | Except.error msg => Except.error msg
        | Except.ok st' => foldSel xs sc tid st' es) = _
  rw [h]

theorem foldSel_append_ok (xs : String) (sc : Option ElementScheme)
    (tid : Option String) (st st1 : SelSt) (l1 l2 : List XEvent)
    (h : foldSel xs sc tid st l1 = .ok st1) :
    foldSel xs sc tid st (l1 ++ l2) = foldSel xs sc tid st1 l2 := by
  rw [foldSel_append, h]


/-- The single sparse write the close handler performs for an element at
absolute path `q` with `cnt` children, when `q` is a prefix of `steps`. -/
def posWrite (steps q : List Nat) (cnt : Nat) : List (Nat × Nat) :=
  if decide (q.length ≤ steps.length) &&
     matchesPath q (steps.take q.length) then [(q.length, cnt)]
  else []

/-! The ordered list of sparse `positionalCounts` writes contributed by
scanning one tree at absolute path `q` (respectively a forest of younger
siblings of which `k` have already been scanned, below path `p`). -/
mutual
def posWT (steps q : List Nat) : XTree → List (Nat × Nat)
  | .node xn _ _ _ _ ch =>
    if xn.isSelfClosing then posWrite steps q 0
    else posWF steps q 0 ch ++ posWrite steps q (lengthF ch)
def posWF (steps p : List Nat) (k : Nat) : XForest → List (Nat × Nat)
  | .fnil => []
  | .fcons t ts => posWT steps (p ++ [k + 1]) t ++ posWF steps p (k + 1) ts
end

/-- Replay a list of sparse writes onto a sparse array. -/
def applyWrites (A : List (Option Nat)) (ws : List (Nat × Nat)) :
    List (Option Nat) :=
  ws.foldl (fun B w => setSparse B w.1 w.2) A

theorem applyWrites_append (A : List (Option Nat)) (w1 w2 : List (Nat × Nat)) :
    applyWrites A (w1 ++ w2) = applyWrites (applyWrites A w1) w2 := by
  simp [applyWrites, List.foldl_append]

theorem applyWrites_posWrite (steps q : List Nat) (B : List (Option Nat))
    (cnt : Nat) :
    applyWrites B (posWrite steps q cnt) =
      if decide (q.length ≤ steps.length) &&
         matchesPath q (steps.take q.length) then
        setSparse B q.length cnt
      else B := by
  unfold posWrite
  split <;> simp [applyWrites]

theorem posWF_fnil (steps p : List Nat) (k : Nat) :
    posWF steps p k .fnil = [] := by
  simp only [posWF]

theorem posWF_fcons (steps p : List Nat) (k : Nat) (t : XTree) (ts : XForest) :
    posWF steps p k (.fcons t ts) =
      posWT steps (p ++ [k + 1]) t ++ posWF steps p (k + 1) ts := by
  simp only [posWF]

theorem posWT_kids (steps q : List Nat) (t : XTree) :
    posWT steps q t = posWF steps q 0 t.kids ++ posWrite steps q (countKids t) := by
  match t with
  | .node xn op ol oc cp ch =>
    by_cases hsc : xn.isSelfClosing = true
    · simp only [posWT, XTree.kids, countKids, hsc, if_true, lengthF]
      rw [posWF_fnil]
      simp [lengthF]
    · have hsc' : xn.isSelfClosing = false := Bool.eq_false_iff.mpr hsc
      simp [posWT, XTree.kids, countKids, hsc', lengthF]

theorem noMatchT_node (steps q : List Nat) (xn : XNode) (op ol oc cp : Nat)
    (ch : XForest) :
    noMatchT steps q (.node xn op ol oc cp ch) ↔
      q ≠ steps ∧ (xn.isSelfClosing = false → noMatchF steps q 0 ch) := by
  simp only [noMatchT]

theorem noMatchF_fcons (steps p : List Nat) (k : Nat) (t : XTree)
    (ts : XForest) :
    noMatchF steps p k (.fcons t ts) ↔
      noMatchT steps (p ++ [k + 1]) t ∧ noMatchF steps p (k + 1) ts := by
  simp only [noMatchF]

mutual
theorem foldSel_pos_tree (xs : String) (steps : List Nat) (t : XTree)
    (p cs : List Nat) (k : Nat) (sp ep : Option Nat)
    (A I : List (Option Nat)) (ap : Option (List Nat)) (af : Bool)
    (hnm : noMatchT steps (p ++ [k + 1]) t) :
    foldSel xs (some (.positional steps)) none
      ⟨p.length, false, none, sp, ep, cs ++ [k], p, A, I, ap, af⟩
      (flattenT t) =
    .ok ⟨p.length, false, none, sp, ep, cs ++ [k + 1], p,
      applyWrites A (posWT steps (p ++ [k + 1]) t), I, ap, af⟩ := by
  match t with
  | .node xn op ol oc cp ch =>
    rw [noMatchT_node] at hnm
    obtain ⟨hne, hch⟩ := hnm
    have hopen : selStep xs (some (.positional steps)) none
        ⟨p.length, false, none, sp, ep, cs ++ [k], p, A, I, ap, af⟩
        (.openTag xn op ol oc) =
      .ok ⟨p.length + 1, false, none, sp, ep, (cs ++ [k + 1]) ++ [0],
        p ++ [k + 1], A, I, ap, af⟩ :=
      selOpen_pos_nomatch xs steps xn op p cs k sp ep A I ap af hne
    by_cases hsc : xn.isSelfClosing = true
    · simp only [flattenT]
      rw [if_pos hsc]
      rw [foldSel_cons_ok xs _ none _ _ _ _ hopen]
      rw [foldSel_cons_ok xs _ none _ _ _ _
        (show selStep xs (some (.positional steps)) none
          ⟨p.length + 1, false, none, sp, ep, (cs ++ [k + 1]) ++ [0],
            p ++ [k + 1], A, I, ap, af⟩ (XEvent.closeTag xn op) =
          .ok (selClose (some (.positional steps))
            ⟨p.length + 1, false, none, sp, ep, (cs ++ [k + 1]) ++ [0],
              p ++ [k + 1], A, I, ap, af⟩ op) from rfl)]
      rw [selClose_pos_state steps op p cs k 0 sp ep A I ap af]
      show Except.ok _ = _
      rw [show posWT steps (p ++ [k + 1]) (XTree.node xn op ol oc cp ch) =
        posWrite steps (p ++ [k + 1]) 0 from by simp only [posWT, hsc, if_true]]
      rw [applyWrites_posWrite]
    · have hsc' : xn.isSelfClosing = false := Bool.eq_false_iff.mpr hsc
      simp only [flattenT]
      rw [if_neg hsc]
      rw [foldSel_cons_ok xs _ none _ _ _ _ hopen]
      have hF := foldSel_pos_forest xs steps ch (p ++ [k + 1]) (cs ++ [k + 1])
        0 sp ep A I ap af (hch hsc')
      simp only [List.length_append, List.length_singleton, Nat.zero_add] at hF
      rw [foldSel_append_ok xs _ none _ _ _ _ hF]
      rw [foldSel_cons_ok xs _ none _ _ _ _
        (show selStep xs (some (.positional steps)) none
          ⟨p.length + 1, false, none, sp, ep,
            (cs ++ [k + 1]) ++ [lengthF ch], p ++ [k + 1],
            applyWrites A (posWF steps (p ++ [k + 1]) 0 ch), I, ap, af⟩
          (XEvent.closeTag xn cp) =
          .ok (selClose (some (.positional steps))
            ⟨p.length + 1, false, none, sp, ep,
              (cs ++ [k + 1]) ++ [lengthF ch], p ++ [k + 1],
              applyWrites A (posWF steps (p ++ [k + 1]) 0 ch), I, ap, af⟩ cp)
          from rfl)]
      rw [selClose_pos_state steps cp p cs k (lengthF ch) sp ep
        (applyWrites A (posWF steps (p ++ [k + 1]) 0 ch)) I ap af]
      show Except.ok _ = _
      rw [show posWT steps (p ++ [k + 1]) (XTree.node xn op ol oc cp ch) =
        posWF steps (p ++ [k + 1]) 0 ch ++
          posWrite steps (p ++ [k + 1]) (lengthF ch) from by
        simp only [posWT, hsc', Bool.false_eq_true, if_false]]
      rw [applyWrites_append, applyWrites_posWrite]

theorem foldSel_pos_forest (xs : String) (steps : List Nat) (ts : XForest)
    (p cs : List Nat) (k : Nat) (sp ep : Option Nat)
    (A I : List (Option Nat)) (ap : Option (List Nat)) (af : Bool)
    (hnm : noMatchF steps p k ts) :
    foldSel xs (some (.positional steps)) none
      ⟨p.length, false, none, sp, ep, cs ++ [k], p, A, I, ap, af⟩
      (flattenF ts) =
    .ok ⟨p.length, false, none, sp, ep, cs ++ [k + lengthF ts], p,
      applyWrites A (posWF steps p k ts), I, ap, af⟩ := by
  match ts with
  | .fnil =>
    rw [posWF_fnil]
    show Except.ok _ = _
    rfl
  | .fcons t ts' =>
    rw [noMatchF_fcons] at hnm
    obtain ⟨h1, h2⟩ := hnm
    rw [show flattenF (.fcons t ts') = flattenT t ++ flattenF ts' from by
      simp only [flattenF]]
    rw [foldSel_append_ok xs _ none _ _ _ _
      (foldSel_pos_tree xs steps t p cs k sp ep A I ap af h1)]
    rw [foldSel_pos_forest xs steps ts' p cs (k + 1) sp ep
      (applyWrites A (posWT steps (p ++ [k + 1]) t)) I ap af h2]
    rw [posWF_fcons, applyWrites_append]
    rw [show k + lengthF (XForest.fcons t ts') = k + 1 + lengthF ts' from by
      simp only [lengthF]; omega]
end

/-- `q` is the length-`q.length` prefix of `steps`: exactly the paths for
which the close handler records a positional count. -/
def isChainP (steps q : List Nat) : Prop :=
  q.length ≤ steps.length ∧ q = steps.take q.length

instance (steps q : List Nat) : Decidable (isChainP steps q) := by
  unfold isChainP; infer_instance

theorem posWrite_pos (steps q : List Nat) (cnt : Nat)
    (h : isChainP steps q) :
    posWrite steps q cnt = [(q.length, cnt)] := by
  unfold posWrite
  rw [if_pos]
  simp only [Bool.and_eq_true, decide_eq_true_eq, matchesPath_eq_true_iff]
  exact ⟨h.1, h.2⟩

theorem posWrite_neg (steps q : List Nat) (cnt : Nat)
    (h : ¬ isChainP steps q) :
    posWrite steps q cnt = [] := by
  unfold posWrite
  rw [if_neg]
  simp only [Bool.and_eq_true, decide_eq_true_eq, matchesPath_eq_true_iff]
  intro hc
  exact h ⟨hc.1, hc.2⟩

theorem not_chain_extend (steps q : List Nat) (h : ¬ isChainP steps q)
    (i : Nat) : ¬ isChainP steps (q ++ [i]) := by
  intro hc
  apply h
  obtain ⟨h1, h2⟩ := hc
  simp only [List.length_append, List.length_singleton] at h1
  refine ⟨by omega, ?_⟩
  have h3 := congrArg (fun l => l.take q.length) h2
  simp only [List.take_append_eq_append_take, Nat.sub_self, List.take_zero,
    List.append_nil, List.take_length, List.take_take,
    List.length_append, List.length_singleton] at h3
  rw [Nat.min_eq_left (Nat.le_succ _)] at h3
  exact h3

theorem chain_coord (steps q : List Nat) (i : Nat)
    (h : isChainP steps (q ++ [i])) : steps.get? q.length = some i := by
  obtain ⟨h1, h2⟩ := h
  simp only [List.length_append, List.length_singleton] at h1
  have := congrArg (fun l => l.get? q.length) h2
  simp only [List.get?_append_right (Nat.le_refl q.length)] at this
  rw [List.get?_take (by simp)] at this
  simp at this
  rw [List.get?_eq_getElem?]
  exact this.symm

mutual
theorem posWT_not_chain (steps : List Nat) (t : XTree) (q : List Nat)
    (h : ¬ isChainP steps q) : posWT steps q t = [] := by
  match t with
  | .node xn op ol oc cp ch =>
    by_cases hsc : xn.isSelfClosing = true
    · simp only [posWT, hsc, if_true]
      exact posWrite_neg steps q 0 h
    · simp only [posWT, hsc, if_false]
      rw [posWrite_neg steps q (lengthF ch) h,
        posWF_not_chain steps ch q 0 (fun i _ _ => not_chain_extend steps q h i)]
      rfl

theorem posWF_not_chain (steps : List Nat) (ts : XForest) (p : List Nat)
    (k : Nat)
    (h : ∀ i, k < i → i ≤ k + lengthF ts → ¬ isChainP steps (p ++ [i])) :
    posWF steps p k ts = [] := by
  match ts with
  | .fnil => rw [posWF_fnil]
  | .fcons t ts' =>
    rw [posWF_fcons]
    rw [posWT_not_chain steps t (p ++ [k + 1])
      (h (k + 1) (Nat.lt_succ_self k) (by simp only [lengthF]; omega))]
    rw [posWF_not_chain steps ts' p (k + 1)
      (fun i h1 h2 => h i (by omega) (by simp only [lengthF]; omega))]
    rfl
end

theorem posWF_chain_end (steps p : List Nat) (k : Nat) (ts : XForest)
    (hnone : steps.get? p.length = none) : posWF steps p k ts = [] :=
  posWF_not_chain steps ts p k (fun i _ _ hc => by
    have h3 := chain_coord steps p i hc
    rw [hnone] at h3
    cases h3)

theorem posWF_chain_miss (steps p : List Nat) (k s : Nat) (ts : XForest)
    (hs : steps.get? p.length = some s)
    (hmiss : s ≤ k ∨ k + lengthF ts < s) : posWF steps p k ts = [] :=
  posWF_not_chain steps ts p k (fun i h1 h2 hc => by
    have h3 := chain_coord steps p i hc
    rw [hs] at h3
    injection h3 with h4
    omega)

theorem posWF_chain_hit (steps p : List Nat) :
    ∀ (ts : XForest) (k s : Nat) (t : XTree),
    steps.get? p.length = some s → k < s → getF ts (s - k) = some t →
    posWF steps p k ts = posWT steps (p ++ [s]) t
  | .fnil, k, s, t, hs, hks, hg => by
    rw [getF_none_of_gt .fnil (s - k) (by simp [lengthF]; omega)] at hg
    cases hg
  | .fcons t0 ts', k, s, t, hs, hks, hg => by
    rw [posWF_fcons]
    by_cases hsk : s = k + 1
    · subst hsk
      have hg' : some t0 = some t := by
        rw [show k + 1 - k = 1 from by omega] at hg
        exact hg
      injection hg' with hg''
      rw [posWF_chain_miss steps p (k + 1) (k + 1) ts' hs
        (Or.inl (Nat.le_refl _))]
      rw [List.append_nil, hg'']
    · have hg' : getF ts' (s - (k + 1)) = some t := by
        rw [show s - k = (s - (k + 2)) + 2 from by omega] at hg
        rw [show s - (k + 1) = (s - (k + 2)) + 1 from by omega]
        exact hg
      rw [posWT_not_chain steps t0 (p ++ [k + 1]) (fun hc => by
        have h3 := chain_coord steps p (k + 1) hc
        rw [hs] at h3
        injection h3 with h4
        omega)]
      rw [posWF_chain_hit steps p ts' (k + 1) s t hs (by omega) hg']
      rfl

theorem getF_none_bound : ∀ (ts : XForest) (i : Nat),
    getF ts i = none → i = 0 ∨ lengthF ts < i
  | .fnil, i, _ => by
    cases i with
    | zero => exact Or.inl rfl
    | succ n => exact Or.inr (by simp [lengthF])
  | .fcons _ _, 0, _ => Or.inl rfl
  | .fcons _ _, 1, h => by cases h
  | .fcons _ ts, n + 2, h => by
    have h2 := getF_none_bound ts (n + 1) h
    rcases h2 with h0 | hlt
    · exact absurd h0 (Nat.succ_ne_zero n)
    · exact Or.inr (by simp only [lengthF]; omega)

theorem elemAtPath_take_succ (F : XForest) (steps : List Nat) (l : Nat)
    (e : XTree) (s : Nat) (hl1 : 1 ≤ l) (hlen : l < steps.length)
    (he : elemAtPath F (steps.take l) = some e)
    (hs : steps.get? l = some s) :
    elemAtPath F (steps.take (l + 1)) = getF e.kids s := by
  rw [List.get?_eq_getElem?] at hs
  rw [List.take_succ, hs]
  rw [show Option.toList (some s) = [s] from rfl]
  rw [elemAtPath_append F (steps.take l) [s] (by
    have : (steps.take l).length = l := by rw [List.length_take]; omega
    intro hnil
    rw [hnil] at this
    simp at this
    omega)]
  rw [he]
  show subElemT e [s] = getF e.kids s
  simp only [subElemT]
  cases getF e.kids s <;> rfl

theorem elemAtPath_take_none_mono (F : XForest) (steps : List Nat)
    (a b : Nat) (ha1 : 1 ≤ a) (hab : a ≤ b)
    (ha : elemAtPath F (steps.take a) = none) :
    elemAtPath F (steps.take b) = none := by
  by_cases hlen : steps.length ≤ a
  · rw [List.take_of_length_le hlen] at ha
    rw [List.take_of_length_le (le_trans hlen hab)]
    exact ha
  · push_neg at hlen
    rw [show b = a + (b - a) from by omega, List.take_add]
    rw [elemAtPath_append F _ _ (by
      have : (steps.take a).length = a := by rw [List.length_take]; omega
      intro hnil
      rw [hnil] at this
      simp at this
      omega)]
    rw [ha]

theorem posWT_chain_reads (steps : List Nat) (F : XForest) :
    ∀ (n l : Nat) (e : XTree) (A : List (Option Nat)),
    steps.length - l = n → 1 ≤ l → l ≤ steps.length →
    elemAtPath F (steps.take l) = some e →
    (∀ j, l ≤ j → getSparse A j = none) →
    ∀ m, getSparse (applyWrites A (posWT steps (steps.take l) e)) m =
      if l ≤ m ∧ m ≤ steps.length then
        (elemAtPath F (steps.take m)).map countKids
      else getSparse A m := by
  intro n
  induction n with
  | zero =>
    intro l e A hn hl1 hl2 he hA m
    have hleq : l = steps.length := by omega
    have hlen_take : (steps.take l).length = l := by
      rw [List.length_take]; omega
    rw [posWT_kids steps (steps.take l) e, applyWrites_append,
      applyWrites_posWrite, hlen_take]
    rw [if_pos (by simp [matchesPath_self, hl2])]
    rw [posWF_chain_end steps (steps.take l) 0 e.kids (by
      rw [hlen_take, List.get?_eq_getElem?]
      simp [hleq])]
    simp only [applyWrites, List.foldl_nil]
    rw [getSparse_setSparse]
    by_cases hm : l = m
    · rw [if_pos hm, if_pos ⟨by omega, by omega⟩, ← hm, he]
      rfl
    · rw [if_neg hm, if_neg (by omega)]
  | succ n ih =>
    intro l e A hn hl1 hl2 he hA m
    have hllt : l < steps.length := by omega
    have hlen_take : (steps.take l).length = l := by
      rw [List.length_take]; omega
    rw [posWT_kids steps (steps.take l) e, applyWrites_append,
      applyWrites_posWrite, hlen_take]
    rw [if_pos (by simp [matchesPath_self, hl2])]
    cases hq : steps.get? l with
    | none =>
      rw [List.get?_eq_none] at hq
      omega
    | some s =>
      cases hkid : getF e.kids s with
      | none =>
        have hbound := getF_none_bound e.kids s hkid
        rw [posWF_chain_miss steps (steps.take l) 0 s e.kids
          (by rw [hlen_take]; exact hq) (by
            rcases hbound with h0 | hlt
            · exact Or.inl (by omega)
            · exact Or.inr (by omega))]
        have hnext : elemAtPath F (steps.take (l + 1)) = none := by
          rw [elemAtPath_take_succ F steps l e s hl1 hllt he hq]
          exact hkid
        simp only [applyWrites, List.foldl_nil]
        rw [getSparse_setSparse]
        by_cases hm : l = m
        · rw [if_pos hm, if_pos ⟨by omega, by omega⟩, ← hm, he]
          rfl
        · rw [if_neg hm]
          by_cases hm2 : l ≤ m ∧ m ≤ steps.length
          · rw [if_pos hm2,
              elemAtPath_take_none_mono F steps (l + 1) m (by omega)
                (by omega) hnext,
              hA m hm2.1]
            rfl
          · rw [if_neg hm2]
      | some c =>
        have hs0 : 0 < s := by
          rcases Nat.eq_zero_or_pos s with h0 | hpos
          · rw [h0, getF_zero] at hkid
            cases hkid
          · exact hpos
        rw [posWF_chain_hit steps (steps.take l) e.kids 0 s c
          (by rw [hlen_take]; exact hq) hs0
          (by rw [show s - 0 = s from by omega]; exact hkid)]
        rw [show steps.take l ++ [s] = steps.take (l + 1) from by
          rw [List.get?_eq_getElem?] at hq
          rw [List.take_succ, hq]
          rfl]
        have hnext : elemAtPath F (steps.take (l + 1)) = some c := by
          rw [elemAtPath_take_succ F steps l e s hl1 hllt he hq]
          exact hkid
        rw [getSparse_setSparse]
        rw [ih (l + 1) c A (by omega) (by omega) (by omega) hnext
          (fun j hj => hA j (by omega)) m]
        by_cases hm : l = m
        · rw [if_pos hm,
            if_pos (show l ≤ m ∧ m ≤ steps.length from ⟨by omega, by omega⟩),
            ← hm, he]
          rfl
        · rw [if_neg hm]
          by_cases h2 : l + 1 ≤ m ∧ m ≤ steps.length
          · rw [if_pos h2, if_pos ⟨by omega, h2.2⟩]
          · rw [if_neg h2, if_neg (fun hc => h2 ⟨by omega, hc.2⟩)]

theorem elemAtPath_singleton (F : XForest) (s : Nat) :
    elemAtPath F [s] = getF F s := by
  simp only [elemAtPath]
  cases getF F s <;> rfl

theorem posWF_root_reads (steps : List Nat) (F : XForest)
    (m : Nat) (hm1 : 1 ≤ m) (hm2 : m ≤ steps.length) :
    getSparse (applyWrites [] (posWF steps [] 0 F)) m =
      (elemAtPath F (steps.take m)).map countKids := by
  cases hq : steps.get? 0 with
  | none =>
    rw [List.get?_eq_none] at hq
    omega
  | some s =>
    have htake1 : steps.take 1 = [s] := by
      have hq' := hq
      rw [List.get?_eq_getElem?] at hq'
      rw [List.take_succ, hq']
      rfl
    rcases Nat.eq_zero_or_pos s with hs0 | hs1
    · subst hs0
      rw [posWF_chain_miss steps [] 0 0 F hq (Or.inl (Nat.le_refl 0))]
      rw [show applyWrites [] ([] : List (Nat × Nat)) = [] from rfl]
      rw [getSparse_nil]
      rw [elemAtPath_take_none_mono F steps 1 m (Nat.le_refl 1) hm1
        (by rw [htake1, elemAtPath_singleton, getF_zero])]
      rfl
    · cases hkid : getF F s with
      | none =>
        have hbound := getF_none_bound F s hkid
        rw [posWF_chain_miss steps [] 0 s F hq (by
          rcases hbound with h0 | hlt
          · omega
          · exact Or.inr (by omega))]
        rw [show applyWrites [] ([] : List (Nat × Nat)) = [] from rfl]
        rw [getSparse_nil]
        rw [elemAtPath_take_none_mono F steps 1 m (Nat.le_refl 1) hm1
          (by rw [htake1, elemAtPath_singleton, hkid])]
        rfl
      | some t =>
        rw [posWF_chain_hit steps [] F 0 s t hq hs1
          (by rw [show s - 0 = s from rfl]; exact hkid)]
        rw [show ([] : List Nat) ++ [s] = steps.take 1 from by
          rw [htake1]
          rfl]
        rw [posWT_chain_reads steps F (steps.length - 1) 1 t []
          rfl (Nat.le_refl 1) (by omega)
          (by rw [htake1, elemAtPath_singleton]; exact hkid)
          (fun j _ => getSparse_nil j) m]
        rw [if_pos ⟨hm1, hm2⟩]

theorem noMatchF_fnil_holds (steps p : List Nat) (k : Nat) :
    noMatchF steps p k .fnil := by
  simp only [noMatchF]

mutual
theorem noMatchT_of (steps : List Nat) (t : XTree) (q : List Nat)
    (h1 : q ≠ steps)
    (h2 : ∀ r, r ≠ [] → q ++ r = steps → elemAtPath t.kids r = none) :
    noMatchT steps q t := by
  match t with
  | .node xn op ol oc cp ch =>
    rw [noMatchT_node]
    refine ⟨h1, fun hsc => ?_⟩
    have hkids : XTree.kids (.node xn op ol oc cp ch) = ch := by
      simp [XTree.kids, hsc]
    refine noMatchF_of steps ch q 0 (fun s rest heq hks => ?_)
    have := h2 (s :: rest) (List.cons_ne_nil s rest) heq
    rw [hkids] at this
    rw [show s - 0 = s from rfl]
    exact this

theorem noMatchF_of (steps : List Nat) (ts : XForest) (p : List Nat) (k : Nat)
    (h : ∀ s rest, p ++ s :: rest = steps → k < s →
      elemAtPath ts ((s - k) :: rest) = none) :
    noMatchF steps p k ts := by
  match ts with
  | .fnil => exact noMatchF_fnil_holds steps p k
  | .fcons t ts' =>
    rw [noMatchF_fcons]
    constructor
    · refine noMatchT_of steps t (p ++ [k + 1]) (fun heq => ?_)
        (fun r hr heq => ?_)
      · have h3 := h (k + 1) [] (by rw [← heq]) (Nat.lt_succ_self k)
        rw [show k + 1 - k = 1 from by omega] at h3
        rw [show elemAtPath (XForest.fcons t ts') [1] = some t from by
          rw [elemAtPath_singleton]; rfl] at h3
        cases h3
      · match r, hr with
        | s :: rest, _ =>
          have h3 := h (k + 1) (s :: rest)
            (by rw [← heq]; simp) (Nat.lt_succ_self k)
          rw [show k + 1 - k = 1 from by omega] at h3
          exact h3
    · refine noMatchF_of steps ts' p (k + 1) (fun s rest heq hks => ?_)
      have h3 := h s rest heq (by omega)
      rw [show s - k = (s - (k + 1)) + 1 from by omega] at h3
      cases hsk : s - (k + 1) with
      | zero => omega
      | succ n =>
        rw [hsk] at h3
        exact h3
end

theorem noMatchF_root (steps : List Nat) (F : XForest)
    (hnone : elemAtPath F steps = none) : noMatchF steps [] 0 F := by
  refine noMatchF_of steps F [] 0 (fun s rest heq hks => ?_)
  rw [show s - 0 = s from rfl]
  rw [show (s : Nat) :: rest = steps from by rw [← heq]; rfl]
  exact hnone

theorem firstBadStep_finds (steps : List Nat) (counts : List (Option Nat)) :
    ∀ (d i m avail : Nat), m - i = d → 1 ≤ i → i ≤ m → m < steps.length →
    getSparse counts m = some avail → avail < steps.getD m 0 →
    (∀ l, i ≤ l → l < m → ∀ a, getSparse counts l = some a →
      steps.getD l 0 ≤ a) →
    firstBadStep steps counts i = some (m, steps.getD m 0, avail) := by
  intro d
  induction d with
  | zero =>
    intro i m avail hd h1 him hm hc hbad _hmin
    have hieq : i = m := by omega
    subst hieq
    rw [firstBadStep]
    rw [dif_pos hm]
    rw [hc]
    show (if avail < steps.getD i 0 then some (i, steps.getD i 0, avail)
          else firstBadStep steps counts (i + 1)) = _
    rw [if_pos hbad]
  | succ d ih =>
    intro i m avail hd h1 him hm hc hbad hmin
    have hilt : i < m := by omega
    rw [firstBadStep]
    rw [dif_pos (by omega)]
    cases hci : getSparse counts i with
    | none =>
      show firstBadStep steps counts (i + 1) = _
      exact ih (i + 1) m avail (by omega) (by omega) (by omega) hm hc hbad
        (fun l hl1 hl2 a ha => hmin l (by omega) hl2 a ha)
    | some a =>
      have hle := hmin i (Nat.le_refl i) hilt a hci
      show (if a < steps.getD i 0 then some (i, steps.getD i 0, a)
            else firstBadStep steps counts (i + 1)) = _
      rw [if_neg (by omega)]
      exact ih (i + 1) m avail (by omega) (by omega) (by omega) hm hc hbad
        (fun l hl1 hl2 a' ha' => hmin l (by omega) hl2 a' ha')

theorem firstBadStep_none (steps : List Nat) (counts : List (Option Nat)) :
    ∀ (d i : Nat), steps.length - i = d →
    (∀ l, i ≤ l → l < steps.length → ∀ a, getSparse counts l = some a →
      steps.getD l 0 ≤ a) →
    firstBadStep steps counts i = none := by
  intro d
  induction d with
  | zero =>
    intro i hd _hmin
    rw [firstBadStep]
    rw [dif_neg (by omega)]
  | succ d ih =>
    intro i hd hmin
    have hilt : i < steps.length := by omega
    rw [firstBadStep]
    rw [dif_pos hilt]
    cases hci : getSparse counts i with
    | none =>
      show firstBadStep steps counts (i + 1) = _
      exact ih (i + 1) (by omega) (fun l hl1 hl2 a ha => hmin l (by omega) hl2 a ha)
    | some a =>
      have hle := hmin i (Nat.le_refl i) hilt a hci
      show (if a < steps.getD i 0 then some (i, steps.getD i 0, a)
            else firstBadStep steps counts (i + 1)) = _
      rw [if_neg (by omega)]
      exact ih (i + 1) (by omega) (fun l hl1 hl2 a' ha' => hmin l (by omega) hl2 a' ha')

theorem selectXPointerFragment_pos_diag (doc xp : String) (steps : List Nat)
    (st : SelSt)
    (hparse : parseElementScheme xp = .ok (some (.positional steps)))
    (hfold : foldSel doc (some (.positional steps)) none initSel
      (scanEvents doc).events = .ok st)
    (hfail : (scanEvents doc).failed = false)
    (hsp : st.startPos = none) (hep : st.endPos = none) :
    selectXPointerFragment doc xp =
      (if (match st.childCounts.get? 0, steps.get? 0 with
           | some c, some s0 => decide (s0 > c)
           | _, _ => false) = true then
        Except.error (formatStepError 1 (steps.getD 0 0)
          (st.childCounts.getD 0 0) none)
      else
        match firstBadStep steps st.positionalCounts 1 with
        | some (i, req, avail) =>
          Except.error (formatStepError (i + 1) req avail none)
        | none =>
          Except.error ("XInclude xpointer target not found: " ++
            stepsJoin steps)) := by
  unfold selectXPointerFragment
  rw [hparse]
  show (match foldSel doc (some (.positional steps)) none initSel
          (scanEvents doc).events with
        | .error e => Except.error e
        | .ok st' =>
          if (scanEvents doc).failed then Except.error "XML parse error"
          else
            match st'.startPos, st'.endPos with
            | some sp, some ep => Except.ok (jsSubstring doc sp ep)
            | _, _ =>
              (if (match st'.childCounts.get? 0, steps.get? 0 with
                   | some c, some s0 => decide (s0 > c)
                   | _, _ => false) = true then
                Except.error (formatStepError 1 (steps.getD 0 0)
                  (st'.childCounts.getD 0 0) none)
              else
                match firstBadStep steps st'.positionalCounts 1 with
                | some (i, req, avail) =>
                  Except.error (formatStepError (i + 1) req avail none)
                | none =>
                  Except.error ("XInclude xpointer target not found: " ++
                    stepsJoin steps))) = _
  rw [hfold]
  show (if (scanEvents doc).failed then Except.error "XML parse error"
        else
          match st.startPos, st.endPos with
          | some sp, some ep => Except.ok (jsSubstring doc sp ep)
          | _, _ =>
            (if (match st.childCounts.get? 0, steps.get? 0 with
                 | some c, some s0 => decide (s0 > c)
                 | _, _ => false) = true then
              Except.error (formatStepError 1 (steps.getD 0 0)
                (st.childCounts.getD 0 0) none)
            else
              match firstBadStep steps st.positionalCounts 1 with
              | some (i, req, avail) =>
                Except.error (formatStepError (i + 1) req avail none)
              | none =>
                Except.error ("XInclude xpointer target not found: " ++
                  stepsJoin steps))) = _
  rw [hfail]
  rw [hsp, hep]
  rfl

theorem getD_from_get? (l : List Nat) (n d a : Nat) (h : l.get? n = some a) :
    l.getD n d = a := by
  rw [List.getD_eq_getElem?_getD, ← List.get?_eq_getElem?, h]
  rfl

/-- C5: for a `PositionalElement` xpointer `element(N1/N2/...)` that
produces no span on a well-formed document (the scan is the flattening of
a forest `F` and no element sits at path `steps`), the selector fails
with: step 1 out of range (citing the requested index and the root
level's true child count) if the first step exceeds it; otherwise the
first later step whose requested index exceeds the recorded available
child count at that step, citing both counts; otherwise target not found
with the full step path. -/
theorem C5_positional_diagnostics (doc xp : String) (steps : List Nat)
    (F : XForest) (fp fl fc : Nat)
    (hparse : parseElementScheme xp = .ok (some (.positional steps)))
    (hscan : scanEvents doc = ⟨flattenF F, false, fp, fl, fc⟩)
    (hroot : elemAtPath F steps = none) :
    (∀ s0, steps.get? 0 = some s0 → lengthF F < s0 →
      selectXPointerFragment doc xp =
        .error (formatStepError 1 s0 (lengthF F) none)) ∧
    (∀ m sm e, 1 ≤ m → m < steps.length → steps.get? m = some sm →
      (∀ s0, steps.get? 0 = some s0 → s0 ≤ lengthF F) →
      elemAtPath F (steps.take m) = some e → countKids e < sm →
      (∀ l el, 1 ≤ l → l < m → elemAtPath F (steps.take l) = some el →
        steps.getD l 0 ≤ countKids el) →
      selectXPointerFragment doc xp =
        .error (formatStepError (m + 1) sm (countKids e) none)) ∧
    ((∀ s0, steps.get? 0 = some s0 → s0 ≤ lengthF F) →
      (∀ l el, 1 ≤ l → l < steps.length →
        elemAtPath F (steps.take l) = some el →
        steps.getD l 0 ≤ countKids el) →
      selectXPointerFragment doc xp =
        .error ("XInclude xpointer target not found: " ++ stepsJoin steps)) := by
  have hfold0 := foldSel_pos_forest doc steps F [] [] 0 none none [] []
    none false (noMatchF_root steps F hroot)
  simp only [List.length_nil, List.nil_append, Nat.zero_add] at hfold0
  have hini : initSel = (⟨0, false, none, none, none, [0], [], [], [], none,
    false⟩ : SelSt) := rfl
  rw [← hini] at hfold0
  have hev : (scanEvents doc).events = flattenF F := by rw [hscan]
  rw [← hev] at hfold0
  have hfail : (scanEvents doc).failed = false := by rw [hscan]
  have hdiag := selectXPointerFragment_pos_diag doc xp steps
    ⟨0, false, none, none, none, [lengthF F], [],
      applyWrites [] (posWF steps [] 0 F), [], none, false⟩
    hparse hfold0 hfail rfl rfl
  refine ⟨?_, ?_, ?_⟩
  · intro s0 hs0 hgt
    rw [hdiag]
    rw [if_pos (show _ = true from by
      show (match ([lengthF F] : List Nat).get? 0, steps.get? 0 with
            | some c, some s0 => decide (s0 > c)
            | _, _ => false) = true
      rw [hs0]
      show decide (s0 > lengthF F) = true
      exact decide_eq_true hgt)]
    rw [getD_from_get? steps 0 0 s0 hs0]
    rfl
  · intro m sm e hm1 hmlt hsm hs0le he hbad hmin
    rw [hdiag]
    rw [if_neg (show ¬ _ = true from by
      cases hq0 : steps.get? 0 with
      | none =>
        show ¬ (match ([lengthF F] : List Nat).get? 0, (none : Option Nat) with
              | some c, some s0 => decide (s0 > c)
              | _, _ => false) = true
        simp
      | some s0 =>
        show ¬ (match ([lengthF F] : List Nat).get? 0, some s0 with
              | some c, some s0 => decide (s0 > c)
              | _, _ => false) = true
        show ¬ (decide (s0 > lengthF F)) = true
        simp only [decide_eq_true_eq]
        have := hs0le s0 hq0
        omega)]
    have hcm : getSparse (applyWrites [] (posWF steps [] 0 F)) m =
        some (countKids e) := by
      rw [posWF_root_reads steps F m (by omega) (by omega), he]
      rfl
    have hfbs := firstBadStep_finds steps
      (applyWrites [] (posWF steps [] 0 F)) (m - 1) 1 m (countKids e)
      (by omega) (Nat.le_refl 1) (by omega) hmlt hcm
      (by rw [getD_from_get? steps m 0 sm hsm]; exact hbad)
      (fun l hl1 hl2 a ha => by
        rw [posWF_root_reads steps F l (by omega) (by omega)] at ha
        cases helem : elemAtPath F (steps.take l) with
        | none => rw [helem] at ha; cases ha
        | some el =>
          rw [helem] at ha
          injection ha with ha'
          rw [← ha']
          exact hmin l el hl1 hl2 helem)
    rw [hfbs]
    rw [getD_from_get? steps m 0 sm hsm]
  · intro hs0le hmin
    rw [hdiag]
    rw [if_neg (show ¬ _ = true from by
      cases hq0 : steps.get? 0 with
      | none =>
        show ¬ (match ([lengthF F] : List Nat).get? 0, (none : Option Nat) with
              | some c, some s0 => decide (s0 > c)
              | _, _ => false) = true
        simp
      | some s0 =>
        show ¬ (match ([lengthF F] : List Nat).get? 0, some s0 with
              | some c, some s0 => decide (s0 > c)
              | _, _ => false) = true
        show ¬ (decide (s0 > lengthF F)) = true
        simp only [decide_eq_true_eq]
        have := hs0le s0 hq0
        omega)]
    have hfbs := firstBadStep_none steps
      (applyWrites [] (posWF steps [] 0 F)) (steps.length - 1) 1 (by omega)
      (fun l hl1 hl2 a ha => by
        rw [posWF_root_reads steps F l (by omega) (by omega)] at ha
        cases helem : elemAtPath F (steps.take l) with
        | none => rw [helem] at ha; cases ha
        | some el =>
          rw [helem] at ha
          injection ha with ha'
          rw [← ha']
          exact hmin l el hl1 hl2 helem)
    rw [hfbs]

def c5doc : String := "<r><a><b/></a></r>"
def c5nR : XNode := ⟨"r", "", "r", "", [], false⟩
def c5nA : XNode := ⟨"a", "", "a", "", [], false⟩
def c5nB : XNode := ⟨"b", "", "b", "", [], true⟩
def c5treeB : XTree := .node c5nB 10 1 10 10 .fnil
def c5treeA : XTree := .node c5nA 6 1 6 14 (.fcons c5treeB .fnil)
def c5treeR : XTree := .node c5nR 3 1 3 18 (.fcons c5treeA .fnil)
def c5F : XForest := .fcons c5treeR .fnil

theorem c5F_flat : flattenF c5F =
    [XEvent.openTag c5nR 3 1 3,
     XEvent.openTag c5nA 6 1 6,
     XEvent.openTag c5nB 10 1 10,
     XEvent.closeTag c5nB 10,
     XEvent.closeTag c5nA 14,
     XEvent.closeTag c5nR 18] := by
  simp [flattenF, flattenT, c5F, c5treeR, c5treeA, c5treeB, c5nR, c5nA, c5nB]

theorem C5_witness :
    selectXPointerFragment c5doc "element(1/99)" =
      .error ("XInclude xpointer element() step 2 out of range: " ++
        "requested 99, found 1 child elements.") := by
  have h := (C5_positional_diagnostics c5doc "element(1/99)" [1, 99] c5F
      18 1 18
      (by rfl)
      (by rw [c5F_flat]; decide)
      (by decide)).2.1
    1 99 c5treeR (by decide) (by decide) (by decide)
    (fun s0 hs0 => by injection hs0 with h'; rw [← h']; decide)
    (by decide) (by decide)
    (fun l el hl1 hl2 _ => absurd hl2 (by omega))
  rw [h]
  rfl

/-! No element scanned in the tree / forest carries an id attribute
matching `tid` (the anchor-miss condition of the id scheme). -/
mutual
def noIdMatchT (tid : String) : XTree → Prop
  | .node xn _ _ _ _ ch =>
    matchesId xn.attrs tid = false ∧
      (xn.isSelfClosing = false → noIdMatchF tid ch)
def noIdMatchF (tid : String) : XForest → Prop
  | .fnil => True
  | .fcons t ts => noIdMatchT tid t ∧ noIdMatchF tid ts
end

theorem noIdMatchT_node (tid : String) (xn : XNode) (op ol oc cp : Nat)
    (ch : XForest) :
    noIdMatchT tid (.node xn op ol oc cp ch) ↔
      matchesId xn.attrs tid = false ∧
        (xn.isSelfClosing = false → noIdMatchF tid ch) := by
  simp only [noIdMatchT]

theorem noIdMatchF_fcons (tid : String) (t : XTree) (ts : XForest) :
    noIdMatchF tid (.fcons t ts) ↔
      noIdMatchT tid t ∧ noIdMatchF tid ts := by
  simp only [noIdMatchF]

theorem noIdMatchF_fnil_holds (tid : String) : noIdMatchF tid .fnil := by
  simp only [noIdMatchF]

/-- The sparse `idCounts` write performed by the close handler once the
anchor (at absolute path `ap`) has been found, for an element at absolute
path `r` with `cnt` children. -/
def idWrite (steps ap r : List Nat) (cnt : Nat) : List (Nat × Nat) :=
  if matchesPath r ap then [(0, cnt)]
  else if decide (r.length > ap.length) &&
       (decide ((r.drop ap.length).length ≤ steps.length) &&
        matchesPath (r.drop ap.length)
          (steps.take (r.drop ap.length).length)) then
    [((r.drop ap.length).length, cnt)]
  else []

/-! Ordered `idCounts` writes contributed by a tree at absolute path `q`
(respectively a forest below `p` with `k` older siblings scanned), in the
phase where the anchor has already been found. -/
mutual
def idWT (steps ap q : List Nat) : XTree → List (Nat × Nat)
  | .node xn _ _ _ _ ch =>
    if xn.isSelfClosing then idWrite steps ap q 0
    else idWF steps ap q 0 ch ++ idWrite steps ap q (lengthF ch)
def idWF (steps ap p : List Nat) (k : Nat) : XForest → List (Nat × Nat)
  | .fnil => []
  | .fcons t ts => idWT steps ap (p ++ [k + 1]) t ++ idWF steps ap p (k + 1) ts
end

theorem idWF_fnil (steps ap p : List Nat) (k : Nat) :
    idWF steps ap p k .fnil = [] := by
  simp only [idWF]

theorem idWF_fcons (steps ap p : List Nat) (k : Nat) (t : XTree)
    (ts : XForest) :
    idWF steps ap p k (.fcons t ts) =
      idWT steps ap (p ++ [k + 1]) t ++ idWF steps ap p (k + 1) ts := by
  simp only [idWF]

theorem idWT_kids (steps ap q : List Nat) (t : XTree) :
    idWT steps ap q t =
      idWF steps ap q 0 t.kids ++ idWrite steps ap q (countKids t) := by
  match t with
  | .node xn op ol oc cp ch =>
    by_cases hsc : xn.isSelfClosing = true
    · simp only [idWT, XTree.kids, countKids, hsc, if_true, lengthF]
      rw [idWF_fnil]
      simp [lengthF]
    · have hsc' : xn.isSelfClosing = false := Bool.eq_false_iff.mpr hsc
      simp [idWT, XTree.kids, countKids, hsc', lengthF]

/-- The first id match in document order sits at relative path `apath`
(1-based sibling indices) within the forest, `k` siblings already
scanned below `p`; `anc` is the matching element. -/
def anchorAtF (tid : String) : XForest → Nat → List Nat → XTree → Prop
  | _, _, [], _ => False
  | ts, k, j :: rest, anc =>
    k < j ∧
    (∀ i t0, k < i → i < j → getF ts (i - k) = some t0 →
      noIdMatchT tid t0) ∧
    (∃ t, getF ts (j - k) = some t ∧
      (if rest = [] then
        t = anc ∧ matchesId t.xnode.attrs tid = true
       else
        matchesId t.xnode.attrs tid = false ∧
        t.xnode.isSelfClosing = false ∧
        anchorAtF tid t.kids 0 rest anc))

theorem selOpen_found (xs : String) (sc : Option ElementScheme)
    (tid : Option String) (node : XNode) (pos : Nat)
    (d : Nat) (td : Option Nat) (sp ep : Option Nat) (cc path : List Nat)
    (A I : List (Option Nat)) (ap : Option (List Nat)) (af : Bool) :
    selOpen xs sc tid ⟨d, true, td, sp, ep, cc, path, A, I, ap, af⟩ node pos =
    .ok ⟨d + 1, true, td, sp, ep, incLast cc ++ [0],
      path ++ [lastD (incLast cc) 0], A, I, ap, af⟩ := by
  unfold selOpen
  simp

theorem selClose_id_false (tid : String) (steps : List Nat) (pos : Nat)
    (d : Nat) (f : Bool) (td : Option Nat) (sp ep : Option Nat)
    (cc path : List Nat) (A I : List (Option Nat))
    (ap : Option (List Nat)) :
    selClose (some (.idScheme tid steps))
      ⟨d, f, td, sp, ep, cc, path, A, I, ap, false⟩ pos =
    ⟨d - 1, f, (if td = some d then none else td), sp,
      (if td = some d then some pos else ep), cc.dropLast, path.dropLast,
      A, I, ap, false⟩ := by
  unfold selClose
  by_cases htd : td = some d <;> simp [htd]

theorem selClose_id_true (tid : String) (steps : List Nat) (pos : Nat)
    (d : Nat) (f : Bool) (td : Option Nat) (sp ep : Option Nat)
    (cc path : List Nat) (A I : List (Option Nat)) (a : List Nat) :
    selClose (some (.idScheme tid steps))
      ⟨d, f, td, sp, ep, cc, path, A, I, some a, true⟩ pos =
    ⟨d - 1, f, (if td = some d then none else td), sp,
      (if td = some d then some pos else ep), cc.dropLast, path.dropLast,
      A, applyWrites I (idWrite steps a path (lastD cc 0)), some a,
      true⟩ := by
  unfold selClose
  unfold idWrite
  by_cases h1 : matchesPath path a = true
  · by_cases htd : td = some d <;>
      simp [h1, htd, applyWrites]
  · by_cases h2 : a.length < path.length
    · by_cases h3 : path.length ≤ steps.length + a.length ∧
        matchesPath (List.drop a.length path)
          (List.take (path.length - a.length) steps) = true
      · by_cases htd : td = some d <;>
          simp [h1, h2, h3, htd, applyWrites, List.length_drop]
      · by_cases htd : td = some d <;>
          simp [h1, h2, h3, htd, applyWrites, List.length_drop]
    · by_cases htd : td = some d <;>
        simp [h1, h2, htd, applyWrites, List.length_drop]

theorem selOpen_id_nomatch (xs tid : String) (steps : List Nat)
    (node : XNode) (pos : Nat) (p cs : List Nat) (k : Nat)
    (sp ep : Option Nat) (A I : List (Option Nat))
    (hm : matchesId node.attrs tid = false) :
    selOpen xs (some (.idScheme tid steps)) none
      ⟨p.length, false, none, sp, ep, cs ++ [k], p, A, I, none, false⟩
      node pos =
    .ok ⟨p.length + 1, false, none, sp, ep, (cs ++ [k + 1]) ++ [0],
      p ++ [k + 1], A, I, none, false⟩ := by
  unfold selOpen
  simp only [incLast_concat, lastD_concat]
  simp [hm]

theorem selOpen_id_anchor_nomark (xs tid : String) (steps : List Nat)
    (node : XNode) (pos : Nat) (p cs : List Nat) (k : Nat)
    (sp ep : Option Nat) (A I : List (Option Nat))
    (hm : matchesId node.attrs tid = true) (hst : steps ≠ []) :
    selOpen xs (some (.idScheme tid steps)) none
      ⟨p.length, false, none, sp, ep, cs ++ [k], p, A, I, none, false⟩
      node pos =
    .ok ⟨p.length + 1, false, none, sp, ep, (cs ++ [k + 1]) ++ [0],
      p ++ [k + 1], A, I, some (p ++ [k + 1]), true⟩ := by
  unfold selOpen
  simp only [incLast_concat, lastD_concat]
  have hie : steps.isEmpty = false := by
    cases steps with
    | nil => exact absurd rfl hst
    | cons s ss => rfl
  simp [hm, hie]

theorem selOpen_id_anchor_mark (xs tid : String) (steps : List Nat)
    (node : XNode) (pos : Nat) (p cs : List Nat) (k : Nat)
    (sp ep : Option Nat) (A I : List (Option Nat)) (ts0 : Nat)
    (hm : matchesId node.attrs tid = true) (hst : steps = [])
    (hlast : lastIndexOfWithin xs '<' (pos - 1) = some ts0) :
    selOpen xs (some (.idScheme tid steps)) none
      ⟨p.length, false, none, sp, ep, cs ++ [k], p, A, I, none, false⟩
      node pos =
    .ok ⟨p.length + 1, true,
      (if node.isSelfClosing then none else some (p.length + 1)),
      some ts0, (if node.isSelfClosing then some pos else ep),
      (cs ++ [k + 1]) ++ [0], p ++ [k + 1], A, I,
      some (p ++ [k + 1]), true⟩ := by
  subst hst
  unfold selOpen
  unfold markTarget
  simp only [incLast_concat, lastD_concat]
  simp [hm, hlast]

theorem selOpen_id_after_nomark (xs tid : String) (steps : List Nat)
    (node : XNode) (pos : Nat) (p cs : List Nat) (k : Nat)
    (sp ep : Option Nat) (A I : List (Option Nat)) (a : List Nat)
    (hno : ¬ (a.length < (p ++ [k + 1]).length ∧
      (p ++ [k + 1]).take a.length = a ∧
      (p ++ [k + 1]).drop a.length = steps)) :
    selOpen xs (some (.idScheme tid steps)) none
      ⟨p.length, false, none, sp, ep, cs ++ [k], p, A, I, some a, true⟩
      node pos =
    .ok ⟨p.length + 1, false, none, sp, ep, (cs ++ [k + 1]) ++ [0],
      p ++ [k + 1], A, I, some a, true⟩ := by
  unfold selOpen
  simp only [incLast_concat, lastD_concat]
  by_cases hlen : a.length < (p ++ [k + 1]).length
  · by_cases htake : (p ++ [k + 1]).take a.length = a
    · have hdrop : (p ++ [k + 1]).drop a.length ≠ steps := by
        intro hc
        exact hno ⟨hlen, htake, hc⟩
      have hmp : matchesPath ((p ++ [k + 1]).drop a.length) steps = false :=
        Bool.eq_false_iff.mpr fun hc =>
          hdrop ((matchesPath_eq_true_iff _ _).1 hc)
      have hmt : matchesPath ((p ++ [k + 1]).take a.length) a = true :=
        (matchesPath_eq_true_iff _ _).2 htake
      simp [hlen, hmt, hmp]
  
    · have hmt : matchesPath ((p ++ [k + 1]).take a.length) a = false :=
        Bool.eq_false_iff.mpr fun hc =>
          htake ((matchesPath_eq_true_iff _ _).1 hc)
      simp [hlen, hmt]
  · have hlen' : ¬ a.length < p.length + 1 := by
      simpa using hlen
    simp [hlen']

theorem selOpen_id_after_mark (xs tid : String) (steps : List Nat)
    (node : XNode) (pos : Nat) (p cs : List Nat) (k : Nat)
    (sp ep : Option Nat) (A I : List (Option Nat)) (a : List Nat)
    (ts0 : Nat)
    (heq : p ++ [k + 1] = a ++ steps) (hst : steps ≠ [])
    (hlast : lastIndexOfWithin xs '<' (pos - 1) = some ts0) :
    selOpen xs (some (.idScheme tid steps)) none
      ⟨p.length, false, none, sp, ep, cs ++ [k], p, A, I, some a, true⟩
      node pos =
    .ok ⟨p.length + 1, true,
      (if node.isSelfClosing then none else some (p.length + 1)),
      some ts0, (if node.isSelfClosing then some pos else ep),
      (cs ++ [k + 1]) ++ [0], p ++ [k + 1], A, I, some a, true⟩ := by
  unfold selOpen
  unfold markTarget
  simp only [incLast_concat, lastD_concat]
  have hlen : a.length < (p ++ [k + 1]).length := by
    rw [heq, List.length_append]
    have : steps.length ≠ 0 := by
      intro hc
      exact hst (List.eq_nil_of_length_eq_zero hc)
    omega
  have htake : (p ++ [k + 1]).take a.length = a := by
    rw [heq]
    exact List.take_left a steps
  have hdrop : (p ++ [k + 1]).drop a.length = steps := by
    rw [heq]
    exact List.drop_left a steps
  have hmt : matchesPath ((p ++ [k + 1]).take a.length) a = true := by
    rw [htake]
    exact matchesPath_self a
  have hmp : matchesPath ((p ++ [k + 1]).drop a.length) steps = true := by
    rw [hdrop]
    exact matchesPath_self steps
  have hlen' : a.length < p.length + 1 := by
    simpa using hlen
  simp [hlen', hmt, hmp, hlast]

theorem selClose_id_fields (tid : String) (steps : List Nat) (pos : Nat)
    (st : SelSt) :
    ∃ I', selClose (some (.idScheme tid steps)) st pos =
      ⟨st.depth - 1, st.found,
        (if st.targetDepth = some st.depth then none else st.targetDepth),
        st.startPos,
        (if st.targetDepth = some st.depth then some pos else st.endPos),
        st.childCounts.dropLast, st.elementPath.dropLast,
        st.positionalCounts, I', st.idAnchorPath, st.idAnchorFound⟩ := by
  obtain ⟨d, f, td, sp, ep, cc, path, A, I, ap, af⟩ := st
  cases af with
  | false =>
    exact ⟨I, selClose_id_false tid steps pos d f td sp ep cc path A I ap⟩
  | true =>
    cases ap with
    | some a =>
      exact ⟨applyWrites I (idWrite steps a path (lastD cc 0)),
        selClose_id_true tid steps pos d f td sp ep cc path A I a⟩
    | none =>
      refine ⟨I, ?_⟩
      unfold selClose
      by_cases htd : td = some d <;> simp [htd]

theorem foldSel_frozen (xs tid0 : String) (steps : List Nat) :
    ∀ (evs : List XEvent) (st : SelSt), st.found = true →
    st.targetDepth = none →
    ∃ st', foldSel xs (some (.idScheme tid0 steps)) none st evs = .ok st' ∧
      st'.found = true ∧ st'.targetDepth = none ∧
      st'.startPos = st.startPos ∧ st'.endPos = st.endPos := by
  intro evs
  induction evs with
  | nil =>
    intro st hf htd
    exact ⟨st, rfl, hf, htd, rfl, rfl⟩
  | cons e es ih =>
    intro st hf htd
    obtain ⟨d, f, td, sp, ep, cc, path, A, I, ap, af⟩ := st
    simp only at hf htd
    subst hf
    subst htd
    cases e with
    | openTag node pos line col =>
      have hstep : selStep xs (some (.idScheme tid0 steps)) none
          ⟨d, true, none, sp, ep, cc, path, A, I, ap, af⟩
          (XEvent.openTag node pos line col) =
        .ok ⟨d + 1, true, none, sp, ep, incLast cc ++ [0],
          path ++ [lastD (incLast cc) 0], A, I, ap, af⟩ :=
        selOpen_found xs (some (.idScheme tid0 steps)) none node pos d none
          sp ep cc path A I ap af
      rw [foldSel_cons_ok xs _ none _ _ _ _ hstep]
      obtain ⟨st', h1, h2, h3, h4, h5⟩ := ih
        ⟨d + 1, true, none, sp, ep, incLast cc ++ [0],
          path ++ [lastD (incLast cc) 0], A, I, ap, af⟩ rfl rfl
      exact ⟨st', h1, h2, h3, h4, h5⟩
    | closeTag node pos =>
      obtain ⟨I', hcl⟩ := selClose_id_fields tid0 steps pos
        ⟨d, true, none, sp, ep, cc, path, A, I, ap, af⟩
      simp at hcl
      rw [foldSel_cons_ok xs _ none _ _ _ _
        (show selStep xs (some (.idScheme tid0 steps)) none
          ⟨d, true, none, sp, ep, cc, path, A, I, ap, af⟩
          (XEvent.closeTag node pos) =
          .ok (selClose (some (.idScheme tid0 steps))
            ⟨d, true, none, sp, ep, cc, path, A, I, ap, af⟩ pos) from rfl)]
      rw [hcl]
      obtain ⟨st', h1, h2, h3, h4, h5⟩ := ih
        ⟨d - 1, true, none, sp, ep, cc.dropLast, path.dropLast, A, I', ap,
          af⟩ rfl rfl
      exact ⟨st', h1, h2, h3, h4, h5⟩


mutual
theorem foldSel_fr_tree (xs tid0 : String) (steps : List Nat) (t : XTree)
    (dd : Nat) (st : SelSt) (hf : st.found = true)
    (htd : st.targetDepth = some dd) (hdd : dd ≤ st.depth) :
    ∃ st', foldSel xs (some (.idScheme tid0 steps)) none st
      (flattenT t) = .ok st' ∧ st'.found = true ∧
      st'.targetDepth = some dd ∧ st'.startPos = st.startPos ∧
      st'.endPos = st.endPos ∧ st'.depth = st.depth := by
  match t with
  | .node xn op ol oc cp ch =>
    obtain ⟨d, f, td, sp, ep, cc, path, A, I, ap, af⟩ := st
    simp only at hf htd hdd
    subst hf
    subst htd
    have hstep : selStep xs (some (.idScheme tid0 steps)) none
        ⟨d, true, some dd, sp, ep, cc, path, A, I, ap, af⟩
        (XEvent.openTag xn op ol oc) =
      .ok ⟨d + 1, true, some dd, sp, ep, incLast cc ++ [0],
        path ++ [lastD (incLast cc) 0], A, I, ap, af⟩ :=
      selOpen_found xs (some (.idScheme tid0 steps)) none xn op d (some dd)
        sp ep cc path A I ap af
    have hmid : ∀ (cc2 path2 : List Nat) (A2 I2 : List (Option Nat))
        (ap2 : Option (List Nat)) (af2 : Bool) (pos2 : Nat),
        ∃ st', foldSel xs (some (.idScheme tid0 steps)) none
          ⟨d + 1, true, some dd, sp, ep, cc2, path2, A2, I2, ap2, af2⟩
          [XEvent.closeTag xn pos2] = .ok st' ∧ st'.found = true ∧
          st'.targetDepth = some dd ∧ st'.startPos = sp ∧
          st'.endPos = ep ∧ st'.depth = d := by
      intro cc2 path2 A2 I2 ap2 af2 pos2
      obtain ⟨I', hcl⟩ := selClose_id_fields tid0 steps pos2
        ⟨d + 1, true, some dd, sp, ep, cc2, path2, A2, I2, ap2, af2⟩
      simp only at hcl
      rw [show (if (some dd : Option Nat) = some (d + 1) then (none : Option Nat)
            else some dd) = some dd from
        if_neg (by intro hc; injection hc with hc'; omega)] at hcl
      rw [show (if (some dd : Option Nat) = some (d + 1) then (some pos2 : Option Nat)
            else ep) = ep from
        if_neg (by intro hc; injection hc with hc'; omega)] at hcl
      refine ⟨⟨d + 1 - 1, true, some dd, sp, ep, cc2.dropLast,
        path2.dropLast, A2, I', ap2, af2⟩, ?_, rfl, rfl, rfl, rfl,
        by simp only; omega⟩
      rw [foldSel_cons_ok xs _ none _ _ _ _
        (show selStep xs (some (.idScheme tid0 steps)) none
          ⟨d + 1, true, some dd, sp, ep, cc2, path2, A2, I2, ap2, af2⟩
          (XEvent.closeTag xn pos2) =
          .ok (selClose (some (.idScheme tid0 steps))
            ⟨d + 1, true, some dd, sp, ep, cc2, path2, A2, I2, ap2, af2⟩
            pos2) from rfl)]
      rw [hcl]
      rfl
    by_cases hsc : xn.isSelfClosing = true
    · simp only [flattenT]
      rw [if_pos hsc]
      rw [foldSel_cons_ok xs _ none _ _ _ _ hstep]
      obtain ⟨st', h1, h2, h3, h4, h5, h6⟩ := hmid (incLast cc ++ [0])
        (path ++ [lastD (incLast cc) 0]) A I ap af op
      exact ⟨st', h1, h2, h3, h4, h5, h6⟩
    · simp only [flattenT]
      rw [if_neg hsc]
      rw [foldSel_cons_ok xs _ none _ _ _ _ hstep]
      obtain ⟨stm, hm1, hm2, hm3, hm4, hm5, hm6⟩ := foldSel_fr_forest xs
        tid0 steps ch dd
        ⟨d + 1, true, some dd, sp, ep, incLast cc ++ [0],
          path ++ [lastD (incLast cc) 0], A, I, ap, af⟩
        rfl rfl (by simp only; omega)
      rw [foldSel_append_ok xs _ none _ _ _ _ hm1]
      obtain ⟨dm, fm, tdm, spm, epm, ccm, pathm, Am, Im, apm, afm⟩ := stm
      simp only at hm2 hm3 hm4 hm5 hm6
      subst hm2
      subst hm3
      subst hm4
      subst hm5
      subst hm6
      obtain ⟨st', h1, h2, h3, h4, h5, h6⟩ := hmid ccm pathm Am Im apm
        afm cp
      exact ⟨st', h1, h2, h3, h4, h5, h6⟩

theorem foldSel_fr_forest (xs tid0 : String) (steps : List Nat)
    (ts : XForest) (dd : Nat) (st : SelSt) (hf : st.found = true)
    (htd : st.targetDepth = some dd) (hdd : dd ≤ st.depth) :
    ∃ st', foldSel xs (some (.idScheme tid0 steps)) none st
      (flattenF ts) = .ok st' ∧ st'.found = true ∧
      st'.targetDepth = some dd ∧ st'.startPos = st.startPos ∧
      st'.endPos = st.endPos ∧ st'.depth = st.depth := by
  match ts with
  | .fnil =>
    exact ⟨st, rfl, hf, htd, rfl, rfl, rfl⟩
  | .fcons t ts' =>
    rw [show flattenF (.fcons t ts') = flattenT t ++ flattenF ts' from by
      simp only [flattenF]]
    obtain ⟨st1, h1, h2, h3, h4, h5, h6⟩ := foldSel_fr_tree xs tid0 steps t
      dd st hf htd hdd
    rw [foldSel_append_ok xs _ none _ _ _ _ h1]
    obtain ⟨st2, g1, g2, g3, g4, g5, g6⟩ := foldSel_fr_forest xs tid0 steps
      ts' dd st1 h2 h3 (by omega)
    exact ⟨st2, g1, g2, g3, by rw [g4, h4], by rw [g5, h5], by rw [g6, h6]⟩
end

theorem selClose_id_false_state (tid : String) (steps : List Nat) (pos : Nat)
    (p cs : List Nat) (k cnt : Nat) (sp ep : Option Nat)
    (A I : List (Option Nat)) :
    selClose (some (.idScheme tid steps))
      ⟨p.length + 1, false, none, sp, ep, (cs ++ [k + 1]) ++ [cnt],
        p ++ [k + 1], A, I, none, false⟩ pos =
    ⟨p.length, false, none, sp, ep, cs ++ [k + 1], p, A, I, none,
      false⟩ := by
  rw [selClose_id_false]
  simp [List.dropLast_concat]

theorem selClose_id_true_state (tid : String) (steps : List Nat) (pos : Nat)
    (p cs : List Nat) (k cnt : Nat) (sp ep : Option Nat)
    (A I : List (Option Nat)) (a : List Nat) :
    selClose (some (.idScheme tid steps))
      ⟨p.length + 1, false, none, sp, ep, (cs ++ [k + 1]) ++ [cnt],
        p ++ [k + 1], A, I, some a, true⟩ pos =
    ⟨p.length, false, none, sp, ep, cs ++ [k + 1], p, A,
      applyWrites I (idWrite steps a (p ++ [k + 1]) cnt), some a,
      true⟩ := by
  rw [selClose_id_true]
  rw [lastD_concat]
  simp [List.dropLast_concat]

mutual
theorem foldSel_id_pre_tree (xs tid : String) (steps : List Nat) (t : XTree)
    (p cs : List Nat) (k : Nat) (sp ep : Option Nat)
    (A I : List (Option Nat)) (hnm : noIdMatchT tid t) :
    foldSel xs (some (.idScheme tid steps)) none
      ⟨p.length, false, none, sp, ep, cs ++ [k], p, A, I, none, false⟩
      (flattenT t) =
    .ok ⟨p.length, false, none, sp, ep, cs ++ [k + 1], p, A, I, none,
      false⟩ := by
  match t with
  | .node xn op ol oc cp ch =>
    rw [noIdMatchT_node] at hnm
    obtain ⟨hne, hch⟩ := hnm
    have hopen : selStep xs (some (.idScheme tid steps)) none
        ⟨p.length, false, none, sp, ep, cs ++ [k], p, A, I, none, false⟩
        (.openTag xn op ol oc) =
      .ok ⟨p.length + 1, false, none, sp, ep, (cs ++ [k + 1]) ++ [0],
        p ++ [k + 1], A, I, none, false⟩ :=
      selOpen_id_nomatch xs tid steps xn op p cs k sp ep A I
        (by
          show matchesId (XNode.attrs (XNode.mk xn.name xn.pfx xn.localName
            xn.uri xn.attrs xn.isSelfClosing)) tid = false
          simp only [XNode.attrs]
          exact hne)
    by_cases hsc : xn.isSelfClosing = true
    · simp only [flattenT]
      rw [if_pos hsc]
      rw [foldSel_cons_ok xs _ none _ _ _ _ hopen]
      rw [foldSel_cons_ok xs _ none _ _ _ _
        (show selStep xs (some (.idScheme tid steps)) none
          ⟨p.length + 1, false, none, sp, ep, (cs ++ [k + 1]) ++ [0],
            p ++ [k + 1], A, I, none, false⟩ (XEvent.closeTag xn op) =
          .ok (selClose (some (.idScheme tid steps))
            ⟨p.length + 1, false, none, sp, ep, (cs ++ [k + 1]) ++ [0],
              p ++ [k + 1], A, I, none, false⟩ op) from rfl)]
      rw [selClose_id_false_state tid steps op p cs k 0 sp ep A I]
      rfl
    · have hsc' : xn.isSelfClosing = false := Bool.eq_false_iff.mpr hsc
      simp only [flattenT]
      rw [if_neg hsc]
      rw [foldSel_cons_ok xs _ none _ _ _ _ hopen]
      have hF := foldSel_id_pre_forest xs tid steps ch (p ++ [k + 1])
        (cs ++ [k + 1]) 0 sp ep A I (hch hsc')
      simp only [List.length_append, List.length_singleton, Nat.zero_add]
        at hF
      rw [foldSel_append_ok xs _ none _ _ _ _ hF]
      rw [foldSel_cons_ok xs _ none _ _ _ _
        (show selStep xs (some (.idScheme tid steps)) none
          ⟨p.length + 1, false, none, sp, ep,
            (cs ++ [k + 1]) ++ [lengthF ch], p ++ [k + 1], A, I, none,
            false⟩ (XEvent.closeTag xn cp) =
          .ok (selClose (some (.idScheme tid steps))
            ⟨p.length + 1, false, none, sp, ep,
              (cs ++ [k + 1]) ++ [lengthF ch], p ++ [k + 1], A, I, none,
              false⟩ cp) from rfl)]
      rw [selClose_id_false_state tid steps cp p cs k (lengthF ch) sp ep A I]
      rfl

theorem foldSel_id_pre_forest (xs tid : String) (steps : List Nat)
    (ts : XForest) (p cs : List Nat) (k : Nat) (sp ep : Option Nat)
    (A I : List (Option Nat)) (hnm : noIdMatchF tid ts) :
    foldSel xs (some (.idScheme tid steps)) none
      ⟨p.length, false, none, sp, ep, cs ++ [k], p, A, I, none, false⟩
      (flattenF ts) =
    .ok ⟨p.length, false, none, sp, ep, cs ++ [k + lengthF ts], p, A, I,
      none, false⟩ := by
  match ts with
  | .fnil =>
    show Except.ok _ = _
    rfl
  | .fcons t ts' =>
    rw [noIdMatchF_fcons] at hnm
    obtain ⟨h1, h2⟩ := hnm
    rw [show flattenF (.fcons t ts') = flattenT t ++ flattenF ts' from by
      simp only [flattenF]]
    rw [foldSel_append_ok xs _ none _ _ _ _
      (foldSel_id_pre_tree xs tid steps t p cs k sp ep A I h1)]
    rw [foldSel_id_pre_forest xs tid steps ts' p cs (k + 1) sp ep A I h2]
    rw [show k + lengthF (XForest.fcons t ts') = k + 1 + lengthF ts' from by
      simp only [lengthF]; omega]
end

mutual
theorem foldSel_id_found_tree (xs tid : String) (steps a : List Nat)
    (t : XTree) (p cs : List Nat) (k : Nat) (sp ep : Option Nat)
    (A I : List (Option Nat)) (hnm : noMatchT (a ++ steps) (p ++ [k + 1]) t) :
    foldSel xs (some (.idScheme tid steps)) none
      ⟨p.length, false, none, sp, ep, cs ++ [k], p, A, I, some a, true⟩
      (flattenT t) =
    .ok ⟨p.length, false, none, sp, ep, cs ++ [k + 1], p, A,
      applyWrites I (idWT steps a (p ++ [k + 1]) t), some a, true⟩ := by
  match t with
  | .node xn op ol oc cp ch =>
    rw [noMatchT_node] at hnm
    obtain ⟨hne, hch⟩ := hnm
    have hopen : selStep xs (some (.idScheme tid steps)) none
        ⟨p.length, false, none, sp, ep, cs ++ [k], p, A, I, some a, true⟩
        (.openTag xn op ol oc) =
      .ok ⟨p.length + 1, false, none, sp, ep, (cs ++ [k + 1]) ++ [0],
        p ++ [k + 1], A, I, some a, true⟩ :=
      selOpen_id_after_nomark xs tid steps xn op p cs k sp ep A I a
        (by
          rintro ⟨hlen, htake, hdrop⟩
          apply hne
          rw [← List.take_append_drop a.length (p ++ [k + 1]), htake, hdrop])
    by_cases hsc : xn.isSelfClosing = true
    · simp only [flattenT]
      rw [if_pos hsc]
      rw [foldSel_cons_ok xs _ none _ _ _ _ hopen]
      rw [foldSel_cons_ok xs _ none _ _ _ _
        (show selStep xs (some (.idScheme tid steps)) none
          ⟨p.length + 1, false, none, sp, ep, (cs ++ [k + 1]) ++ [0],
            p ++ [k + 1], A, I, some a, true⟩ (XEvent.closeTag xn op) =
          .ok (selClose (some (.idScheme tid steps))
            ⟨p.length + 1, false, none, sp, ep, (cs ++ [k + 1]) ++ [0],
              p ++ [k + 1], A, I, some a, true⟩ op) from rfl)]
      rw [selClose_id_true_state tid steps op p cs k 0 sp ep A I a]
      show Except.ok _ = _
      rw [show idWT steps a (p ++ [k + 1]) (XTree.node xn op ol oc cp ch) =
        idWrite steps a (p ++ [k + 1]) 0 from by
        simp only [idWT, hsc, if_true]]
    · have hsc' : xn.isSelfClosing = false := Bool.eq_false_iff.mpr hsc
      simp only [flattenT]
      rw [if_neg hsc]
      rw [foldSel_cons_ok xs _ none _ _ _ _ hopen]
      have hF := foldSel_id_found_forest xs tid steps a ch (p ++ [k + 1])
        (cs ++ [k + 1]) 0 sp ep A I (hch hsc')
      simp only [List.length_append, List.length_singleton, Nat.zero_add]
        at hF
      rw [foldSel_append_ok xs _ none _ _ _ _ hF]
      rw [foldSel_cons_ok xs _ none _ _ _ _
        (show selStep xs (some (.idScheme tid steps)) none
          ⟨p.length + 1, false, none, sp, ep,
            (cs ++ [k + 1]) ++ [lengthF ch], p ++ [k + 1], A,
            applyWrites I (idWF steps a (p ++ [k + 1]) 0 ch), some a,
            true⟩ (XEvent.closeTag xn cp) =
          .ok (selClose (some (.idScheme tid steps))
            ⟨p.length + 1, false, none, sp, ep,
              (cs ++ [k + 1]) ++ [lengthF ch], p ++ [k + 1], A,
              applyWrites I (idWF steps a (p ++ [k + 1]) 0 ch), some a,
              true⟩ cp) from rfl)]
      rw [selClose_id_true_state tid steps cp p cs k (lengthF ch) sp ep A
        (applyWrites I (idWF steps a (p ++ [k + 1]) 0 ch)) a]
      show Except.ok _ = _
      rw [show idWT steps a (p ++ [k + 1]) (XTree.node xn op ol oc cp ch) =
        idWF steps a (p ++ [k + 1]) 0 ch ++
          idWrite steps a (p ++ [k + 1]) (lengthF ch) from by
        simp only [idWT, hsc', Bool.false_eq_true, if_false]]
      rw [applyWrites_append]

theorem foldSel_id_found_forest (xs tid : String) (steps a : List Nat)
    (ts : XForest) (p cs : List Nat) (k : Nat) (sp ep : Option Nat)
    (A I : List (Option Nat)) (hnm : noMatchF (a ++ steps) p k ts) :
    foldSel xs (some (.idScheme tid steps)) none
      ⟨p.length, false, none, sp, ep, cs ++ [k], p, A, I, some a, true⟩
      (flattenF ts) =
    .ok ⟨p.length, false, none, sp, ep, cs ++ [k + lengthF ts], p, A,
      applyWrites I (idWF steps a p k ts), some a, true⟩ := by
  match ts with
  | .fnil =>
    rw [idWF_fnil]
    show Except.ok _ = _
    rfl
  | .fcons t ts' =>
    rw [noMatchF_fcons] at hnm
    obtain ⟨h1, h2⟩ := hnm
    rw [show flattenF (.fcons t ts') = flattenT t ++ flattenF ts' from by
      simp only [flattenF]]
    rw [foldSel_append_ok xs _ none _ _ _ _
      (foldSel_id_found_tree xs tid steps a t p cs k sp ep A I h1)]
    rw [foldSel_id_found_forest xs tid steps a ts' p cs (k + 1) sp ep A
      (applyWrites I (idWT steps a (p ++ [k + 1]) t)) h2]
    rw [idWF_fcons, applyWrites_append]
    rw [show k + lengthF (XForest.fcons t ts') = k + 1 + lengthF ts' from by
      simp only [lengthF]; omega]
end

theorem noMatchT_no_extension (pi q : List Nat) (t : XTree)
    (hq : ∀ r, q ++ r ≠ pi) : noMatchT pi q t :=
  noMatchT_of pi t q (by
    have := hq []
    simpa using this)
    (fun r _ heq => absurd heq (hq r))

theorem noMatchF_no_extension (pi p : List Nat) :
    ∀ (ts : XForest) (k : Nat),
    (∀ i r, k < i → p ++ i :: r ≠ pi) → noMatchF pi p k ts
  | .fnil, k, _ => noMatchF_fnil_holds pi p k
  | .fcons t ts, k, hq => by
    rw [noMatchF_fcons]
    constructor
    · refine noMatchT_no_extension pi (p ++ [k + 1]) t (fun r => ?_)
      rw [show (p ++ [k + 1]) ++ r = p ++ (k + 1) :: r from by simp]
      exact hq (k + 1) r (Nat.lt_succ_self k)
    · exact noMatchF_no_extension pi p ts (k + 1)
        (fun i r hi => hq i r (by omega))

theorem ne_of_coord (pi p : List Nat) (i s : Nat)
    (hs : pi.get? p.length = some s) (his : i ≠ s) (r : List Nat) :
    p ++ i :: r ≠ pi := by
  intro hc
  have h2 : (p ++ i :: r).get? p.length = some i := by
    rw [List.get?_append_right (Nat.le_refl _)]
    simp
  rw [hc, hs] at h2
  injection h2 with h'
  exact his h'.symm

theorem ne_of_short (pi p : List Nat) (i : Nat)
    (hs : pi.get? p.length = none) (r : List Nat) : p ++ i :: r ≠ pi := by
  intro hc
  rw [List.get?_eq_none] at hs
  have h2 := congrArg List.length hc
  simp at h2
  omega

theorem getSparse_applyWrites_skip (m : Nat) :
    ∀ (ws : List (Nat × Nat)) (X : List (Option Nat)),
    (∀ w, w ∈ ws → w.1 ≠ m) →
    getSparse (applyWrites X ws) m = getSparse X m
  | [], _, _ => rfl
  | w :: ws, X, h => by
    rw [show applyWrites X (w :: ws) =
      applyWrites (setSparse X w.1 w.2) ws from rfl]
    rw [getSparse_applyWrites_skip m ws (setSparse X w.1 w.2)
      (fun w' hw' => h w' (List.mem_cons_of_mem w hw'))]
    rw [getSparse_setSparse]
    rw [if_neg (h w (List.mem_cons_self w ws))]

mutual
theorem idWT_entries_nonzero (steps a q : List Nat) (t : XTree)
    (hnm : noMatchT a q t) :
    ∀ w, w ∈ idWT steps a q t → w.1 ≠ 0 := by
  match t with
  | .node xn op ol oc cp ch =>
    rw [noMatchT_node] at hnm
    obtain ⟨hne, hch⟩ := hnm
    have hwr : ∀ cnt w, w ∈ idWrite steps a q cnt → w.1 ≠ 0 := by
      intro cnt w hw
      unfold idWrite at hw
      by_cases h1 : matchesPath q a = true
      · exact absurd ((matchesPath_eq_true_iff _ _).1 h1) hne
      · rw [if_neg h1] at hw
        by_cases h2 : (decide (q.length > a.length) &&
          (decide ((q.drop a.length).length ≤ steps.length) &&
           matchesPath (q.drop a.length)
             (steps.take (q.drop a.length).length))) = true
        · rw [if_pos h2] at hw
          rw [List.mem_singleton] at hw
          subst hw
          show (q.drop a.length).length ≠ 0
          rw [Bool.and_eq_true] at h2
          have := of_decide_eq_true h2.1
          rw [List.length_drop]
          omega
        · rw [if_neg h2] at hw
          cases hw
    intro w hw
    by_cases hsc : xn.isSelfClosing = true
    · rw [show idWT steps a q (XTree.node xn op ol oc cp ch) =
        idWrite steps a q 0 from by simp only [idWT, hsc, if_true]] at hw
      exact hwr 0 w hw
    · have hsc' : xn.isSelfClosing = false := Bool.eq_false_iff.mpr hsc
      rw [show idWT steps a q (XTree.node xn op ol oc cp ch) =
        idWF steps a q 0 ch ++ idWrite steps a q (lengthF ch) from by
        simp only [idWT, hsc', Bool.false_eq_true, if_false]] at hw
      rw [List.mem_append] at hw
      rcases hw with hw | hw
      · exact idWF_entries_nonzero steps a q 0 ch (hch hsc') w hw
      · exact hwr (lengthF ch) w hw

theorem idWF_entries_nonzero (steps a p : List Nat) (k : Nat) (ts : XForest)
    (hnm : noMatchF a p k ts) :
    ∀ w, w ∈ idWF steps a p k ts → w.1 ≠ 0 := by
  match ts with
  | .fnil =>
    intro w hw
    rw [idWF_fnil] at hw
    cases hw
  | .fcons t ts' =>
    rw [noMatchF_fcons] at hnm
    obtain ⟨h1, h2⟩ := hnm
    intro w hw
    rw [idWF_fcons, List.mem_append] at hw
    rcases hw with hw | hw
    · exact idWT_entries_nonzero steps a (p ++ [k + 1]) t h1 w hw
    · exact idWF_entries_nonzero steps a p (k + 1) ts' h2 w hw
end

theorem foldSel_id_anchor (xs tid : String) (steps : List Nat)
    (apath : List Nat) (ts : XForest) (k : Nat) (p cs : List Nat)
    (sp ep : Option Nat) (A I : List (Option Nat)) (anc : XTree)
    (hst : steps ≠ [])
    (hanc : anchorAtF tid ts k apath anc)
    (hnm : noMatchF (p ++ apath ++ steps) p k ts) :
    ∃ I',
      foldSel xs (some (.idScheme tid steps)) none
        ⟨p.length, false, none, sp, ep, cs ++ [k], p, A, I, none, false⟩
        (flattenF ts) =
      .ok ⟨p.length, false, none, sp, ep, cs ++ [k + lengthF ts], p, A, I',
        some (p ++ apath), true⟩ ∧
      getSparse I' 0 = some (countKids anc) := by
  match apath, ts with
  | [], ts0 =>
    exact absurd hanc (by simp [anchorAtF])
  | j :: rest, .fnil =>
    simp only [anchorAtF] at hanc
    obtain ⟨hkj, hpre, t0, hget, hcond⟩ := hanc
    rw [getF_none_of_gt .fnil (j - k) (by simp [lengthF]; omega)] at hget
    cases hget
  | j :: rest, .fcons t ts' =>
    simp only [anchorAtF] at hanc
    obtain ⟨hkj, hpre, t0, hget, hcond⟩ := hanc
    rw [noMatchF_fcons] at hnm
    obtain ⟨hnm1, hnm2⟩ := hnm
    rw [show flattenF (.fcons t ts') = flattenT t ++ flattenF ts' from by
      simp only [flattenF]]
    by_cases hj : k + 1 = j
    · -- the head tree contains (or is) the anchor
      have ht0 : t0 = t := by
        rw [show j - k = 1 from by omega] at hget
        have : some t = some t0 := hget
        injection this with h'
        exact h'.symm
      subst ht0
      have haq : p ++ (j :: rest) = (p ++ [k + 1]) ++ rest := by
        rw [← hj]
        simp
      by_cases hrest : rest = []
      · -- t0 is the anchor itself
        rw [if_pos hrest] at hcond
        obtain ⟨hteq, hmid⟩ := hcond
        subst hteq
        subst hrest
        obtain ⟨xn, op, ol, oc, cp, ch⟩ := t0
        have hxn : (XTree.node xn op ol oc cp ch).xnode = xn := rfl
        rw [hxn] at hmid
        have hopen : selStep xs (some (.idScheme tid steps)) none
            ⟨p.length, false, none, sp, ep, cs ++ [k], p, A, I, none,
              false⟩ (.openTag xn op ol oc) =
          .ok ⟨p.length + 1, false, none, sp, ep, (cs ++ [k + 1]) ++ [0],
            p ++ [k + 1], A, I, some (p ++ [k + 1]), true⟩ :=
          selOpen_id_anchor_nomark xs tid steps xn op p cs k sp ep A I
            hmid hst
        have hπt : noMatchT ((p ++ [k + 1]) ++ steps) (p ++ [k + 1])
            (XTree.node xn op ol oc cp ch) := by
          have := hnm1
          rw [show p ++ (j :: []) ++ steps = (p ++ [k + 1]) ++ steps from by
            rw [← hj]] at this
          exact this
        rw [noMatchT_node] at hπt
        obtain ⟨hne1, hch1⟩ := hπt
        have hnmpost : noMatchF ((p ++ [k + 1]) ++ steps) p (k + 1) ts' := by
          have := hnm2
          rw [show p ++ (j :: []) ++ steps = (p ++ [k + 1]) ++ steps from by
            rw [← hj]] at this
          exact this
        have hapost : noMatchF (p ++ [k + 1]) p (k + 1) ts' :=
          noMatchF_no_extension (p ++ [k + 1]) p ts' (k + 1)
            (fun i r hi =>
              ne_of_coord (p ++ [k + 1]) p i (k + 1)
                (by rw [List.get?_append_right (Nat.le_refl _)]; simp)
                (by omega) r)
        by_cases hsc : xn.isSelfClosing = true
        · -- self-closing anchor
          simp only [flattenT]
          rw [if_pos hsc]
          rw [show ([XEvent.openTag xn op ol oc, XEvent.closeTag xn op] :
              List XEvent) ++ flattenF ts' =
            XEvent.openTag xn op ol oc :: (XEvent.closeTag xn op ::
              flattenF ts') from rfl]
          rw [foldSel_cons_ok xs _ none _ _ _ _ hopen]
          rw [foldSel_cons_ok xs _ none _ _ _ _
            (show selStep xs (some (.idScheme tid steps)) none
              ⟨p.length + 1, false, none, sp, ep, (cs ++ [k + 1]) ++ [0],
                p ++ [k + 1], A, I, some (p ++ [k + 1]), true⟩
              (XEvent.closeTag xn op) =
              .ok (selClose (some (.idScheme tid steps))
                ⟨p.length + 1, false, none, sp, ep,
                  (cs ++ [k + 1]) ++ [0], p ++ [k + 1], A, I,
                  some (p ++ [k + 1]), true⟩ op) from rfl)]
          rw [selClose_id_true_state tid steps op p cs k 0 sp ep A I
            (p ++ [k + 1])]
          rw [show idWrite steps (p ++ [k + 1]) (p ++ [k + 1]) 0 =
            [(0, 0)] from by
            unfold idWrite
            rw [if_pos (matchesPath_self (p ++ [k + 1]))]]
          rw [foldSel_id_found_forest xs tid steps (p ++ [k + 1]) ts' p cs
            (k + 1) sp ep A
            (applyWrites I [(0, 0)]) hnmpost]
          refine ⟨applyWrites (applyWrites I [(0, 0)])
            (idWF steps (p ++ [k + 1]) p (k + 1) ts'), ?_, ?_⟩
          · rw [← hj]
            rw [show k + lengthF (XForest.fcons (XTree.node xn op ol oc cp
              ch) ts') = k + 1 + lengthF ts' from by
              simp only [lengthF]; omega]
          · rw [getSparse_applyWrites_skip 0 _ _
              (idWF_entries_nonzero steps (p ++ [k + 1]) p (k + 1) ts'
                hapost)]
            rw [show applyWrites I [(0, 0)] = setSparse I 0 0 from rfl]
            rw [getSparse_setSparse]
            rw [if_pos rfl]
            rw [show countKids (XTree.node xn op ol oc cp ch) = 0 from by
              simp [countKids, XTree.kids, hsc, lengthF]]
        · -- ordinary anchor with children
          have hsc' : xn.isSelfClosing = false := Bool.eq_false_iff.mpr hsc
          simp only [flattenT]
          rw [if_neg hsc]
          rw [show (XEvent.openTag xn op ol oc :: (flattenF ch ++
              [XEvent.closeTag xn cp])) ++ flattenF ts' =
            XEvent.openTag xn op ol oc :: (flattenF ch ++
              (XEvent.closeTag xn cp :: flattenF ts')) from by simp]
          rw [foldSel_cons_ok xs _ none _ _ _ _ hopen]
          have hkids : XTree.kids (.node xn op ol oc cp ch) = ch := by
            simp [XTree.kids, hsc']
          have hchF := foldSel_id_found_forest xs tid steps (p ++ [k + 1])
            ch (p ++ [k + 1]) (cs ++ [k + 1]) 0 sp ep A I (hch1 hsc')
          simp only [List.length_append, List.length_singleton,
            Nat.zero_add] at hchF
          rw [foldSel_append_ok xs _ none _ _ _ _ hchF]
          rw [foldSel_cons_ok xs _ none _ _ _ _
            (show selStep xs (some (.idScheme tid steps)) none
              ⟨p.length + 1, false, none, sp, ep,
                (cs ++ [k + 1]) ++ [lengthF ch], p ++ [k + 1], A,
                applyWrites I (idWF steps (p ++ [k + 1]) (p ++ [k + 1]) 0
                  ch), some (p ++ [k + 1]), true⟩
              (XEvent.closeTag xn cp) =
              .ok (selClose (some (.idScheme tid steps))
                ⟨p.length + 1, false, none, sp, ep,
                  (cs ++ [k + 1]) ++ [lengthF ch], p ++ [k + 1], A,
                  applyWrites I (idWF steps (p ++ [k + 1]) (p ++ [k + 1])
                    0 ch), some (p ++ [k + 1]), true⟩ cp) from rfl)]
          rw [selClose_id_true_state tid steps cp p cs k (lengthF ch) sp ep
            A _ (p ++ [k + 1])]
          rw [show idWrite steps (p ++ [k + 1]) (p ++ [k + 1])
              (lengthF ch) = [(0, lengthF ch)] from by
            unfold idWrite
            rw [if_pos (matchesPath_self (p ++ [k + 1]))]]
          rw [foldSel_id_found_forest xs tid steps (p ++ [k + 1]) ts' p cs
            (k + 1) sp ep A _ hnmpost]
          refine ⟨applyWrites (applyWrites (applyWrites I
              (idWF steps (p ++ [k + 1]) (p ++ [k + 1]) 0 ch))
              [(0, lengthF ch)])
            (idWF steps (p ++ [k + 1]) p (k + 1) ts'), ?_, ?_⟩
          · rw [← hj]
            rw [show k + lengthF (XForest.fcons (XTree.node xn op ol oc cp
              ch) ts') = k + 1 + lengthF ts' from by
              simp only [lengthF]; omega]
          · rw [getSparse_applyWrites_skip 0 _ _
              (idWF_entries_nonzero steps (p ++ [k + 1]) p (k + 1) ts'
                hapost)]
            rw [show applyWrites
                (applyWrites I (idWF steps (p ++ [k + 1]) (p ++ [k + 1]) 0
                  ch)) [(0, lengthF ch)] =
              setSparse (applyWrites I (idWF steps (p ++ [k + 1])
                (p ++ [k + 1]) 0 ch)) 0 (lengthF ch) from rfl]
            rw [getSparse_setSparse]
            rw [if_pos rfl]
            rw [show countKids (XTree.node xn op ol oc cp ch) =
              lengthF ch from by simp [countKids, XTree.kids, hsc']]
      · -- t0 is a proper ancestor of the anchor
        rw [if_neg hrest] at hcond
        obtain ⟨hmid, hscf, hdeep⟩ := hcond
        obtain ⟨xn, op, ol, oc, cp, ch⟩ := t0
        have hxn : (XTree.node xn op ol oc cp ch).xnode = xn := rfl
        rw [hxn] at hmid hscf
        have hkids : XTree.kids (.node xn op ol oc cp ch) = ch := by
          simp [XTree.kids, hscf]
        rw [hkids] at hdeep
        have hopen : selStep xs (some (.idScheme tid steps)) none
            ⟨p.length, false, none, sp, ep, cs ++ [k], p, A, I, none,
              false⟩ (.openTag xn op ol oc) =
          .ok ⟨p.length + 1, false, none, sp, ep, (cs ++ [k + 1]) ++ [0],
            p ++ [k + 1], A, I, none, false⟩ :=
          selOpen_id_nomatch xs tid steps xn op p cs k sp ep A I hmid
        have hπt : noMatchT (((p ++ [k + 1]) ++ rest) ++ steps)
            (p ++ [k + 1]) (XTree.node xn op ol oc cp ch) := by
          have := hnm1
          rw [show p ++ (j :: rest) ++ steps =
            ((p ++ [k + 1]) ++ rest) ++ steps from by rw [← hj]; simp]
            at this
          exact this
        rw [noMatchT_node] at hπt
        obtain ⟨hne1, hch1⟩ := hπt
        simp only [flattenT]
        rw [if_neg (by rw [hscf]; exact Bool.false_ne_true)]
        rw [show (XEvent.openTag xn op ol oc :: (flattenF ch ++
            [XEvent.closeTag xn cp])) ++ flattenF ts' =
          XEvent.openTag xn op ol oc :: (flattenF ch ++
            (XEvent.closeTag xn cp :: flattenF ts')) from by simp]
        rw [foldSel_cons_ok xs _ none _ _ _ _ hopen]
        obtain ⟨I2, hrec, hread⟩ := foldSel_id_anchor xs tid steps rest ch
          0 (p ++ [k + 1]) (cs ++ [k + 1]) sp ep A I anc hst hdeep
          (by
            have := hch1 hscf
            rw [show ((p ++ [k + 1]) ++ rest) ++ steps =
              (p ++ [k + 1]) ++ rest ++ steps from by simp] at this
            exact this)
        simp only [List.length_append, List.length_singleton,
          Nat.zero_add] at hrec
        rw [foldSel_append_ok xs _ none _ _ _ _ hrec]
        rw [foldSel_cons_ok xs _ none _ _ _ _
          (show selStep xs (some (.idScheme tid steps)) none
            ⟨p.length + 1, false, none, sp, ep,
              (cs ++ [k + 1]) ++ [lengthF ch], p ++ [k + 1], A, I2,
              some ((p ++ [k + 1]) ++ rest), true⟩
            (XEvent.closeTag xn cp) =
            .ok (selClose (some (.idScheme tid steps))
              ⟨p.length + 1, false, none, sp, ep,
                (cs ++ [k + 1]) ++ [lengthF ch], p ++ [k + 1], A, I2,
                some ((p ++ [k + 1]) ++ rest), true⟩ cp) from rfl)]
        rw [selClose_id_true_state tid steps cp p cs k (lengthF ch) sp ep
          A I2 ((p ++ [k + 1]) ++ rest)]
        rw [show idWrite steps ((p ++ [k + 1]) ++ rest) (p ++ [k + 1])
            (lengthF ch) = [] from by
          unfold idWrite
          have hlen : (p ++ [k + 1]).length <
              ((p ++ [k + 1]) ++ rest).length := by
            simp only [List.length_append, List.length_singleton]
            have : rest.length ≠ 0 := by
              intro hc
              exact hrest (List.eq_nil_of_length_eq_zero hc)
            omega
          rw [if_neg (by
            intro hc
            have := (matchesPath_eq_true_iff _ _).1 hc
            have h2 := congrArg List.length this
            omega)]
          rw [if_neg (by
            rw [Bool.and_eq_true]
            rintro ⟨h1, _⟩
            have := of_decide_eq_true h1
            omega)]]
        rw [show applyWrites I2 ([] : List (Nat × Nat)) = I2 from rfl]
        have hnmpost : noMatchF (((p ++ [k + 1]) ++ rest) ++ steps) p
            (k + 1) ts' := by
          have := hnm2
          rw [show p ++ (j :: rest) ++ steps =
            ((p ++ [k + 1]) ++ rest) ++ steps from by rw [← hj]; simp]
            at this
          exact this
        have hapost : noMatchF ((p ++ [k + 1]) ++ rest) p (k + 1) ts' :=
          noMatchF_no_extension ((p ++ [k + 1]) ++ rest) p ts' (k + 1)
            (fun i r hi =>
              ne_of_coord ((p ++ [k + 1]) ++ rest) p i (k + 1)
                (by
                  rw [show (p ++ [k + 1]) ++ rest =
                    p ++ ((k + 1) :: rest) from by simp]
                  rw [List.get?_append_right (Nat.le_refl _)]
                  simp)
                (by omega) r)
        rw [foldSel_id_found_forest xs tid steps ((p ++ [k + 1]) ++ rest)
          ts' p cs (k + 1) sp ep A I2 hnmpost]
        refine ⟨applyWrites I2
          (idWF steps ((p ++ [k + 1]) ++ rest) p (k + 1) ts'), ?_, ?_⟩
        · rw [haq]
          rw [show k + lengthF (XForest.fcons (XTree.node xn op ol oc cp
            ch) ts') = k + 1 + lengthF ts' from by
            simp only [lengthF]; omega]
        · rw [getSparse_applyWrites_skip 0 _ _
            (idWF_entries_nonzero steps ((p ++ [k + 1]) ++ rest) p (k + 1)
              ts' hapost)]
          exact hread
    · -- the head tree is wholly before the anchor
      have hjk : k + 1 < j := by omega
      have hpret : noIdMatchT tid t := by
        refine hpre (k + 1) t (Nat.lt_succ_self k) hjk ?_
        rw [show k + 1 - k = 1 from by omega]
        rfl
      rw [foldSel_append_ok xs _ none _ _ _ _
        (foldSel_id_pre_tree xs tid steps t p cs k sp ep A I hpret)]
      have hanc' : anchorAtF tid ts' (k + 1) (j :: rest) anc := by
        simp only [anchorAtF]
        refine ⟨hjk, ?_, ?_⟩
        · intro i ti hi1 hi2 hgi
          refine hpre i ti (by omega) hi2 ?_
          rw [show i - k = (i - (k + 1)) + 1 from by omega]
          cases hik : i - (k + 1) with
          | zero => omega
          | succ n =>
            rw [hik] at hgi
            exact hgi
        · refine ⟨t0, ?_, hcond⟩
          rw [show j - k = (j - (k + 2)) + 2 from by omega] at hget
          rw [show j - (k + 1) = (j - (k + 2)) + 1 from by omega]
          exact hget
      obtain ⟨I', hfold, hread⟩ := foldSel_id_anchor xs tid steps
        (j :: rest) ts' (k + 1) p cs sp ep A I anc hst hanc' hnm2
      rw [hfold]
      refine ⟨I', ?_, hread⟩
      rw [show k + 1 + lengthF ts' = k + lengthF (XForest.fcons t ts')
        from by simp only [lengthF]; omega]
termination_by (apath.length, sizeOf ts)

theorem foldSel_id_anchor_mark (xs tid : String)
    (apath : List Nat) (ts : XForest) (k : Nat) (p cs : List Nat)
    (sp ep : Option Nat) (A I : List (Option Nat)) (anc : XTree)
    (ts0 : Nat)
    (hanc : anchorAtF tid ts k apath anc)
    (hlast : lastIndexOfWithin xs '<' (anc.openPos - 1) = some ts0) :
    ∃ st', foldSel xs (some (.idScheme tid [])) none
      ⟨p.length, false, none, sp, ep, cs ++ [k], p, A, I, none, false⟩
      (flattenF ts) = .ok st' ∧ st'.found = true ∧
      st'.targetDepth = none ∧ st'.startPos = some ts0 ∧
      st'.endPos = some anc.closeEff := by
  match apath, ts with
  | [], ts0' =>
    exact absurd hanc (by simp [anchorAtF])
  | j :: rest, .fnil =>
    simp only [anchorAtF] at hanc
    obtain ⟨hkj, hpre, t0, hget, hcond⟩ := hanc
    rw [getF_none_of_gt .fnil (j - k) (by simp [lengthF]; omega)] at hget
    cases hget
  | j :: rest, .fcons t ts' =>
    simp only [anchorAtF] at hanc
    obtain ⟨hkj, hpre, t0, hget, hcond⟩ := hanc
    rw [show flattenF (.fcons t ts') = flattenT t ++ flattenF ts' from by
      simp only [flattenF]]
    by_cases hj : k + 1 = j
    · have ht0 : t0 = t := by
        rw [show j - k = 1 from by omega] at hget
        have h2 : some t = some t0 := hget
        injection h2 with h'
        exact h'.symm
      subst ht0
      by_cases hrest : rest = []
      · -- t is the anchor: mark it
        rw [if_pos hrest] at hcond
        obtain ⟨hteq, hmid⟩ := hcond
        subst hteq
        obtain ⟨xn, op, ol, oc, cp, ch⟩ := t0
        rw [show (XTree.node xn op ol oc cp ch).xnode = xn from rfl]
          at hmid
        rw [show (XTree.node xn op ol oc cp ch).openPos = op from rfl]
          at hlast
        have hopen : selStep xs (some (.idScheme tid [])) none
            ⟨p.length, false, none, sp, ep, cs ++ [k], p, A, I, none,
              false⟩ (.openTag xn op ol oc) =
          .ok ⟨p.length + 1, true,
            (if xn.isSelfClosing then none else some (p.length + 1)),
            some ts0, (if xn.isSelfClosing then some op else ep),
            (cs ++ [k + 1]) ++ [0], p ++ [k + 1], A, I,
            some (p ++ [k + 1]), true⟩ :=
          selOpen_id_anchor_mark xs tid [] xn op p cs k sp ep A I ts0
            hmid rfl hlast
        by_cases hsc : xn.isSelfClosing = true
        · simp only [flattenT]
          rw [if_pos hsc]
          rw [show ([XEvent.openTag xn op ol oc, XEvent.closeTag xn op] :
              List XEvent) ++ flattenF ts' =
            XEvent.openTag xn op ol oc :: (XEvent.closeTag xn op ::
              flattenF ts') from rfl]
          rw [foldSel_cons_ok xs _ none _ _ _ _ hopen]
          rw [show (if xn.isSelfClosing then (none : Option Nat)
              else some (p.length + 1)) = none from by rw [if_pos hsc]]
          rw [show (if xn.isSelfClosing then (some op : Option Nat)
              else ep) = some op from by rw [if_pos hsc]]
          obtain ⟨st2, hfrz, hfo, htd, hsp, hep⟩ := foldSel_frozen xs tid
            [] (XEvent.closeTag xn op :: flattenF ts')
            ⟨p.length + 1, true, none, some ts0, some op,
              (cs ++ [k + 1]) ++ [0], p ++ [k + 1], A, I,
              some (p ++ [k + 1]), true⟩ rfl rfl
          refine ⟨st2, hfrz, hfo, htd, ?_, ?_⟩
          · rw [hsp]
          · rw [hep]
            rw [show XTree.closeEff (XTree.node xn op ol oc cp ch) = op
              from by simp [XTree.closeEff, hsc]]
        · have hsc' : xn.isSelfClosing = false :=
            Bool.eq_false_iff.mpr hsc
          simp only [flattenT]
          rw [if_neg hsc]
          rw [show (XEvent.openTag xn op ol oc :: (flattenF ch ++
              [XEvent.closeTag xn cp])) ++ flattenF ts' =
            XEvent.openTag xn op ol oc :: (flattenF ch ++
              (XEvent.closeTag xn cp :: flattenF ts')) from by simp]
          rw [foldSel_cons_ok xs _ none _ _ _ _ hopen]
          rw [show (if xn.isSelfClosing then (none : Option Nat)
              else some (p.length + 1)) = some (p.length + 1) from by
            rw [if_neg hsc]]
          rw [show (if xn.isSelfClosing then (some op : Option Nat)
              else ep) = ep from by rw [if_neg hsc]]
          obtain ⟨st2, hfr, hfo2, htd2, hsp2, hep2, hdep2⟩ :=
            foldSel_fr_forest xs tid [] ch (p.length + 1)
              ⟨p.length + 1, true, some (p.length + 1), some ts0, ep,
                (cs ++ [k + 1]) ++ [0], p ++ [k + 1], A, I,
                some (p ++ [k + 1]), true⟩ rfl rfl (Nat.le_refl _)
          rw [foldSel_append_ok xs _ none _ _ _ _ hfr]
          obtain ⟨I3, hcl⟩ := selClose_id_fields tid [] cp st2
          rw [foldSel_cons_ok xs _ none _ _ _ _
            (show selStep xs (some (.idScheme tid [])) none st2
              (XEvent.closeTag xn cp) =
              .ok (selClose (some (.idScheme tid [])) st2 cp) from rfl)]
          rw [hcl]
          rw [show (if st2.targetDepth = some st2.depth then (none : Option Nat)
              else st2.targetDepth) = none from by
            rw [if_pos (by rw [htd2, hdep2])]]
          rw [show (if st2.targetDepth = some st2.depth then (some cp : Option Nat)
              else st2.endPos) = some cp from by
            rw [if_pos (by rw [htd2, hdep2])]]
          obtain ⟨st3, hfrz, hfo3, htd3, hsp3, hep3⟩ := foldSel_frozen xs
            tid [] (flattenF ts')
            ⟨st2.depth - 1, st2.found, none, st2.startPos, some cp,
              st2.childCounts.dropLast, st2.elementPath.dropLast,
              st2.positionalCounts, I3, st2.idAnchorPath,
              st2.idAnchorFound⟩ (by simp only; exact hfo2) rfl
          refine ⟨st3, hfrz, hfo3, htd3, ?_, ?_⟩
          · rw [hsp3]
            simp only
            rw [hsp2]
          · rw [hep3]
            rw [show XTree.closeEff (XTree.node xn op ol oc cp ch) = cp
              from by simp [XTree.closeEff, hsc']]
      · -- t is a proper ancestor of the anchor
        rw [if_neg hrest] at hcond
        obtain ⟨hmid, hscf, hdeep⟩ := hcond
        obtain ⟨xn, op, ol, oc, cp, ch⟩ := t0
        rw [show (XTree.node xn op ol oc cp ch).xnode = xn from rfl]
          at hmid hscf
        rw [show XTree.kids (XTree.node xn op ol oc cp ch) = ch from by
          simp [XTree.kids, hscf]] at hdeep
        have hopen : selStep xs (some (.idScheme tid [])) none
            ⟨p.length, false, none, sp, ep, cs ++ [k], p, A, I, none,
              false⟩ (.openTag xn op ol oc) =
          .ok ⟨p.length + 1, false, none, sp, ep, (cs ++ [k + 1]) ++ [0],
            p ++ [k + 1], A, I, none, false⟩ :=
          selOpen_id_nomatch xs tid [] xn op p cs k sp ep A I hmid
        simp only [flattenT]
        rw [if_neg (by rw [hscf]; exact Bool.false_ne_true)]
        rw [show (XEvent.openTag xn op ol oc :: (flattenF ch ++
            [XEvent.closeTag xn cp])) ++ flattenF ts' =
          XEvent.openTag xn op ol oc :: (flattenF ch ++
            (XEvent.closeTag xn cp :: flattenF ts')) from by simp]
        rw [foldSel_cons_ok xs _ none _ _ _ _ hopen]
        obtain ⟨st2, hrec, hfo2, htd2, hsp2, hep2⟩ :=
          foldSel_id_anchor_mark xs tid rest ch 0 (p ++ [k + 1])
            (cs ++ [k + 1]) sp ep A I anc ts0 hdeep hlast
        simp only [List.length_append, List.length_singleton,
          Nat.zero_add] at hrec
        rw [foldSel_append_ok xs _ none _ _ _ _ hrec]
        obtain ⟨I3, hcl⟩ := selClose_id_fields tid [] cp st2
        rw [foldSel_cons_ok xs _ none _ _ _ _
          (show selStep xs (some (.idScheme tid [])) none st2
            (XEvent.closeTag xn cp) =
            .ok (selClose (some (.idScheme tid [])) st2 cp) from rfl)]
        rw [hcl]
        rw [show (if st2.targetDepth = some st2.depth then (none : Option Nat)
            else st2.targetDepth) = none from by rw [htd2]; simp]
        rw [show (if st2.targetDepth = some st2.depth then (some cp : Option Nat)
            else st2.endPos) = st2.endPos from by rw [htd2]; simp]
        obtain ⟨st3, hfrz, hfo3, htd3, hsp3, hep3⟩ := foldSel_frozen xs
          tid [] (flattenF ts')
          ⟨st2.depth - 1, st2.found, none, st2.startPos, st2.endPos,
            st2.childCounts.dropLast, st2.elementPath.dropLast,
            st2.positionalCounts, I3, st2.idAnchorPath,
            st2.idAnchorFound⟩ (by simp only; exact hfo2) rfl
        refine ⟨st3, hfrz, hfo3, htd3, ?_, ?_⟩
        · rw [hsp3]
          simp only
          rw [hsp2]
        · rw [hep3]
          simp only
          rw [hep2]
    · -- head tree wholly before the anchor
      have hjk : k + 1 < j := by omega
      have hpret : noIdMatchT tid t := by
        refine hpre (k + 1) t (Nat.lt_succ_self k) hjk ?_
        rw [show k + 1 - k = 1 from by omega]
        rfl
      rw [foldSel_append_ok xs _ none _ _ _ _
        (foldSel_id_pre_tree xs tid [] t p cs k sp ep A I hpret)]
      have hanc' : anchorAtF tid ts' (k + 1) (j :: rest) anc := by
        simp only [anchorAtF]
        refine ⟨hjk, ?_, ?_⟩
        · intro i ti hi1 hi2 hgi
          refine hpre i ti (by omega) hi2 ?_
          rw [show i - k = (i - (k + 2)) + 2 from by omega]
          rw [show i - (k + 1) = (i - (k + 2)) + 1 from by omega] at hgi
          exact hgi
        · refine ⟨t0, ?_, hcond⟩
          rw [show j - k = (j - (k + 2)) + 2 from by omega] at hget
          rw [show j - (k + 1) = (j - (k + 2)) + 1 from by omega]
          exact hget
      exact foldSel_id_anchor_mark xs tid (j :: rest) ts' (k + 1) p cs sp
        ep A I anc ts0 hanc' hlast
termination_by (apath.length, sizeOf ts)

/-- The element reached from the current level by descending the 1-based
sibling indices of `rpath` (ancestors must be scanned, hence not
self-closing); `k` siblings of the first level already scanned. -/
def elemChainF : XForest → Nat → List Nat → XTree → Prop
  | _, _, [], _ => False
  | ts, k, j :: rest, tgt =>
    k < j ∧
    ∃ t, getF ts (j - k) = some t ∧
      (if rest = [] then t = tgt
       else t.xnode.isSelfClosing = false ∧ elemChainF t.kids 0 rest tgt)

theorem foldSel_id_target_mark (xs tid : String) (steps a : List Nat)
    (rpath : List Nat) (ts : XForest) (k : Nat) (p cs : List Nat)
    (sp ep : Option Nat) (A I : List (Option Nat)) (tgt : XTree)
    (ts0 : Nat)
    (hst : steps ≠ [])
    (hchain : elemChainF ts k rpath tgt)
    (hpath : p ++ rpath = a ++ steps)
    (hlast : lastIndexOfWithin xs '<' (tgt.openPos - 1) = some ts0) :
    ∃ st', foldSel xs (some (.idScheme tid steps)) none
      ⟨p.length, false, none, sp, ep, cs ++ [k], p, A, I, some a, true⟩
      (flattenF ts) = .ok st' ∧ st'.found = true ∧
      st'.targetDepth = none ∧ st'.startPos = some ts0 ∧
      st'.endPos = some tgt.closeEff := by
  match rpath, ts with
  | [], ts1 =>
    exact absurd hchain (by simp [elemChainF])
  | j :: rest, .fnil =>
    simp only [elemChainF] at hchain
    obtain ⟨hkj, t0, hget, hcond⟩ := hchain
    rw [getF_none_of_gt .fnil (j - k) (by simp [lengthF]; omega)] at hget
    cases hget
  | j :: rest, .fcons t ts' =>
    simp only [elemChainF] at hchain
    obtain ⟨hkj, t0, hget, hcond⟩ := hchain
    rw [show flattenF (.fcons t ts') = flattenT t ++ flattenF ts' from by
      simp only [flattenF]]
    have hgetpi : (a ++ steps).get? p.length = some j := by
      rw [← hpath]
      rw [List.get?_append_right (Nat.le_refl _)]
      simp
    by_cases hj : k + 1 = j
    · have ht0 : t0 = t := by
        rw [show j - k = 1 from by omega] at hget
        have h2 : some t = some t0 := hget
        injection h2 with h'
        exact h'.symm
      subst ht0
      by_cases hrest : rest = []
      · -- t is the target: mark it
        rw [if_pos hrest] at hcond
        subst hcond
        subst hrest
        obtain ⟨xn, op, ol, oc, cp, ch⟩ := t0
        rw [show (XTree.node xn op ol oc cp ch).openPos = op from rfl]
          at hlast
        have heqa : p ++ [k + 1] = a ++ steps := by
          rw [← hpath, ← hj]
        have hopen : selStep xs (some (.idScheme tid steps)) none
            ⟨p.length, false, none, sp, ep, cs ++ [k], p, A, I, some a,
              true⟩ (.openTag xn op ol oc) =
          .ok ⟨p.length + 1, true,
            (if xn.isSelfClosing then none else some (p.length + 1)),
            some ts0, (if xn.isSelfClosing then some op else ep),
            (cs ++ [k + 1]) ++ [0], p ++ [k + 1], A, I, some a, true⟩ :=
          selOpen_id_after_mark xs tid steps xn op p cs k sp ep A I a ts0
            heqa hst hlast
        by_cases hsc : xn.isSelfClosing = true
        · simp only [flattenT]
          rw [if_pos hsc]
          rw [show ([XEvent.openTag xn op ol oc, XEvent.closeTag xn op] :
              List XEvent) ++ flattenF ts' =
            XEvent.openTag xn op ol oc :: (XEvent.closeTag xn op ::
              flattenF ts') from rfl]
          rw [foldSel_cons_ok xs _ none _ _ _ _ hopen]
          rw [show (if xn.isSelfClosing then (none : Option Nat)
              else some (p.length + 1)) = none from by rw [if_pos hsc]]
          rw [show (if xn.isSelfClosing then (some op : Option Nat)
              else ep) = some op from by rw [if_pos hsc]]
          obtain ⟨st2, hfrz, hfo, htd, hsp, hep⟩ := foldSel_frozen xs tid
            steps (XEvent.closeTag xn op :: flattenF ts')
            ⟨p.length + 1, true, none, some ts0, some op,
              (cs ++ [k + 1]) ++ [0], p ++ [k + 1], A, I, some a, true⟩
            rfl rfl
          refine ⟨st2, hfrz, hfo, htd, by rw [hsp], ?_⟩
          rw [hep]
          rw [show XTree.closeEff (XTree.node xn op ol oc cp ch) = op
            from by simp [XTree.closeEff, hsc]]
        · have hsc' : xn.isSelfClosing = false :=
            Bool.eq_false_iff.mpr hsc
          simp only [flattenT]
          rw [if_neg hsc]
          rw [show (XEvent.openTag xn op ol oc :: (flattenF ch ++
              [XEvent.closeTag xn cp])) ++ flattenF ts' =
            XEvent.openTag xn op ol oc :: (flattenF ch ++
              (XEvent.closeTag xn cp :: flattenF ts')) from by simp]
          rw [foldSel_cons_ok xs _ none _ _ _ _ hopen]
          rw [show (if xn.isSelfClosing then (none : Option Nat)
              else some (p.length + 1)) = some (p.length + 1) from by
            rw [if_neg hsc]]
          rw [show (if xn.isSelfClosing then (some op : Option Nat)
              else ep) = ep from by rw [if_neg hsc]]
          obtain ⟨st2, hfr, hfo2, htd2, hsp2, hep2, hdep2⟩ :=
            foldSel_fr_forest xs tid steps ch (p.length + 1)
              ⟨p.length + 1, true, some (p.length + 1), some ts0, ep,
                (cs ++ [k + 1]) ++ [0], p ++ [k + 1], A, I, some a,
                true⟩ rfl rfl (Nat.le_refl _)
          rw [foldSel_append_ok xs _ none _ _ _ _ hfr]
          obtain ⟨I3, hcl⟩ := selClose_id_fields tid steps cp st2
          rw [foldSel_cons_ok xs _ none _ _ _ _
            (show selStep xs (some (.idScheme tid steps)) none st2
              (XEvent.closeTag xn cp) =
              .ok (selClose (some (.idScheme tid steps)) st2 cp) from
              rfl)]
          rw [hcl]
          rw [show (if st2.targetDepth = some st2.depth then (none : Option Nat)
              else st2.targetDepth) = none from by
            rw [if_pos (by rw [htd2, hdep2])]]
          rw [show (if st2.targetDepth = some st2.depth then (some cp : Option Nat)
              else st2.endPos) = some cp from by
            rw [if_pos (by rw [htd2, hdep2])]]
          obtain ⟨st3, hfrz, hfo3, htd3, hsp3, hep3⟩ := foldSel_frozen xs
            tid steps (flattenF ts')
            ⟨st2.depth - 1, st2.found, none, st2.startPos, some cp,
              st2.childCounts.dropLast, st2.elementPath.dropLast,
              st2.positionalCounts, I3, st2.idAnchorPath,
              st2.idAnchorFound⟩ (by simp only; exact hfo2) rfl
          refine ⟨st3, hfrz, hfo3, htd3, ?_, ?_⟩
          · rw [hsp3]
            simp only
            rw [hsp2]
          · rw [hep3]
            rw [show XTree.closeEff (XTree.node xn op ol oc cp ch) = cp
              from by simp [XTree.closeEff, hsc']]
      · -- t is an ancestor of the target
        rw [if_neg hrest] at hcond
        obtain ⟨hscf, hdeep⟩ := hcond
        obtain ⟨xn, op, ol, oc, cp, ch⟩ := t0
        rw [show (XTree.node xn op ol oc cp ch).xnode = xn from rfl]
          at hscf
        rw [show XTree.kids (XTree.node xn op ol oc cp ch) = ch from by
          simp [XTree.kids, hscf]] at hdeep
        have hopen : selStep xs (some (.idScheme tid steps)) none
            ⟨p.length, false, none, sp, ep, cs ++ [k], p, A, I, some a,
              true⟩ (.openTag xn op ol oc) =
          .ok ⟨p.length + 1, false, none, sp, ep, (cs ++ [k + 1]) ++ [0],
            p ++ [k + 1], A, I, some a, true⟩ :=
          selOpen_id_after_nomark xs tid steps xn op p cs k sp ep A I a
            (by
              rintro ⟨hlen, htake, hdrop⟩
              have hfull : p ++ [k + 1] = a ++ steps := by
                rw [← List.take_append_drop a.length (p ++ [k + 1]),
                  htake, hdrop]
              have hlens := congrArg List.length hfull
              have hlens2 := congrArg List.length hpath
              simp at hlens hlens2
              have : rest.length = 0 := by omega
              exact hrest (List.eq_nil_of_length_eq_zero this))
        simp only [flattenT]
        rw [if_neg (by rw [hscf]; exact Bool.false_ne_true)]
        rw [show (XEvent.openTag xn op ol oc :: (flattenF ch ++
            [XEvent.closeTag xn cp])) ++ flattenF ts' =
          XEvent.openTag xn op ol oc :: (flattenF ch ++
            (XEvent.closeTag xn cp :: flattenF ts')) from by simp]
        rw [foldSel_cons_ok xs _ none _ _ _ _ hopen]
        obtain ⟨st2, hrec, hfo2, htd2, hsp2, hep2⟩ :=
          foldSel_id_target_mark xs tid steps a rest ch 0 (p ++ [k + 1])
            (cs ++ [k + 1]) sp ep A I tgt ts0 hst hdeep
            (by rw [show (p ++ [k + 1]) ++ rest = p ++ (k + 1) :: rest
                from by simp]
                rw [show p ++ (k + 1) :: rest = p ++ j :: rest from by
                  rw [hj]]
                exact hpath)
            hlast
        simp only [List.length_append, List.length_singleton,
          Nat.zero_add] at hrec
        rw [foldSel_append_ok xs _ none _ _ _ _ hrec]
        obtain ⟨I3, hcl⟩ := selClose_id_fields tid steps cp st2
        rw [foldSel_cons_ok xs _ none _ _ _ _
          (show selStep xs (some (.idScheme tid steps)) none st2
            (XEvent.closeTag xn cp) =
            .ok (selClose (some (.idScheme tid steps)) st2 cp) from rfl)]
        rw [hcl]
        rw [show (if st2.targetDepth = some st2.depth then (none : Option Nat)
            else st2.targetDepth) = none from by rw [htd2]; simp]
        rw [show (if st2.targetDepth = some st2.depth then (some cp : Option Nat)
            else st2.endPos) = st2.endPos from by rw [htd2]; simp]
        obtain ⟨st3, hfrz, hfo3, htd3, hsp3, hep3⟩ := foldSel_frozen xs
          tid steps (flattenF ts')
          ⟨st2.depth - 1, st2.found, none, st2.startPos, st2.endPos,
            st2.childCounts.dropLast, st2.elementPath.dropLast,
            st2.positionalCounts, I3, st2.idAnchorPath,
            st2.idAnchorFound⟩ (by simp only; exact hfo2) rfl
        refine ⟨st3, hfrz, hfo3, htd3, ?_, ?_⟩
        · rw [hsp3]
          simp only
          rw [hsp2]
        · rw [hep3]
          simp only
          rw [hep2]
    · -- head tree is before the branch containing the target
      have hjk : k + 1 < j := by omega
      have hnmt : noMatchT (a ++ steps) (p ++ [k + 1]) t :=
        noMatchT_no_extension (a ++ steps) (p ++ [k + 1]) t (fun r => by
          rw [show (p ++ [k + 1]) ++ r = p ++ (k + 1) :: r from by simp]
          exact ne_of_coord (a ++ steps) p (k + 1) j hgetpi (by omega) r)
      rw [foldSel_append_ok xs _ none _ _ _ _
        (foldSel_id_found_tree xs tid steps a t p cs k sp ep A I hnmt)]
      have hchain' : elemChainF ts' (k + 1) (j :: rest) tgt := by
        simp only [elemChainF]
        refine ⟨hjk, t0, ?_, hcond⟩
        rw [show j - k = (j - (k + 2)) + 2 from by omega] at hget
        rw [show j - (k + 1) = (j - (k + 2)) + 1 from by omega]
        exact hget
      exact foldSel_id_target_mark xs tid steps a (j :: rest) ts' (k + 1)
        p cs sp ep A _ tgt ts0 hst hchain' hpath hlast
termination_by (rpath.length, sizeOf ts)

theorem foldSel_id_anchor_target (xs tid : String) (steps : List Nat)
    (apath : List Nat) (ts : XForest) (k : Nat) (p cs : List Nat)
    (sp ep : Option Nat) (A I : List (Option Nat)) (anc tgt : XTree)
    (ts0 : Nat)
    (hst : steps ≠ [])
    (hanc : anchorAtF tid ts k apath anc)
    (hchain : elemChainF anc.kids 0 steps tgt)
    (hlast : lastIndexOfWithin xs '<' (tgt.openPos - 1) = some ts0) :
    ∃ st', foldSel xs (some (.idScheme tid steps)) none
      ⟨p.length, false, none, sp, ep, cs ++ [k], p, A, I, none, false⟩
      (flattenF ts) = .ok st' ∧ st'.found = true ∧
      st'.targetDepth = none ∧ st'.startPos = some ts0 ∧
      st'.endPos = some tgt.closeEff := by
  match apath, ts with
  | [], ts1 =>
    exact absurd hanc (by simp [anchorAtF])
  | j :: rest, .fnil =>
    simp only [anchorAtF] at hanc
    obtain ⟨hkj, hpre, t0, hget, hcond⟩ := hanc
    rw [getF_none_of_gt .fnil (j - k) (by simp [lengthF]; omega)] at hget
    cases hget
  | j :: rest, .fcons t ts' =>
    simp only [anchorAtF] at hanc
    obtain ⟨hkj, hpre, t0, hget, hcond⟩ := hanc
    rw [show flattenF (.fcons t ts') = flattenT t ++ flattenF ts' from by
      simp only [flattenF]]
    by_cases hj : k + 1 = j
    · have ht0 : t0 = t := by
        rw [show j - k = 1 from by omega] at hget
        have h2 : some t = some t0 := hget
        injection h2 with h'
        exact h'.symm
      subst ht0
      by_cases hrest : rest = []
      · -- t is the anchor; the target sits below it
        rw [if_pos hrest] at hcond
        obtain ⟨hteq, hmid⟩ := hcond
        subst hteq
        obtain ⟨xn, op, ol, oc, cp, ch⟩ := t0
        rw [show (XTree.node xn op ol oc cp ch).xnode = xn from rfl]
          at hmid
        have hopen : selStep xs (some (.idScheme tid steps)) none
            ⟨p.length, false, none, sp, ep, cs ++ [k], p, A, I, none,
              false⟩ (.openTag xn op ol oc) =
          .ok ⟨p.length + 1, false, none, sp, ep, (cs ++ [k + 1]) ++ [0],
            p ++ [k + 1], A, I, some (p ++ [k + 1]), true⟩ :=
          selOpen_id_anchor_nomark xs tid steps xn op p cs k sp ep A I
            hmid hst
        by_cases hsc : xn.isSelfClosing = true
        · -- a self-closing anchor scans no children, so no target chain
          exfalso
          rw [show XTree.kids (XTree.node xn op ol oc cp ch) = .fnil from
            by simp [XTree.kids, hsc]] at hchain
          cases hsteps : steps with
          | nil => exact hst hsteps
          | cons s ss =>
            rw [hsteps] at hchain
            simp only [elemChainF] at hchain
            obtain ⟨hks, t1, hget1, _⟩ := hchain
            rw [getF_none_of_gt .fnil (s - 0)
              (by simp [lengthF]; omega)] at hget1
            cases hget1
        · have hsc' : xn.isSelfClosing = false :=
            Bool.eq_false_iff.mpr hsc
          rw [show XTree.kids (XTree.node xn op ol oc cp ch) = ch from by
            simp [XTree.kids, hsc']] at hchain
          simp only [flattenT]
          rw [if_neg hsc]
          rw [show (XEvent.openTag xn op ol oc :: (flattenF ch ++
              [XEvent.closeTag xn cp])) ++ flattenF ts' =
            XEvent.openTag xn op ol oc :: (flattenF ch ++
              (XEvent.closeTag xn cp :: flattenF ts')) from by simp]
          rw [foldSel_cons_ok xs _ none _ _ _ _ hopen]
          obtain ⟨st2, hrec, hfo2, htd2, hsp2, hep2⟩ :=
            foldSel_id_target_mark xs tid steps (p ++ [k + 1]) steps ch 0
              (p ++ [k + 1]) (cs ++ [k + 1]) sp ep A I tgt ts0 hst hchain
              rfl hlast
          simp only [List.length_append, List.length_singleton,
            Nat.zero_add] at hrec
          rw [foldSel_append_ok xs _ none _ _ _ _ hrec]
          obtain ⟨I3, hcl⟩ := selClose_id_fields tid steps cp st2
          rw [foldSel_cons_ok xs _ none _ _ _ _
            (show selStep xs (some (.idScheme tid steps)) none st2
              (XEvent.closeTag xn cp) =
              .ok (selClose (some (.idScheme tid steps)) st2 cp) from
              rfl)]
          rw [hcl]
          rw [show (if st2.targetDepth = some st2.depth then (none : Option Nat)
              else st2.targetDepth) = none from by rw [htd2]; simp]
          rw [show (if st2.targetDepth = some st2.depth then (some cp : Option Nat)
              else st2.endPos) = st2.endPos from by rw [htd2]; simp]
          obtain ⟨st3, hfrz, hfo3, htd3, hsp3, hep3⟩ := foldSel_frozen xs
            tid steps (flattenF ts')
            ⟨st2.depth - 1, st2.found, none, st2.startPos, st2.endPos,
              st2.childCounts.dropLast, st2.elementPath.dropLast,
              st2.positionalCounts, I3, st2.idAnchorPath,
              st2.idAnchorFound⟩ (by simp only; exact hfo2) rfl
          refine ⟨st3, hfrz, hfo3, htd3, ?_, ?_⟩
          · rw [hsp3]
            simp only
            rw [hsp2]
          · rw [hep3]
            simp only
            rw [hep2]
      · -- t is a proper ancestor of the anchor
        rw [if_neg hrest] at hcond
        obtain ⟨hmid, hscf, hdeep⟩ := hcond
        obtain ⟨xn, op, ol, oc, cp, ch⟩ := t0
        rw [show (XTree.node xn op ol oc cp ch).xnode = xn from rfl]
          at hmid hscf
        rw [show XTree.kids (XTree.node xn op ol oc cp ch) = ch from by
          simp [XTree.kids, hscf]] at hdeep
        have hopen : selStep xs (some (.idScheme tid steps)) none
            ⟨p.length, false, none, sp, ep, cs ++ [k], p, A, I, none,
              false⟩ (.openTag xn op ol oc) =
          .ok ⟨p.length + 1, false, none, sp, ep, (cs ++ [k + 1]) ++ [0],
            p ++ [k + 1], A, I, none, false⟩ :=
          selOpen_id_nomatch xs tid steps xn op p cs k sp ep A I hmid
        simp only [flattenT]
        rw [if_neg (by rw [hscf]; exact Bool.false_ne_true)]
        rw [show (XEvent.openTag xn op ol oc :: (flattenF ch ++
            [XEvent.closeTag xn cp])) ++ flattenF ts' =
          XEvent.openTag xn op ol oc :: (flattenF ch ++
            (XEvent.closeTag xn cp :: flattenF ts')) from by simp]
        rw [foldSel_cons_ok xs _ none _ _ _ _ hopen]
        obtain ⟨st2, hrec, hfo2, htd2, hsp2, hep2⟩ :=
          foldSel_id_anchor_target xs tid steps rest ch 0 (p ++ [k + 1])
            (cs ++ [k + 1]) sp ep A I anc tgt ts0 hst hdeep hchain hlast
        simp only [List.length_append, List.length_singleton,
          Nat.zero_add] at hrec
        rw [foldSel_append_ok xs _ none _ _ _ _ hrec]
        obtain ⟨I3, hcl⟩ := selClose_id_fields tid steps cp st2
        rw [foldSel_cons_ok xs _ none _ _ _ _
          (show selStep xs (some (.idScheme tid steps)) none st2
            (XEvent.closeTag xn cp) =
            .ok (selClose (some (.idScheme tid steps)) st2 cp) from rfl)]
        rw [hcl]
        rw [show (if st2.targetDepth = some st2.depth then (none : Option Nat)
            else st2.targetDepth) = none from by rw [htd2]; simp]
        rw [show (if st2.targetDepth = some st2.depth then (some cp : Option Nat)
            else st2.endPos) = st2.endPos from by rw [htd2]; simp]
        obtain ⟨st3, hfrz, hfo3, htd3, hsp3, hep3⟩ := foldSel_frozen xs
          tid steps (flattenF ts')
          ⟨st2.depth - 1, st2.found, none, st2.startPos, st2.endPos,
            st2.childCounts.dropLast, st2.elementPath.dropLast,
            st2.positionalCounts, I3, st2.idAnchorPath,
            st2.idAnchorFound⟩ (by simp only; exact hfo2) rfl
        refine ⟨st3, hfrz, hfo3, htd3, ?_, ?_⟩
        · rw [hsp3]
          simp only
          rw [hsp2]
        · rw [hep3]
          simp only
          rw [hep2]
    · -- head tree wholly before the anchor
      have hjk : k + 1 < j := by omega
      have hpret : noIdMatchT tid t := by
        refine hpre (k + 1) t (Nat.lt_succ_self k) hjk ?_
        rw [show k + 1 - k = 1 from by omega]
        rfl
      rw [foldSel_append_ok xs _ none _ _ _ _
        (foldSel_id_pre_tree xs tid steps t p cs k sp ep A I hpret)]
      have hanc' : anchorAtF tid ts' (k + 1) (j :: rest) anc := by
        simp only [anchorAtF]
        refine ⟨hjk, ?_, ?_⟩
        · intro i ti hi1 hi2 hgi
          refine hpre i ti (by omega) hi2 ?_
          rw [show i - k = (i - (k + 2)) + 2 from by omega]
          rw [show i - (k + 1) = (i - (k + 2)) + 1 from by omega] at hgi
          exact hgi
        · refine ⟨t0, ?_, hcond⟩
          rw [show j - k = (j - (k + 2)) + 2 from by omega] at hget
          rw [show j - (k + 1) = (j - (k + 2)) + 1 from by omega]
          exact hget
      exact foldSel_id_anchor_target xs tid steps (j :: rest) ts' (k + 1)
        p cs sp ep A I anc tgt ts0 hst hanc' hchain hlast
termination_by (apath.length, sizeOf ts)

theorem selectXPointerFragment_id_diag (doc xp tid : String)
    (steps : List Nat) (st : SelSt)
    (hparse : parseElementScheme xp = .ok (some (.idScheme tid steps)))
    (hfold : foldSel doc (some (.idScheme tid steps)) none initSel
      (scanEvents doc).events = .ok st)
    (hfail : (scanEvents doc).failed = false)
    (hsp : st.startPos = none) (hep : st.endPos = none) :
    selectXPointerFragment doc xp =
      (if !st.idAnchorFound then
        Except.error ("XInclude xpointer target not found: " ++ tid)
      else
        if (match getSparse st.idCounts 0, steps.get? 0 with
            | some c, some s0 =>
              decide (steps.length > 0) && decide (c < s0)
            | _, _ => false) = true then
          Except.error (formatStepError 1 (steps.getD 0 0)
            ((getSparse st.idCounts 0).getD 0) (some tid))
        else
          match firstBadStep steps st.idCounts 1 with
          | some (i, req, avail) =>
            Except.error (formatStepError (i + 1) req avail (some tid))
          | none =>
            Except.error ("XInclude xpointer target not found: " ++
              tid)) := by
  unfold selectXPointerFragment
  rw [hparse]
  show (match foldSel doc (some (.idScheme tid steps)) none initSel
          (scanEvents doc).events with
        | .error e => Except.error e
        | .ok st' =>
          if (scanEvents doc).failed then Except.error "XML parse error"
          else
            match st'.startPos, st'.endPos with
            | some sp, some ep => Except.ok (jsSubstring doc sp ep)
            | _, _ =>
              (if !st'.idAnchorFound then
                Except.error ("XInclude xpointer target not found: " ++
                  tid)
              else
                if (match getSparse st'.idCounts 0, steps.get? 0 with
                    | some c, some s0 =>
                      decide (steps.length > 0) && decide (c < s0)
                    | _, _ => false) = true then
                  Except.error (formatStepError 1 (steps.getD 0 0)
                    ((getSparse st'.idCounts 0).getD 0) (some tid))
                else
                  match firstBadStep steps st'.idCounts 1 with
                  | some (i, req, avail) =>
                    Except.error (formatStepError (i + 1) req avail
                      (some tid))
                  | none =>
                    Except.error
                      ("XInclude xpointer target not found: " ++
                        tid))) = _
  rw [hfold]
  show (if (scanEvents doc).failed then Except.error "XML parse error"
        else
          match st.startPos, st.endPos with
          | some sp, some ep => Except.ok (jsSubstring doc sp ep)
          | _, _ =>
            (if !st.idAnchorFound then
              Except.error ("XInclude xpointer target not found: " ++
                tid)
            else
              if (match getSparse st.idCounts 0, steps.get? 0 with
                  | some c, some s0 =>
                    decide (steps.length > 0) && decide (c < s0)
                  | _, _ => false) = true then
                Except.error (formatStepError 1 (steps.getD 0 0)
                  ((getSparse st.idCounts 0).getD 0) (some tid))
              else
                match firstBadStep steps st.idCounts 1 with
                | some (i, req, avail) =>
                  Except.error (formatStepError (i + 1) req avail
                    (some tid))
                | none =>
                  Except.error ("XInclude xpointer target not found: " ++
                    tid))) = _
  rw [hfail]
  rw [hsp, hep]
  rfl

theorem selectXPointerFragment_id_ok (doc xp tid : String)
    (steps : List Nat) (st : SelSt) (sp0 ep0 : Nat)
    (hparse : parseElementScheme xp = .ok (some (.idScheme tid steps)))
    (hfold : foldSel doc (some (.idScheme tid steps)) none initSel
      (scanEvents doc).events = .ok st)
    (hfail : (scanEvents doc).failed = false)
    (hsp : st.startPos = some sp0) (hep : st.endPos = some ep0) :
    selectXPointerFragment doc xp = .ok (jsSubstring doc sp0 ep0) := by
  unfold selectXPointerFragment
  rw [hparse]
  show (match foldSel doc (some (.idScheme tid steps)) none initSel
          (scanEvents doc).events with
        | .error e => Except.error e
        | .ok st' =>
          if (scanEvents doc).failed then Except.error "XML parse error"
          else
            match st'.startPos, st'.endPos with
            | some sp, some ep => Except.ok (jsSubstring doc sp ep)
            | _, _ =>
              (if !st'.idAnchorFound then
                Except.error ("XInclude xpointer target not found: " ++
                  tid)
              else
                if (match getSparse st'.idCounts 0, steps.get? 0 with
                    | some c, some s0 =>
                      decide (steps.length > 0) && decide (c < s0)
                    | _, _ => false) = true then
                  Except.error (formatStepError 1 (steps.getD 0 0)
                    ((getSparse st'.idCounts 0).getD 0) (some tid))
                else
                  match firstBadStep steps st'.idCounts 1 with
                  | some (i, req, avail) =>
                    Except.error (formatStepError (i + 1) req avail
                      (some tid))
                  | none =>
                    Except.error
                      ("XInclude xpointer target not found: " ++
                        tid))) = _
  rw [hfold]
  show (if (scanEvents doc).failed then Except.error "XML parse error"
        else
          match st.startPos, st.endPos with
          | some sp, some ep => Except.ok (jsSubstring doc sp ep)
          | _, _ =>
            (if !st.idAnchorFound then
              Except.error ("XInclude xpointer target not found: " ++
                tid)
            else
              if (match getSparse st.idCounts 0, steps.get? 0 with
                  | some c, some s0 =>
                    decide (steps.length > 0) && decide (c < s0)
                  | _, _ => false) = true then
                Except.error (formatStepError 1 (steps.getD 0 0)
                  ((getSparse st.idCounts 0).getD 0) (some tid))
              else
                match firstBadStep steps st.idCounts 1 with
                | some (i, req, avail) =>
                  Except.error (formatStepError (i + 1) req avail
                    (some tid))
                | none =>
                  Except.error ("XInclude xpointer target not found: " ++
                    tid))) = _
  rw [hfail]
  rw [hsp, hep]
  rfl

/-- C6: for an `AnchoredElement` xpointer `element(ID/steps)` on a
well-formed document (scan = flattening of forest `F`): the recorded
anchor is the first document-order element matching `ID` (later matches
are ignored, since nothing after the first match can rebind it); empty
steps select the anchor's own tag span; non-empty steps select the span
of the element reached by descending the 1-based sibling indices from
the anchor; when the first step exceeds the anchor's child count and no
element sits at the target path, the failure cites step 1 out of range
after the anchor id with the anchor's true child count; and when no
element matches `ID` at all the failure is target-not-found for the
id. -/
theorem C6_anchored_element (doc xp tid : String) (steps : List Nat)
    (F : XForest) (fp fl fc : Nat)
    (hparse : parseElementScheme xp = .ok (some (.idScheme tid steps)))
    (hscan : scanEvents doc = ⟨flattenF F, false, fp, fl, fc⟩) :
    (∀ apath anc, steps ≠ [] → anchorAtF tid F 0 apath anc →
      noMatchF (apath ++ steps) [] 0 F →
      ∃ st', foldSel doc (some (.idScheme tid steps)) none initSel
        (scanEvents doc).events = .ok st' ∧
        st'.idAnchorFound = true ∧ st'.idAnchorPath = some apath) ∧
    (∀ apath anc ts0, steps = [] → anchorAtF tid F 0 apath anc →
      lastIndexOfWithin doc '<' (anc.openPos - 1) = some ts0 →
      selectXPointerFragment doc xp =
        .ok (jsSubstring doc ts0 anc.closeEff)) ∧
    (∀ apath anc tgt ts0, steps ≠ [] → anchorAtF tid F 0 apath anc →
      elemChainF anc.kids 0 steps tgt →
      lastIndexOfWithin doc '<' (tgt.openPos - 1) = some ts0 →
      selectXPointerFragment doc xp =
        .ok (jsSubstring doc ts0 tgt.closeEff)) ∧
    (∀ apath anc s0, anchorAtF tid F 0 apath anc →
      steps.get? 0 = some s0 → countKids anc < s0 →
      noMatchF (apath ++ steps) [] 0 F →
      selectXPointerFragment doc xp =
        .error (formatStepError 1 s0 (countKids anc) (some tid))) ∧
    (noIdMatchF tid F →
      selectXPointerFragment doc xp =
        .error ("XInclude xpointer target not found: " ++ tid)) := by
  have hev : (scanEvents doc).events = flattenF F := by rw [hscan]
  have hfail : (scanEvents doc).failed = false := by rw [hscan]
  have hini : initSel = (⟨0, false, none, none, none, [0], [], [], [],
    none, false⟩ : SelSt) := rfl
  refine ⟨?_, ?_, ?_, ?_, ?_⟩
  · -- (i) first-match anchor is recorded
    intro apath anc hst hanc hnm
    obtain ⟨I', hfold, _⟩ := foldSel_id_anchor doc tid steps apath F 0 []
      [] none none [] [] anc hst hanc hnm
    simp only [List.length_nil, List.nil_append, Nat.zero_add] at hfold
    rw [← hini] at hfold
    rw [← hev] at hfold
    exact ⟨_, hfold, rfl, rfl⟩
  · -- (ii) empty steps: the anchor's own span
    intro apath anc ts0 hst hanc hlast
    subst hst
    obtain ⟨st', hfold, hfo, htd, hsp, hep⟩ := foldSel_id_anchor_mark doc
      tid apath F 0 [] [] none none [] [] anc ts0 hanc hlast
    simp only [List.length_nil, List.nil_append, Nat.zero_add] at hfold
    rw [← hini] at hfold
    rw [← hev] at hfold
    exact selectXPointerFragment_id_ok doc xp tid [] st' ts0 anc.closeEff
      hparse hfold hfail hsp hep
  · -- (iii) non-empty steps: descend from the anchor
    intro apath anc tgt ts0 hst hanc hchain hlast
    obtain ⟨st', hfold, hfo, htd, hsp, hep⟩ := foldSel_id_anchor_target
      doc tid steps apath F 0 [] [] none none [] [] anc tgt ts0 hst hanc
      hchain hlast
    simp only [List.length_nil, List.nil_append, Nat.zero_add] at hfold
    rw [← hini] at hfold
    rw [← hev] at hfold
    exact selectXPointerFragment_id_ok doc xp tid steps st' ts0
      tgt.closeEff hparse hfold hfail hsp hep
  · -- (iv) first step beyond the anchor's children
    intro apath anc s0 hanc hs0 hcnt hnm
    have hst : steps ≠ [] := by
      intro hc
      rw [hc] at hs0
      cases hs0
    obtain ⟨I', hfold, hread⟩ := foldSel_id_anchor doc tid steps apath F 0
      [] [] none none [] [] anc hst hanc hnm
    simp only [List.length_nil, List.nil_append, Nat.zero_add] at hfold
    rw [← hini] at hfold
    rw [← hev] at hfold
    rw [selectXPointerFragment_id_diag doc xp tid steps
      ⟨0, false, none, none, none, [lengthF F], [], [], I', some apath,
        true⟩ hparse hfold hfail rfl rfl]
    rw [show (!SelSt.idAnchorFound ⟨0, false, none, none, none,
      [lengthF F], [], [], I', some apath, true⟩) = false from rfl]
    rw [if_neg (by simp)]
    rw [if_pos (show _ = true from by
      show (match getSparse I' 0, steps.get? 0 with
            | some c, some s0 =>
              decide (steps.length > 0) && decide (c < s0)
            | _, _ => false) = true
      rw [hread, hs0]
      show (decide (steps.length > 0) && decide (countKids anc < s0)) =
        true
      rw [Bool.and_eq_true]
      constructor
      · apply decide_eq_true
        cases hq : steps with
        | nil => exact absurd hq hst
        | cons a as => simp [hq]
      · exact decide_eq_true hcnt)]
    rw [show SelSt.idCounts ⟨0, false, none, none, none, [lengthF F], [],
      [], I', some apath, true⟩ = I' from rfl]
    rw [hread]
    rw [getD_from_get? steps 0 0 s0 hs0]
    rfl
  · -- (v) no element matches the id
    intro hnm
    have hfold := foldSel_id_pre_forest doc tid steps F [] [] 0 none none
      [] [] hnm
    simp only [List.length_nil, List.nil_append, Nat.zero_add] at hfold
    rw [← hini] at hfold
    rw [← hev] at hfold
    rw [selectXPointerFragment_id_diag doc xp tid steps
      ⟨0, false, none, none, none, [lengthF F], [], [], [], none, false⟩
      hparse hfold hfail rfl rfl]
    rfl

def c6doc : String := "<r><a id=\"x\"><b/><c/></a></r>"
def c6nR : XNode := ⟨"r", "", "r", "", [], false⟩
def c6aAttr : XAttr := ⟨"id", "", "id", "", "x"⟩
def c6nA : XNode := ⟨"a", "", "a", "", [("id", c6aAttr)], false⟩
def c6nB : XNode := ⟨"b", "", "b", "", [], true⟩
def c6nC : XNode := ⟨"c", "", "c", "", [], true⟩
def c6tB : XTree := .node c6nB 17 1 17 17 .fnil
def c6tC : XTree := .node c6nC 21 1 21 21 .fnil
def c6tA : XTree := .node c6nA 13 1 13 25 (.fcons c6tB (.fcons c6tC .fnil))
def c6tR : XTree := .node c6nR 3 1 3 29 (.fcons c6tA .fnil)
def c6F : XForest := .fcons c6tR .fnil

theorem c6F_flat : flattenF c6F =
    [XEvent.openTag c6nR 3 1 3,
     XEvent.openTag c6nA 13 1 13,
     XEvent.openTag c6nB 17 1 17,
     XEvent.closeTag c6nB 17,
     XEvent.openTag c6nC 21 1 21,
     XEvent.closeTag c6nC 21,
     XEvent.closeTag c6nA 25,
     XEvent.closeTag c6nR 29] := by
  simp [flattenF, flattenT, c6F, c6tR, c6tA, c6tB, c6tC, c6nR, c6nA,
    c6nB, c6nC]

theorem C6_witness :
    selectXPointerFragment c6doc "element(x/2)" = .ok "<c/>" := by
  have hanc : anchorAtF "x" c6F 0 [1, 1] c6tA := by
    simp only [anchorAtF]
    refine ⟨Nat.zero_lt_one, fun i t0 h1 h2 _ => absurd h1 (by omega),
      c6tR, rfl, ?_⟩
    rw [if_neg (by decide : ¬ ([1] : List Nat) = [])]
    refine ⟨by decide, by decide,
      ⟨Nat.zero_lt_one, fun i t0 h1 h2 _ => absurd h1 (by omega),
        c6tA, rfl, ?_⟩⟩
    rw [if_pos trivial]
    exact ⟨rfl, by decide⟩
  have hchain : elemChainF c6tA.kids 0 [2] c6tC := by
    simp only [elemChainF]
    refine ⟨by decide, c6tC, rfl, ?_⟩
    rw [if_pos trivial]
  have h := (C6_anchored_element c6doc "element(x/2)" "x" [2] c6F 29 1 29
    (by rfl) (by rw [c6F_flat]; decide)).2.2.1
    [1, 1] c6tA c6tC 17 (by decide) hanc hchain (by decide)
  rw [h]
  rfl
